import Mathlib

/-!
Verification development for a segregated-free-list dynamic memory allocator
(`src/mm.c`).  The heap is modelled as a word-granular memory `Nat → Nat`:
every load/store performed by the allocator goes through the 8-byte-word
macros `GET`/`PUT` at 8-aligned byte addresses, so we index memory by the
byte address of the word.  The null pointer is the address `0`.  The backing
collaborator `mem_sbrk` (from the lab harness `memlib`, not part of `src/`)
is modelled from the spec as a grow primitive that either extends the
managed region at the break and returns the old break, or refuses.
-/

set_option maxRecDepth 4000

namespace MM

/-- Word-granular memory: byte address of an 8-aligned word to its value. -/
abbrev Mem := Nat → Nat

/-- Models `PUT(p, val)`, a store of one 8-byte word. -/
def writeW (m : Mem) (a v : Nat) : Mem := fun x => if x = a then v else m x

@[simp] theorem writeW_same (m : Mem) (a v : Nat) : writeW m a v a = v := by
  simp [writeW]

theorem writeW_other (m : Mem) (a v x : Nat) (h : x ≠ a) : writeW m a v x = m x := by
  simp [writeW, h]

/-- `WSIZE`: word size in bytes. -/
def WSIZE : Nat := 8

/-- `DWORD`: double word in bytes. -/
def DWORD : Nat := 16

/-- `CHUNKSIZE`: heap extension unit in bytes, `1 << 8`. -/
def CHUNKSIZE : Nat := 256

/-- `MAX_LISTS`: total free-list count. -/
def MAX_LISTS : Nat := 16

/-- Models `PACK(size, prev_alloc, alloc)`, the bitwise-or of the three fields. -/
def PACK (size prev_alloc alloc : Nat) : Nat := size ||| prev_alloc ||| alloc

/-- Models `GET_SIZE(p) = GET(p) & ~0x7` (clear the low three bits) applied to a
word value. -/
def GET_SIZE (v : Nat) : Nat := v - v % 8

/-- Models `GET_PREV_ALLOC(p) = GET(p) & 0x2` applied to a word value. -/
def GET_PREV_ALLOC (v : Nat) : Nat := v % 4 - v % 2

/-- Models `GET_ALLOC(p) = GET(p) & 0x1` applied to a word value. -/
def GET_ALLOC (v : Nat) : Nat := v % 2

/-- Models `HDRP(ptr) = (char *)ptr - WSIZE`. -/
def HDRP (ptr : Nat) : Nat := ptr - WSIZE

/-- Models `FTRP(ptr) = (char *)ptr + GET_SIZE(HDRP(ptr)) - DWORD`. -/
def FTRP (m : Mem) (ptr : Nat) : Nat := ptr + GET_SIZE (m (HDRP ptr)) - DWORD

/-- Models `NEXT_BLOCK(ptr) = (char *)ptr + GET_SIZE((char *)ptr - WSIZE)`. -/
def NEXT_BLOCK (m : Mem) (ptr : Nat) : Nat := ptr + GET_SIZE (m (ptr - WSIZE))

/-- Models `PREV_BLOCK(ptr) = (char *)ptr - GET_SIZE((char *)ptr - DWORD)`. -/
def PREV_BLOCK (m : Mem) (ptr : Nat) : Nat := ptr - GET_SIZE (m (ptr - DWORD))

/-- Models `NEXT_ADDRESS(ptr)`: the word holding a free block's next pointer. -/
def NEXT_ADDRESS (ptr : Nat) : Nat := ptr

/-- Models `PREV_ADDRESS(ptr)`: the word holding a free block's prev pointer. -/
def PREV_ADDRESS (ptr : Nat) : Nat := ptr + WSIZE

/-- Models `NEXT_FLIST_ADDRESS(ptr) = (char *)GET(ptr)`. -/
def NEXT_FLIST_ADDRESS (m : Mem) (ptr : Nat) : Nat := m ptr

/-- Models `PREV_FLIST_ADDRESS(ptr) = (char *)GET(PREV_ADDRESS(ptr))`. -/
def PREV_FLIST_ADDRESS (m : Mem) (ptr : Nat) : Nat := m (PREV_ADDRESS ptr)

/-- Models `GET_ROOT(heap, list)`: read the root slot of free list `list`. -/
def GET_ROOT (m : Mem) (heap l : Nat) : Nat := m (heap + l * WSIZE)

/-- Models `SET_ROOT(heap, list, new_root)`. -/
def SET_ROOT (m : Mem) (heap l new_root : Nat) : Mem :=
  writeW m (heap + l * WSIZE) new_root

/-- Models the 64-bit operation `size & ~(1 << k)` for `k < 15`: clear bit `k`. -/
def clearBitC (s k : Nat) : Nat := if s.testBit k then s - 2 ^ k else s

/-- Loop of `get_list`: iteratively clear bits `0,1,2,...` of `size` while
`size > 0 && list_check < MAX_LISTS - 1`.  The structural counter equals
`MAX_LISTS - 1 - list_check`, the bound the loop condition enforces, so the
function agrees with the C loop on every input. -/
def get_list_go : Nat → Nat → Nat → Nat
  | 0, _, list_check => list_check
  | f + 1, size, list_check =>
    if size > 0 ∧ list_check < MAX_LISTS - 1 then
      get_list_go f (clearBitC size list_check) (list_check + 1)
    else
      list_check

/-- Models `get_list(size)`: the free-list index for a block size. -/
def get_list (size : Nat) : Nat := get_list_go (MAX_LISTS - 1) size 0

/-- Models `remove_block(ptr)`: unlink a node from its free list.  Takes the
`free_start` root array base `fs` explicitly (a global in the C code). -/
def remove_block (fs : Nat) (m : Mem) (ptr : Nat) : Mem :=
  let list_num := get_list (GET_SIZE (m (HDRP ptr)))
  let prev_node := PREV_FLIST_ADDRESS m ptr
  let next_node := NEXT_FLIST_ADDRESS m ptr
  let m1 :=
    if prev_node = 0 ∧ next_node = 0 then
      SET_ROOT m fs list_num 0
    else if next_node = 0 then
      writeW m (NEXT_ADDRESS prev_node) 0
    else if prev_node = 0 then
      writeW (SET_ROOT m fs list_num next_node) (PREV_ADDRESS next_node) 0
    else
      writeW (writeW m (PREV_ADDRESS next_node) prev_node) (NEXT_ADDRESS prev_node) next_node
  writeW (writeW m1 (PREV_ADDRESS ptr) 0) (NEXT_ADDRESS ptr) 0

/-- The search loop of `add_block`: advance `root_trace` while
`root_trace < new_ptr && NEXT_FLIST_ADDRESS(root_trace) != NULL`. -/
def add_walk (m : Mem) : Nat → Nat → Nat → Nat
  | 0, node, _ => node
  | f + 1, node, new_ptr =>
    if node < new_ptr ∧ NEXT_FLIST_ADDRESS m node ≠ 0 then
      add_walk m f (NEXT_FLIST_ADDRESS m node) new_ptr
    else
      node

/-- Models `add_block(ptr)`: address-ordered insertion into the bucket list
selected by `get_list` of the block's size. -/
def add_block (fs fuel : Nat) (m0 : Mem) (ptr : Nat) : Mem :=
  let list_num := get_list (GET_SIZE (m0 (HDRP ptr)))
  let new_ptr := ptr
  let m := writeW (writeW m0 (NEXT_ADDRESS ptr) 0) (PREV_ADDRESS ptr) 0
  let root_trace := GET_ROOT m fs list_num
  if root_trace = 0 then
    SET_ROOT m fs list_num ptr
  else if root_trace > new_ptr then
    writeW (writeW (SET_ROOT m fs list_num ptr) (NEXT_ADDRESS ptr) root_trace)
      (PREV_ADDRESS root_trace) ptr
  else if NEXT_FLIST_ADDRESS m root_trace = 0 then
    writeW (writeW m (NEXT_ADDRESS root_trace) ptr) (PREV_ADDRESS ptr) root_trace
  else
    let rt := add_walk m fuel root_trace new_ptr
    let next := NEXT_FLIST_ADDRESS m rt
    let prev := PREV_FLIST_ADDRESS m rt
    if next = 0 then
      if new_ptr ≤ rt then
        writeW (writeW (writeW (writeW m (PREV_ADDRESS rt) new_ptr)
          (NEXT_ADDRESS new_ptr) rt) (PREV_ADDRESS new_ptr) prev) (NEXT_ADDRESS prev) new_ptr
      else
        writeW (writeW m (NEXT_ADDRESS rt) new_ptr) (PREV_ADDRESS new_ptr) rt
    else
      writeW (writeW (writeW (writeW m (NEXT_ADDRESS new_ptr) rt)
        (PREV_ADDRESS new_ptr) prev) (NEXT_ADDRESS prev) new_ptr) (PREV_ADDRESS rt) new_ptr

/-- Models `coalesce(ptr)`: merge with free heap neighbors; returns the new
memory and the representative block address. -/
def coalesce (fs fuel : Nat) (m : Mem) (ptr : Nat) : Mem × Nat :=
  let prev_block_alloc := GET_PREV_ALLOC (m (HDRP ptr))
  let next_block := NEXT_BLOCK m ptr
  let next_block_alloc := GET_ALLOC (m (HDRP next_block))
  let ptr_size := GET_SIZE (m (HDRP ptr))
  if prev_block_alloc ≠ 0 ∧ next_block_alloc = 0 then
    -- Case 1: next block is free, previous is not.
    let ptr_size := ptr_size + GET_SIZE (m (HDRP next_block))
    let m := remove_block fs m next_block
    let m := writeW m (HDRP ptr) (PACK ptr_size 2 0)
    let m := writeW m (FTRP m ptr) (PACK ptr_size 2 0)
    let m := add_block fs fuel m ptr
    (m, ptr)
  else if prev_block_alloc = 0 ∧ next_block_alloc ≠ 0 then
    -- Case 2: previous block not allocated, next block is.
    let prev_block := PREV_BLOCK m ptr
    let other_block_size := GET_SIZE (m (HDRP prev_block))
    let ptr_size := ptr_size + other_block_size
    let list_num := get_list other_block_size
    if 1 <<< list_num ≤ ptr_size then
      let m := remove_block fs m prev_block
      let ptr := prev_block
      let m := writeW m (HDRP ptr) (PACK ptr_size 2 0)
      let m := writeW m (FTRP m ptr) (PACK ptr_size 2 0)
      let m := add_block fs fuel m ptr
      (m, ptr)
    else
      let ptr := prev_block
      let m := writeW m (HDRP ptr) (PACK ptr_size 2 0)
      let m := writeW m (FTRP m ptr) (PACK ptr_size 2 0)
      (m, ptr)
  else if prev_block_alloc ≠ 0 ∧ next_block_alloc ≠ 0 then
    -- Case 3: both neighbors in use.
    (add_block fs fuel m ptr, ptr)
  else
    -- Case 4: both neighbors free.
    let prev_block := PREV_BLOCK m ptr
    let m := remove_block fs m next_block
    let ptr_size := ptr_size + GET_SIZE (m (HDRP prev_block)) + GET_SIZE (m (HDRP next_block))
    let list_num := get_list (GET_SIZE (m (HDRP prev_block)))
    if 1 <<< list_num > ptr_size then
      let ptr := prev_block
      let m := writeW m (HDRP ptr) (PACK ptr_size 2 0)
      let m := writeW m (FTRP m ptr) (PACK ptr_size 2 0)
      (m, ptr)
    else
      let m := remove_block fs m prev_block
      let ptr := prev_block
      let m := writeW m (HDRP ptr) (PACK ptr_size 2 0)
      let m := writeW m (FTRP m ptr) (PACK ptr_size 2 0)
      let m := add_block fs fuel m ptr
      (m, ptr)

/-- The list of addresses obtained by following `NEXT_FLIST_ADDRESS` links
from a node, with a fuel bound; `0` terminates a list. -/
def chain (m : Mem) : Nat → Nat → List Nat
  | 0, _ => []
  | f + 1, p => if p = 0 then [] else p :: chain m f (NEXT_FLIST_ADDRESS m p)

/-- The proposition that following `NEXT_FLIST_ADDRESS` links from root `r`
visits exactly the nodes of `l` and then reaches null. -/
def isChain (m : Mem) : Nat → List Nat → Prop
  | r, [] => r = 0
  | r, a :: l => r = a ∧ a ≠ 0 ∧ isChain m (NEXT_FLIST_ADDRESS m a) l

/-- Decidability of `isChain`, by recursion on the node list. -/
def isChainDec (m : Mem) : (r : Nat) → (l : List Nat) → Decidable (isChain m r l)
  | _, [] => by unfold isChain; infer_instance
  | r, a :: l => by
      unfold isChain
      have := isChainDec m (NEXT_FLIST_ADDRESS m a) l
      infer_instance

instance (m : Mem) (r : Nat) (l : List Nat) : Decidable (isChain m r l) :=
  isChainDec m r l

/-- The proposition that the `PREV_FLIST_ADDRESS` back links of the nodes of
`l` are consistent with the chain order, the first node pointing back to
`prior` (null for a list root). -/
def prevOk (m : Mem) (prior : Nat) (l : List Nat) : Prop :=
  List.Chain (fun a c => PREV_FLIST_ADDRESS m c = a) prior l

/-- Decidability of `prevOk`, by recursion on the node list (kept
kernel-reducible so that concrete instances evaluate by `decide`). -/
def prevOkDec (m : Mem) : (prior : Nat) → (l : List Nat) → Decidable (prevOk m prior l)
  | _, [] => isTrue List.Chain.nil
  | prior, a :: l =>
    match Nat.decEq (PREV_FLIST_ADDRESS m a) prior, prevOkDec m a l with
    | isTrue h1, isTrue h2 => isTrue (List.Chain.cons h1 h2)
    | isFalse h1, _ => isFalse (fun hc => h1 (List.chain_cons.mp hc).1)
    | _, isFalse h2 => isFalse (fun hc => h2 (List.chain_cons.mp hc).2)

instance (m : Mem) (prior : Nat) (l : List Nat) : Decidable (prevOk m prior l) :=
  prevOkDec m prior l

/-- An over-approximation of the set of addresses `remove_block(ptr)` writes:
the block's own two link words, its list neighbors' link words, and the
bucket root slot. -/
def removeWrites (fs : Nat) (m : Mem) (ptr : Nat) : List Nat :=
  [NEXT_ADDRESS ptr, PREV_ADDRESS ptr, PREV_FLIST_ADDRESS m ptr,
    PREV_ADDRESS (NEXT_FLIST_ADDRESS m ptr),
    fs + get_list (GET_SIZE (m (HDRP ptr))) * WSIZE]

/-- The allocator's global state: the word memory, the program break of the
backing region, and the four static pointers of `mm.c`. -/
structure AllocState where
  mem : Mem
  brk : Nat
  free_start : Nat
  heap_prologue : Nat
  heap_epilogue : Nat
  heap_start : Nat

/-- Modelled from the spec: the backing collaborator primitive
`grow(bytes) -> base_address | failure` (`mem_sbrk` of `memlib`, not part of
`src/`).  It extends the managed region monotonically at the break and
returns the old break, or refuses; the decision oracle `growOk` is a
parameter of the model. -/
def mem_sbrk (growOk : Nat → Nat → Bool) (st : AllocState) (incr : Nat) :
    AllocState × Option Nat :=
  if growOk st.brk incr then ({ st with brk := st.brk + incr }, some st.brk)
  else (st, none)

/-- Models `extend_heap(words)`: grow the heap, format the new span as one
free block, write a fresh epilogue, then insert (or coalesce) the block. -/
def extend_heap (growOk : Nat → Nat → Bool) (fuel : Nat) (st : AllocState)
    (words : Nat) : AllocState × Option Nat :=
  let size := if words % 2 = 1 then (words + 1) * WSIZE else words * WSIZE
  let end_alloc := GET_PREV_ALLOC (st.mem st.heap_epilogue)
  match mem_sbrk growOk st size with
  | (st1, none) => (st1, none)
  | (st1, some ptr) =>
    let m := writeW st1.mem (HDRP ptr) (PACK size end_alloc 0)
    let m := writeW m (FTRP m ptr) (PACK size end_alloc 0)
    let m := writeW m (HDRP (NEXT_BLOCK m ptr)) (PACK 0 0 1)
    let epi := HDRP (NEXT_BLOCK m ptr)
    let st2 := { st1 with mem := m, heap_epilogue := epi }
    if end_alloc ≠ 0 then
      ({ st2 with mem := add_block st2.free_start fuel st2.mem ptr }, some ptr)
    else
      let r := coalesce st2.free_start fuel st2.mem ptr
      ({ st2 with mem := r.1 }, some r.2)

/-- Inner loop of `find_fit`: scan one bucket's list for the first block of
at least the requested size; `0` plays the role of `NULL`. -/
def find_fit_walk (m : Mem) : Nat → Nat → Nat → Nat
  | 0, _, _ => 0
  | f + 1, size, ptr =>
    if ptr ≠ 0 then
      if size ≤ GET_SIZE (m (HDRP ptr)) then ptr
      else find_fit_walk m f size (NEXT_FLIST_ADDRESS m ptr)
    else 0

/-- Outer loop of `find_fit`: scan buckets `list_num, ..., MAX_LISTS - 1`.
The structural counter is an upper bound on the remaining bucket count; the
loop guard `list_num < MAX_LISTS` still decides termination, so with counter
`MAX_LISTS` the function agrees with the C loop on every input. -/
def find_fit_lists (m : Mem) (fs fuel size : Nat) : Nat → Nat → Nat
  | 0, _ => 0
  | r + 1, list_num =>
    if list_num < MAX_LISTS then
      let t := find_fit_walk m fuel size (GET_ROOT m fs list_num)
      if t ≠ 0 then t else find_fit_lists m fs fuel size r (list_num + 1)
    else 0

/-- Models `find_fit(size)`: first fit starting from the bucket of `size`. -/
def find_fit (m : Mem) (fs fuel size : Nat) : Nat :=
  find_fit_lists m fs fuel size MAX_LISTS (get_list size)

/-- Models `place(ptr, size)`: unlink the chosen block, allocate it, and split
off the remainder when the internal fragmentation exceeds `1 << 6` bytes. -/
def place (fs fuel : Nat) (m : Mem) (ptr size : Nat) : Mem × Nat :=
  let next_block := NEXT_BLOCK m ptr
  let next_block_size := GET_SIZE (m (HDRP next_block))
  let old_size := GET_SIZE (m (HDRP ptr))
  let frag_count := old_size - size
  let m := remove_block fs m ptr
  if frag_count > 1 <<< 6 then
    let m := writeW m (HDRP next_block) (PACK next_block_size 0 1)
    let m := writeW m (HDRP ptr) (PACK size 2 1)
    let split_block := NEXT_BLOCK m ptr
    let m := writeW m (HDRP split_block) (PACK frag_count 2 0)
    let m := writeW m (FTRP m split_block) (PACK frag_count 2 0)
    let m := add_block fs fuel m split_block
    (m, ptr)
  else
    let m := writeW m (HDRP next_block) (PACK next_block_size 2 1)
    let m := writeW m (HDRP ptr) (PACK old_size 2 1)
    (m, ptr)

/-- The root-array initialisation loop of `mm_init`: zero the `MAX_LISTS`
root slots. -/
def zeroRoots (m : Mem) (fs : Nat) : Nat → Mem
  | 0 => m
  | i + 1 => writeW (zeroRoots m fs i) (fs + i * WSIZE) 0

/-- Models `mm_init()`: carve the root array, the prologue and the epilogue,
then seed the heap with one `CHUNKSIZE` extension.  Returns `false` exactly
when the C function returns `-1`. -/
def mm_init (growOk : Nat → Nat → Bool) (fuel : Nat) (st0 : AllocState) :
    AllocState × Bool :=
  match mem_sbrk growOk st0 ((MAX_LISTS + 3) * WSIZE) with
  | (st, none) => (st, false)
  | (st, some base) =>
    let fs := base
    let hp := base + (MAX_LISTS + 1) * WSIZE
    let m := zeroRoots st.mem fs MAX_LISTS
    let m := writeW m (HDRP hp) (PACK DWORD 2 1)
    let m := writeW m (FTRP m hp) (PACK DWORD 2 1)
    let epi := HDRP (NEXT_BLOCK m hp)
    let m := writeW m epi (PACK 0 2 1)
    let st1 : AllocState :=
      { mem := m, brk := st.brk, free_start := fs, heap_prologue := hp
        heap_epilogue := epi, heap_start := st.heap_start }
    match extend_heap growOk fuel st1 (CHUNKSIZE / WSIZE) with
    | (st2, none) => (st2, false)
    | (st2, some hs) => ({ st2 with heap_start := hs }, true)

/-- The request-rounding computation shared by `mm_malloc` and `mm_realloc`:
below the 32-byte threshold use the 64-byte minimum block, otherwise round up
to a 16-byte multiple after adding a double word of overhead. -/
def roundSize (size : Nat) : Nat :=
  if size ≤ 32 then 2 * 32 else DWORD * ((size + DWORD + (DWORD - 1)) / DWORD)

/-- Models `mm_malloc(size)`: find a fit or extend the heap, then place.
Returns the payload address, with `0` for `NULL`. -/
def mm_malloc (growOk : Nat → Nat → Bool) (fuel : Nat) (st : AllocState)
    (size0 : Nat) : AllocState × Nat :=
  if size0 = 0 then (st, 0)
  else
    let size := roundSize size0
    let p := find_fit st.mem st.free_start fuel size
    if p ≠ 0 then
      let r := place st.free_start fuel st.mem p size
      ({ st with mem := r.1 }, p)
    else
      let extend_size := max size CHUNKSIZE
      match extend_heap growOk fuel st (extend_size / WSIZE) with
      | (st1, none) => (st1, 0)
      | (st1, some p1) =>
        let r := place st1.free_start fuel st1.mem p1 size
        ({ st1 with mem := r.1 }, p1)

/-- Models `mm_free(ptr)`: clear the allocated flag, propagate the freed
status to the successor, then coalesce. -/
def mm_free (fuel : Nat) (st : AllocState) (ptr : Nat) : AllocState :=
  let m := st.mem
  let ptr_size := GET_SIZE (m (HDRP ptr))
  let next_block := NEXT_BLOCK m ptr
  let prev_block_alloc := GET_PREV_ALLOC (m (HDRP ptr))
  let next_block_size := GET_SIZE (m (HDRP next_block))
  let next_block_alloc := GET_ALLOC (m (HDRP next_block))
  let m := writeW m (HDRP ptr) (PACK ptr_size prev_block_alloc 0)
  let m := writeW m (FTRP m ptr) (PACK ptr_size prev_block_alloc 0)
  let m := writeW m (HDRP next_block) (PACK next_block_size 0 next_block_alloc)
  let m := if next_block_alloc = 0 then
      writeW m (FTRP m next_block) (PACK next_block_size 0 0)
    else m
  let r := coalesce st.free_start fuel m ptr
  { st with mem := r.1 }

/-- Models the word-aligned `memcpy(dst, src, 8 * words)` performed by
`mm_realloc` (the byte count there is always a multiple of 16). -/
def memcpyWords (m : Mem) (dst src : Nat) : Nat → Mem
  | 0 => m
  | n + 1 => writeW (memcpyWords m dst src n) (dst + n * WSIZE) (m (src + n * WSIZE))

/-- Models `mm_realloc(ptr, size)`: alias to malloc/free on degenerate
arguments; same-size no-op; in-place absorption of a free successor when
strictly large enough; otherwise allocate-copy-free.  The shrink branch is
gated by the constant-false condition `(0) && !next_alloc` as in the C. -/
def mm_realloc (growOk : Nat → Nat → Bool) (fuel : Nat) (st : AllocState)
    (ptr size0 : Nat) : AllocState × Nat :=
  if ptr = 0 then mm_malloc growOk fuel st size0
  else if size0 = 0 then (mm_free fuel st ptr, 0)
  else
    let new_ptr := ptr
    let old_size := GET_SIZE (st.mem (HDRP ptr))
    let old_prev_alloc := GET_PREV_ALLOC (st.mem (HDRP ptr))
    let size := roundSize size0
    let next_ptr := NEXT_BLOCK st.mem ptr
    let next_alloc := GET_ALLOC (st.mem (HDRP next_ptr))
    let next_size := GET_SIZE (st.mem (HDRP next_ptr))
    if size = old_size then
      (st, ptr)
    else if size > old_size then
      if next_alloc = 0 ∧ next_size + old_size > size then
        let m := remove_block st.free_start st.mem next_ptr
        let m := writeW m (HDRP ptr) (PACK (next_size + old_size) old_prev_alloc 1)
        let next_ptr2 := NEXT_BLOCK m ptr
        let next_size2 := GET_SIZE (m (HDRP next_ptr2))
        let m := writeW m (HDRP (NEXT_BLOCK m ptr)) (PACK next_size2 2 1)
        ({ st with mem := m }, ptr)
      else
        let r := mm_malloc growOk fuel st size
        if r.2 = 0 then (r.1, 0)
        else
          let m := memcpyWords r.1.mem r.2 ptr (size / WSIZE)
          let st2 := mm_free fuel { r.1 with mem := m } ptr
          (st2, r.2)
    else if (0 : Nat) ≠ 0 ∧ next_alloc = 0 then
      -- Case 3 of the C code: unreachable shrink-and-split branch.
      if old_size - size > 1 <<< 30 then
        let m := writeW st.mem (HDRP ptr)
          (PACK size (GET_PREV_ALLOC (st.mem (HDRP ptr))) 1)
        let split_ptr := NEXT_BLOCK m ptr
        let m := writeW m (HDRP split_ptr) (PACK (old_size - size) 2 1)
        let st2 := mm_free fuel { st with mem := m } split_ptr
        (st2, new_ptr)
      else (st, new_ptr)
    else (st, new_ptr)

/-- Write the words of `vs` consecutively starting at address `a`: the word
stores the user performs on a fresh payload before a resize. -/
def writeWords (m : Mem) (a : Nat) : List Nat → Mem
  | [] => m
  | v :: vs => writeWords (writeW m a v) (a + WSIZE) vs

/-- Read `w` consecutive words starting at address `a`. -/
def readWords (m : Mem) (a w : Nat) : List Nat :=
  (List.range w).map (fun i => m (a + WSIZE * i))

end MM

namespace MM

/-- The always-successful grow oracle used by concrete executions. -/
def growAll : Nat → Nat → Bool := fun _ _ => true

/-- A grow oracle that refuses once the break passes 1300: used to exercise
the out-of-memory paths. -/
def growUntil1300 : Nat → Nat → Bool := fun b _ => b ≤ 1300

/-- The pristine backing region: zeroed words, break at 1024 (a 16-byte
aligned base address for the managed region). -/
def initialState : AllocState :=
  { mem := fun _ => 0, brk := 1024, free_start := 0, heap_prologue := 0
    heap_epilogue := 0, heap_start := 0 }

/-- The allocator state right after a successful `mm_init`. -/
def stInit : AllocState := (mm_init growAll 100 initialState).1

/-- The byte count `extend_heap` passes to the grow primitive: the requested
word count rounded up to an even number of words. -/
def sbrkSize (words : Nat) : Nat :=
  if words % 2 = 1 then (words + 1) * WSIZE else words * WSIZE

/-- After init, one minimal allocation: a 64-byte block at 1176, with a free
192-byte block at 1240 behind it. -/
def stA1 : AllocState := (mm_malloc growAll 100 stInit 1).1

/-- After init, one 49-byte request: an 80-byte block at 1176. -/
def stW4 : AllocState := (mm_malloc growAll 100 stInit 49).1

/-- After init: three allocations tiling the whole seed chunk (64 at 1176,
64 at 1240, 128 at 1304) and then a free of the middle one. -/
def stC7 : AllocState :=
  mm_free 100 (mm_malloc growAll 100
    (mm_malloc growAll 100 (mm_malloc growAll 100 stInit 1).1 1).1 97).1 1240

/-- A handcrafted memory for the coalesce case-2 fast path: a free 144-byte
block (payload 200), a newly freed 64-byte block (payload 344), and an
allocated successor (payload 408). -/
def mC10a : Mem :=
  writeW (writeW (writeW (writeW (fun _ => 0) 192 146) 328 146) 336 64) 400 81

/-- A handcrafted memory for the coalesce case-4 fast path: a free 272-byte
block (payload 1000), a newly freed 64-byte block (payload 1272), and a free
64-byte successor (payload 1336) that is the sole node of bucket 7 whose
root slot sits at address 56. -/
def mC10b : Mem :=
  writeW (writeW (writeW (writeW (writeW (fun _ => 0) 992 274) 1256 274) 1264 64) 1328 64) 56 1336

/-- A handcrafted memory for free-list insertion: bucket 7 (sizes 64..127) of a
heap whose root slots start at address 0 holds the chain `[1000, 2008]`, and a
free 64-byte block with payload 1512 (header word 1504) is about to be
inserted between them. -/
def mAdd : Mem :=
  writeW (writeW (writeW (writeW (fun _ => 0) 1504 64) 56 1000) 1000 2008) 2016 1000

/-- A handcrafted memory for free-list removal: bucket 7 holds the chain
`[1000, 1512, 2008]` with consistent prev links, and the interior node 1512
(header word 1504, size 64) is about to be removed. -/
def mRem : Mem :=
  writeW (writeW (writeW (writeW (writeW (writeW (fun _ => 0) 1504 64) 56 1000)
    1000 1512) 1512 2008) 1520 1000) 2016 1512

/-- The round-trip pipeline, step 1: allocate `n` bytes from the freshly
initialised heap. -/
def c9malloc (n : Nat) : AllocState × Nat := mm_malloc growAll 100 stInit n

/-- Step 2: fill the start of the fresh payload with the word pattern `P`. -/
def c9fill (n : Nat) (P : List Nat) : AllocState :=
  { (c9malloc n).1 with mem := writeWords ((c9malloc n).1).mem (c9malloc n).2 P }

/-- Step 3: resize the filled allocation to `m` bytes. -/
def c9resize (n m : Nat) (P : List Nat) : AllocState × Nat :=
  mm_realloc growAll 100 (c9fill n P) (c9malloc n).2 m

/-- The heap shape reached from a fresh heap by one allocation that leaves a
free remainder: an allocated block of size `B` with payload 1176, followed by
a free block of size `S` that is the sole node of its bucket; records the
words every later `mm_realloc` path reads outside the payload. -/
def shapeA (st : AllocState) (B S : Nat) : Prop :=
  64 ≤ B ∧ B % 16 = 0 ∧ 80 ≤ S ∧ S ≤ 256 ∧ S % 16 = 0 ∧
  st.free_start = 1024 ∧ st.heap_prologue = 1160 ∧
  st.heap_epilogue = 1168 + B + S ∧ st.brk = 1176 + B + S ∧
  st.mem 1168 = B + 3 ∧
  st.mem (1168 + B) = S + 2 ∧ st.mem (1176 + B) = 0 ∧ st.mem (1184 + B) = 0 ∧
  st.mem (1160 + B + S) = S + 2 ∧ st.mem (1168 + B + S) = 1 ∧
  (∀ k, k < 16 → st.mem (1024 + 8 * k) = if k = get_list S then 1176 + B else 0)

/-- The heap shape reached from a fresh heap by one allocation that consumes
the whole 256-byte seed block: an allocated block of size 256 with payload
1176 directly against the epilogue, and an empty registry. -/
def shapeB (st : AllocState) : Prop :=
  st.free_start = 1024 ∧ st.heap_prologue = 1160 ∧
  st.heap_epilogue = 1424 ∧ st.brk = 1432 ∧
  st.mem 1168 = 259 ∧ st.mem 1424 = 3 ∧
  (∀ k, k < 16 → st.mem (1024 + 8 * k) = 0)

end MM

namespace MM

theorem lor_eq_add_aux (s c : Nat) (hs : s % 8 = 0) (hc : c < 8) : s ||| c = s + c := by
  obtain ⟨q, rfl⟩ : ∃ q, s = 8 * q := ⟨s / 8, by omega⟩
  apply Nat.eq_of_testBit_eq
  intro i
  rw [Nat.testBit_lor, Nat.testBit_to_div_mod, Nat.testBit_to_div_mod,
    Nat.testBit_to_div_mod, Bool.eq_iff_iff]
  simp only [Bool.or_eq_true, decide_eq_true_eq]
  rcases Nat.lt_or_ge i 3 with hi | hi
  · interval_cases i <;> simp <;> omega
  · obtain ⟨d, hd⟩ : ∃ d, 2 ^ i = 8 * d := ⟨2 ^ (i - 3), by
      rw [show (8 : Nat) = 2 ^ 3 by norm_num, ← pow_add]
      congr 1; omega⟩
    have hcz : c / 2 ^ i = 0 := by
      apply Nat.div_eq_of_lt
      calc c < 8 := hc
        _ ≤ 2 ^ i := by
          calc (8 : Nat) = 2 ^ 3 := by norm_num
            _ ≤ 2 ^ i := Nat.pow_le_pow_right (by norm_num) hi
    have h1 : (8 * q + c) / 2 ^ i = 8 * q / 2 ^ i := by
      rw [hd, ← Nat.div_div_eq_div_mul, ← Nat.div_div_eq_div_mul]
      congr 1
      rw [Nat.add_comm, Nat.add_mul_div_left _ _ (by norm_num : (0:Nat) < 8)]
      omega
    rw [h1, hcz]
    omega

theorem PACK_eq_add (s p a : Nat) (hs : s % 8 = 0) (hp : p = 0 ∨ p = 2)
    (ha : a = 0 ∨ a = 1) : PACK s p a = s + p + a := by
  unfold PACK
  rcases hp with rfl | rfl <;> rcases ha with rfl | rfl
  · simp
  · simpa using lor_eq_add_aux s 1 hs (by norm_num)
  · simpa using lor_eq_add_aux s 2 hs (by norm_num)
  · rw [Nat.lor_assoc, show (2 ||| 1 : Nat) = 3 by decide]
    simpa using lor_eq_add_aux s 3 hs (by norm_num)

theorem GET_SIZE_PACK (s p a : Nat) (hs : s % 8 = 0) (hp : p = 0 ∨ p = 2)
    (ha : a = 0 ∨ a = 1) : GET_SIZE (PACK s p a) = s := by
  rw [PACK_eq_add s p a hs hp ha]; unfold GET_SIZE; omega

theorem GET_ALLOC_PACK (s p a : Nat) (hs : s % 8 = 0) (hp : p = 0 ∨ p = 2)
    (ha : a = 0 ∨ a = 1) : GET_ALLOC (PACK s p a) = a := by
  rw [PACK_eq_add s p a hs hp ha]; unfold GET_ALLOC; omega

theorem GET_PREV_ALLOC_PACK (s p a : Nat) (hs : s % 8 = 0) (hp : p = 0 ∨ p = 2)
    (ha : a = 0 ∨ a = 1) : GET_PREV_ALLOC (PACK s p a) = p := by
  rw [PACK_eq_add s p a hs hp ha]; unfold GET_PREV_ALLOC; omega

theorem clearBitC_mul (m k : Nat) : clearBitC (m * 2 ^ k) k = m / 2 * 2 ^ (k + 1) := by
  have hpos : 0 < 2 ^ k := Nat.pos_pow_of_pos k (by norm_num)
  have hdiv : m * 2 ^ k / 2 ^ k = m := Nat.mul_div_cancel _ hpos
  have hpow : (2 : Nat) ^ (k + 1) = 2 ^ k * 2 := by rw [pow_succ]
  unfold clearBitC
  rw [Nat.testBit_to_div_mod, hdiv]
  by_cases hm : m % 2 = 1
  · rw [if_pos (by simp [hm])]
    have h2 : m = 2 * (m / 2) + 1 := by omega
    calc m * 2 ^ k - 2 ^ k = (2 * (m / 2) + 1) * 2 ^ k - 2 ^ k := by rw [← h2]
      _ = 2 * (m / 2) * 2 ^ k := by rw [Nat.add_mul, Nat.one_mul, Nat.add_sub_cancel]
      _ = m / 2 * 2 ^ (k + 1) := by rw [hpow]; ring
  · rw [if_neg (by simp [hm])]
    have h2 : m = 2 * (m / 2) := by omega
    calc m * 2 ^ k = 2 * (m / 2) * 2 ^ k := by rw [← h2]
      _ = m / 2 * 2 ^ (k + 1) := by rw [hpow]; ring

theorem get_list_go_zero (f k : Nat) : get_list_go f 0 k = k := by
  cases f <;> simp [get_list_go]

theorem get_list_go_mul (m : Nat) : ∀ k f, 1 ≤ m → k + f = 15 →
    get_list_go f (m * 2 ^ k) k = min (Nat.log2 m + 1 + k) 15 := by
  induction m using Nat.strong_induction_on with
  | _ m ih =>
    intro k f hm hkf
    rcases f with _ | f
    · rw [get_list_go]
      omega
    · rw [get_list_go]
      rw [if_pos ⟨by positivity, by simp only [MAX_LISTS]; omega⟩]
      rw [clearBitC_mul]
      rcases Nat.lt_or_ge m 2 with hm2 | hm2
      · have : m = 1 := by omega
        subst this
        rw [show (1 : Nat) / 2 = 0 by norm_num, Nat.zero_mul, get_list_go_zero]
        have h0 : Nat.log2 1 = 0 := by rw [Nat.log2]; simp
        rw [h0]; omega
      · have hlt : m / 2 < m := by omega
        have h1 : 1 ≤ m / 2 := by omega
        have := ih (m / 2) hlt (k + 1) f h1 (by omega)
        rw [this]
        have hlog : Nat.log2 m = Nat.log2 (m / 2) + 1 := by
          rw [Nat.log2]
          simp [hm2]
        rw [hlog]; omega

theorem get_list_closed (s : Nat) (hs : 1 ≤ s) :
    get_list s = min (Nat.log2 s + 1) 15 := by
  have h := get_list_go_mul s 0 15 hs (by norm_num)
  simpa [get_list, MAX_LISTS] using h

theorem get_list_stable (s t : Nat) (hs : 1 ≤ s) (hst : s ≤ t)
    (ht : t < 2 ^ get_list s) : get_list t = get_list s := by
  have ht1 : 1 ≤ t := le_trans hs hst
  have hmono : Nat.log2 s ≤ Nat.log2 t := by
    by_contra h
    push_neg at h
    have h2 := (Nat.log2_lt (by omega : t ≠ 0)).mp h
    have h3 := Nat.log2_self_le (by omega : s ≠ 0)
    omega
  rw [get_list_closed s hs] at ht ⊢
  rw [get_list_closed t ht1]
  rcases Nat.lt_or_ge (Nat.log2 s + 1) 15 with h15 | h15
  · rw [show min (Nat.log2 s + 1) 15 = Nat.log2 s + 1 by omega] at ht
    have := (Nat.log2_lt (by omega : t ≠ 0)).mpr ht
    omega
  · omega

end MM

namespace MM

theorem sbrkSize_of_aligned (e : Nat) (h : e % 16 = 0) : sbrkSize (e / 8) = e := by
  unfold sbrkSize WSIZE
  rw [if_neg (by omega : ¬ e / 8 % 2 = 1)]
  omega

theorem extend_heap_fail (growOk : Nat → Nat → Bool) (fuel : Nat)
    (st : AllocState) (words : Nat)
    (h : growOk st.brk (sbrkSize words) = false) :
    extend_heap growOk fuel st words = (st, none) := by
  unfold extend_heap mem_sbrk
  rw [show (if words % 2 = 1 then (words + 1) * WSIZE else words * WSIZE) = sbrkSize words from rfl]
  dsimp only
  rw [h]
  simp

theorem extend_heap_none_iff (growOk : Nat → Nat → Bool) (fuel : Nat)
    (st : AllocState) (words : Nat) :
    (extend_heap growOk fuel st words).2 = none ↔
      growOk st.brk (sbrkSize words) = false := by
  unfold extend_heap mem_sbrk
  rw [show (if words % 2 = 1 then (words + 1) * WSIZE else words * WSIZE) = sbrkSize words from rfl]
  dsimp only
  by_cases h : growOk st.brk (sbrkSize words) = true
  · rw [h]
    rw [if_pos rfl]
    dsimp only
    constructor
    · intro hc
      split at hc
      · exact Option.noConfusion hc
      · exact Option.noConfusion hc
    · intro hc
      exact absurd hc (by simp [h])
  · rw [Bool.not_eq_true] at h
    rw [h]
    simp [h]

theorem coalesce_fresh_ret (fs fuel : Nat) (m : Mem) (ptr : Nat)
    (hprev : GET_PREV_ALLOC (m (HDRP ptr)) = 0)
    (hnext : GET_ALLOC (m (HDRP (NEXT_BLOCK m ptr))) = 1) :
    (coalesce fs fuel m ptr).2 = PREV_BLOCK m ptr := by
  unfold coalesce
  rw [if_neg (by simp [hprev]), if_pos ⟨hprev, by simp [hnext]⟩]
  dsimp only
  split <;> rfl



theorem GET_PREV_ALLOC_cases (v : Nat) : GET_PREV_ALLOC v = 0 ∨ GET_PREV_ALLOC v = 2 := by
  unfold GET_PREV_ALLOC; omega

theorem GET_ALLOC_cases (v : Nat) : GET_ALLOC v = 0 ∨ GET_ALLOC v = 1 := by
  unfold GET_ALLOC; omega

theorem GET_SIZE_mod8 (v : Nat) : GET_SIZE v % 8 = 0 := by
  unfold GET_SIZE; omega

theorem extend_heap_ret_val (growOk : Nat → Nat → Bool) (fuel : Nat)
    (st : AllocState) (words p : Nat)
    (hbrk : 16 < st.brk)
    (hsz : 32 ≤ sbrkSize words)
    (hal : sbrkSize words % 16 = 0)
    (hret : (extend_heap growOk fuel st words).2 = some p) :
    p = st.brk ∨ p = st.brk - GET_SIZE (st.mem (st.brk - 16)) := by
  unfold extend_heap mem_sbrk at hret
  rw [show (if words % 2 = 1 then (words + 1) * WSIZE else words * WSIZE) = sbrkSize words from rfl]
    at hret
  dsimp only at hret
  by_cases h : growOk st.brk (sbrkSize words) = true
  · rw [h, if_pos rfl] at hret
    dsimp only at hret
    split at hret
    · left
      simpa using hret.symm
    · right
      rename_i hea
      rw [not_not] at hea
      rw [hea] at hret
      simp only [Option.some_inj] at hret
      subst hret
      set E := sbrkSize words with hE
      set b := st.brk with hb
      set m1 := writeW st.mem (HDRP b) (PACK E 0 0) with hm1
      have hm1h : m1 (HDRP b) = PACK E 0 0 := by rw [hm1]; exact writeW_same _ _ _
      have hsizeE : GET_SIZE (PACK E 0 0) = E :=
        GET_SIZE_PACK E 0 0 (by omega) (Or.inl rfl) (Or.inl rfl)
      have hftr : FTRP m1 b = b + E - 16 := by
        unfold FTRP DWORD
        rw [hm1h, hsizeE]
      set m2 := writeW m1 (FTRP m1 b) (PACK E 0 0) with hm2
      have hm2h : m2 (HDRP b) = PACK E 0 0 := by
        rw [hm2, hftr]
        rw [writeW_other _ _ _ _ (by unfold HDRP WSIZE; omega)]
        exact hm1h
      have hnb2 : NEXT_BLOCK m2 b = b + E := by
        unfold NEXT_BLOCK
        rw [show b - WSIZE = HDRP b from rfl, hm2h, hsizeE]
      rw [hnb2]
      set m3 := writeW m2 (HDRP (b + E)) (PACK 0 0 1) with hm3
      have hm3h : m3 (HDRP b) = PACK E 0 0 := by
        rw [hm3]
        rw [writeW_other _ _ _ _ (by unfold HDRP WSIZE; omega)]
        exact hm2h
      have hnb3 : NEXT_BLOCK m3 b = b + E := by
        unfold NEXT_BLOCK
        rw [show b - WSIZE = HDRP b from rfl, hm3h, hsizeE]
      have hprev3 : GET_PREV_ALLOC (m3 (HDRP b)) = 0 := by
        rw [hm3h]
        exact GET_PREV_ALLOC_PACK E 0 0 (by omega) (Or.inl rfl) (Or.inl rfl)
      have hnext3 : GET_ALLOC (m3 (HDRP (NEXT_BLOCK m3 b))) = 1 := by
        rw [hnb3, hm3]
        rw [writeW_same]
        exact GET_ALLOC_PACK 0 0 1 (by omega) (Or.inl rfl) (Or.inr rfl)
      rw [coalesce_fresh_ret _ _ _ _ hprev3 hnext3]
      unfold PREV_BLOCK DWORD
      have hm3r : m3 (b - 16) = st.mem (b - 16) := by
        rw [hm3]
        rw [writeW_other _ _ _ _ (by unfold HDRP WSIZE; omega)]
        rw [hm2, hftr]
        rw [writeW_other _ _ _ _ (by omega)]
        rw [hm1]
        rw [writeW_other _ _ _ _ (by unfold HDRP WSIZE; omega)]
      rw [hm3r]
  · rw [Bool.not_eq_true] at h
    rw [h] at hret
    simp at hret



theorem roundSize_mod16 (n : Nat) : roundSize n % 16 = 0 := by
  unfold roundSize DWORD
  split <;> omega

theorem roundSize_ge (n : Nat) : 64 ≤ roundSize n := by
  unfold roundSize DWORD
  split
  · omega
  · rename_i h
    have : (n + 16 + 15) / 16 ≥ 4 := by omega
    omega

theorem emax_facts (n : Nat) : (max (roundSize n) CHUNKSIZE) % 16 = 0 ∧
    256 ≤ max (roundSize n) CHUNKSIZE := by
  have h1 := roundSize_mod16 n
  have h2 := roundSize_ge n
  unfold CHUNKSIZE
  constructor
  · rcases Nat.le_total (roundSize n) 256 with h | h
    · rw [Nat.max_eq_right h]
    · rw [Nat.max_eq_left h]; exact h1
  · exact le_max_right _ _

theorem mm_malloc_null_iff (growOk : Nat → Nat → Bool) (fuel : Nat)
    (st : AllocState) (n : Nat)
    (hbrk : 16 < st.brk)
    (hft : GET_SIZE (st.mem (st.brk - 16)) < st.brk) :
    ((mm_malloc growOk fuel st n).2 = 0 ↔
      (n = 0 ∨ (find_fit st.mem st.free_start fuel (roundSize n) = 0 ∧
        growOk st.brk (max (roundSize n) CHUNKSIZE) = false))) := by
  obtain ⟨hal, hsz⟩ := emax_facts n
  have hsbrk : sbrkSize (max (roundSize n) CHUNKSIZE / WSIZE) = max (roundSize n) CHUNKSIZE := by
    unfold WSIZE
    exact sbrkSize_of_aligned _ hal
  unfold mm_malloc
  by_cases hn : n = 0
  · simp [hn]
  · rw [if_neg hn]
    dsimp only
    by_cases hp : find_fit st.mem st.free_start fuel (roundSize n) = 0
    · rw [if_neg (by simp [hp])]
      rcases hE : extend_heap growOk fuel st (max (roundSize n) CHUNKSIZE / WSIZE)
        with ⟨st1, op⟩
      rcases op with _ | p1
      · dsimp only
        have hgrow : growOk st.brk (max (roundSize n) CHUNKSIZE) = false := by
          rw [← hsbrk]
          rw [← extend_heap_none_iff growOk fuel st (max (roundSize n) CHUNKSIZE / WSIZE)]
          rw [hE]
        simp [hn, hp, hgrow]
      · dsimp only
        have hp1 : 0 < p1 := by
          have hv := extend_heap_ret_val growOk fuel st
            (max (roundSize n) CHUNKSIZE / WSIZE) p1 hbrk (by omega) (by rw [hsbrk]; exact hal)
            (by rw [hE])
          rcases hv with h | h <;> omega
        have hgrow : growOk st.brk (max (roundSize n) CHUNKSIZE) ≠ false := by
          intro hc
          have := extend_heap_fail growOk fuel st (max (roundSize n) CHUNKSIZE / WSIZE)
            (by rw [hsbrk]; exact hc)
          rw [this] at hE
          exact Option.noConfusion (congrArg Prod.snd hE)
        constructor
        · intro hc
          omega
        · intro hc
          rcases hc with hc | ⟨_, hc⟩
          · exact absurd hc hn
          · exact absurd hc hgrow
    · rw [if_pos hp]
      dsimp only
      constructor
      · intro hc
        exact absurd hc hp
      · intro hc
        rcases hc with hc | ⟨hc, _⟩
        · exact absurd hc hn
        · exact absurd hc hp

theorem mm_malloc_fail_state (growOk : Nat → Nat → Bool) (fuel : Nat)
    (st : AllocState) (n : Nat)
    (hbrk : 16 < st.brk)
    (hft : GET_SIZE (st.mem (st.brk - 16)) < st.brk)
    (h0 : (mm_malloc growOk fuel st n).2 = 0) :
    (mm_malloc growOk fuel st n).1 = st := by
  obtain ⟨hal, hsz⟩ := emax_facts n
  have hsbrk : sbrkSize (max (roundSize n) CHUNKSIZE / WSIZE) = max (roundSize n) CHUNKSIZE := by
    unfold WSIZE
    exact sbrkSize_of_aligned _ hal
  have hiff := mm_malloc_null_iff growOk fuel st n hbrk hft
  rw [hiff] at h0
  unfold mm_malloc
  rcases h0 with h0 | ⟨hfp, hgrow⟩
  · simp [h0]
  · by_cases hn : n = 0
    · simp [hn]
    · rw [if_neg hn]
      dsimp only
      rw [if_neg (by simp [hfp])]
      have hEfail := extend_heap_fail growOk fuel st (max (roundSize n) CHUNKSIZE / WSIZE)
        (by rw [hsbrk]; exact hgrow)
      rw [hEfail]

end MM

namespace MM

theorem find_fit_walk_mem (m : Mem) : ∀ fuel size p, find_fit_walk m fuel size p ≠ 0 →
    find_fit_walk m fuel size p ∈ chain m fuel p := by
  intro fuel
  induction fuel with
  | zero => intro size p h; simp [find_fit_walk] at h
  | succ f ih =>
    intro size p h
    rw [find_fit_walk] at h ⊢
    by_cases hp : p ≠ 0
    · rw [if_pos hp] at h ⊢
      by_cases hfit : size ≤ GET_SIZE (m (HDRP p))
      · rw [if_pos hfit] at h ⊢
        rw [chain, if_neg (by omega : ¬ p = 0)]
        exact List.mem_cons_self _ _
      · rw [if_neg hfit] at h ⊢
        rw [chain, if_neg (by omega : ¬ p = 0)]
        exact List.mem_cons_of_mem _ (ih size (NEXT_FLIST_ADDRESS m p) h)
    · rw [if_neg hp] at h
      exact absurd rfl h

theorem find_fit_lists_mem (m : Mem) (fs fuel size : Nat) :
    ∀ r ln, find_fit_lists m fs fuel size r ln ≠ 0 →
    ∃ k, k < MAX_LISTS ∧
      find_fit_lists m fs fuel size r ln ∈ chain m fuel (GET_ROOT m fs k) := by
  intro r
  induction r with
  | zero => intro ln h; simp [find_fit_lists] at h
  | succ r ih =>
    intro ln h
    rw [find_fit_lists] at h ⊢
    by_cases hln : ln < MAX_LISTS
    · rw [if_pos hln] at h ⊢
      dsimp only at h ⊢
      by_cases ht : find_fit_walk m fuel size (GET_ROOT m fs ln) ≠ 0
      · rw [if_pos ht] at h ⊢
        exact ⟨ln, hln, find_fit_walk_mem m fuel size _ ht⟩
      · rw [if_neg ht] at h ⊢
        exact ih (ln + 1) h
    · rw [if_neg hln] at h
      exact absurd rfl h

theorem remove_block_outside (fs : Nat) (m : Mem) (p a : Nat)
    (ha : a ∉ removeWrites fs m p) : remove_block fs m p a = m a := by
  unfold removeWrites at ha
  simp only [List.mem_cons, List.not_mem_nil, or_false, not_or] at ha
  obtain ⟨h1, h2, h3, h4, h5⟩ := ha
  unfold remove_block
  rw [writeW_other _ _ _ _ h1, writeW_other _ _ _ _ h2]
  split
  · unfold SET_ROOT
    exact writeW_other _ _ _ _ h5
  · split
    · exact writeW_other _ _ _ _ h3
    · split
      · unfold SET_ROOT
        rw [writeW_other _ _ _ _ h4]
        exact writeW_other _ _ _ _ h5
      · rw [writeW_other _ _ _ _
          (show a ≠ NEXT_ADDRESS (PREV_FLIST_ADDRESS m p) from h3)]
        exact writeW_other _ _ _ _ h4

end MM

namespace MM

theorem mm_malloc_aligned8 (growOk : Nat → Nat → Bool) (fuel : Nat)
    (st : AllocState) (n p : Nat)
    (hbrk8 : st.brk % 16 = 8) (hbrk : 16 < st.brk)
    (hnodes : ∀ k, k < MAX_LISTS →
      ∀ q ∈ chain st.mem fuel (GET_ROOT st.mem st.free_start k), q % 16 = 8)
    (hret : (mm_malloc growOk fuel st n).2 = p) (hp : p ≠ 0) :
    p % 8 = 0 := by
  obtain ⟨hal, hsz⟩ := emax_facts n
  unfold mm_malloc at hret
  by_cases hn : n = 0
  · rw [if_pos hn] at hret
    exact absurd hret.symm hp
  · rw [if_neg hn] at hret
    dsimp only at hret
    by_cases hff : find_fit st.mem st.free_start fuel (roundSize n) = 0
    · rw [if_neg (by simp [hff])] at hret
      rcases hE : extend_heap growOk fuel st (max (roundSize n) CHUNKSIZE / WSIZE)
        with ⟨st1, op⟩
      rw [hE] at hret
      rcases op with _ | p1
      · dsimp only at hret
        exact absurd hret.symm hp
      · dsimp only at hret
        have hv := extend_heap_ret_val growOk fuel st
          (max (roundSize n) CHUNKSIZE / WSIZE) p1 hbrk (by
            rw [show sbrkSize (max (roundSize n) CHUNKSIZE / WSIZE) =
              max (roundSize n) CHUNKSIZE from sbrkSize_of_aligned _ hal]
            omega)
          (by rw [show sbrkSize (max (roundSize n) CHUNKSIZE / WSIZE) =
              max (roundSize n) CHUNKSIZE from sbrkSize_of_aligned _ hal]
              exact hal)
          (by rw [hE])
        have hm8 := GET_SIZE_mod8 (st.mem (st.brk - 16))
        omega
    · rw [if_pos hff] at hret
      dsimp only at hret
      unfold find_fit at hret hff
      obtain ⟨k, hk, hmem⟩ := find_fit_lists_mem st.mem st.free_start fuel
        (roundSize n) MAX_LISTS (get_list (roundSize n)) hff
      have := hnodes k hk _ hmem
      omega

end MM

namespace MM

theorem coalesce_case2_fastpath (fs fuel : Nat) (m : Mem) (ptr : Nat)
    (h1 : GET_PREV_ALLOC (m (HDRP ptr)) = 0)
    (h2 : GET_ALLOC (m (HDRP (NEXT_BLOCK m ptr))) ≠ 0)
    (h3 : 1 ≤ GET_SIZE (m (HDRP (PREV_BLOCK m ptr))))
    (h4 : GET_SIZE (m (HDRP ptr)) + GET_SIZE (m (HDRP (PREV_BLOCK m ptr))) <
      1 <<< get_list (GET_SIZE (m (HDRP (PREV_BLOCK m ptr))))) :
    get_list (GET_SIZE (m (HDRP ptr)) + GET_SIZE (m (HDRP (PREV_BLOCK m ptr)))) =
      get_list (GET_SIZE (m (HDRP (PREV_BLOCK m ptr)))) ∧
    coalesce fs fuel m ptr =
      (writeW
        (writeW m (HDRP (PREV_BLOCK m ptr))
          (PACK (GET_SIZE (m (HDRP ptr)) + GET_SIZE (m (HDRP (PREV_BLOCK m ptr)))) 2 0))
        (FTRP
          (writeW m (HDRP (PREV_BLOCK m ptr))
            (PACK (GET_SIZE (m (HDRP ptr)) + GET_SIZE (m (HDRP (PREV_BLOCK m ptr)))) 2 0))
          (PREV_BLOCK m ptr))
        (PACK (GET_SIZE (m (HDRP ptr)) + GET_SIZE (m (HDRP (PREV_BLOCK m ptr)))) 2 0),
      PREV_BLOCK m ptr) := by
  constructor
  · apply get_list_stable _ _ h3 (Nat.le_add_left _ _)
    rw [show (2 : Nat) ^ get_list (GET_SIZE (m (HDRP (PREV_BLOCK m ptr)))) =
      1 <<< get_list (GET_SIZE (m (HDRP (PREV_BLOCK m ptr)))) by
        rw [Nat.shiftLeft_eq]; omega]
    exact h4
  · unfold coalesce
    rw [if_neg (by simp [h1]), if_pos ⟨h1, h2⟩]
    dsimp only
    rw [if_neg (by omega : ¬ 1 <<< get_list (GET_SIZE (m (HDRP (PREV_BLOCK m ptr)))) ≤
      GET_SIZE (m (HDRP ptr)) + GET_SIZE (m (HDRP (PREV_BLOCK m ptr))))]

theorem coalesce_case4_fastpath (fs fuel : Nat) (m : Mem) (ptr : Nat)
    (h1 : GET_PREV_ALLOC (m (HDRP ptr)) = 0)
    (h2 : GET_ALLOC (m (HDRP (NEXT_BLOCK m ptr))) = 0)
    (ho1 : HDRP (PREV_BLOCK m ptr) ∉ removeWrites fs m (NEXT_BLOCK m ptr))
    (ho2 : HDRP (NEXT_BLOCK m ptr) ∉ removeWrites fs m (NEXT_BLOCK m ptr))
    (h3 : 1 ≤ GET_SIZE (m (HDRP (PREV_BLOCK m ptr))))
    (h4 : GET_SIZE (m (HDRP ptr)) + GET_SIZE (m (HDRP (PREV_BLOCK m ptr))) +
      GET_SIZE (m (HDRP (NEXT_BLOCK m ptr))) <
      1 <<< get_list (GET_SIZE (m (HDRP (PREV_BLOCK m ptr))))) :
    get_list (GET_SIZE (m (HDRP ptr)) + GET_SIZE (m (HDRP (PREV_BLOCK m ptr))) +
      GET_SIZE (m (HDRP (NEXT_BLOCK m ptr)))) =
      get_list (GET_SIZE (m (HDRP (PREV_BLOCK m ptr)))) ∧
    (coalesce fs fuel m ptr).2 = PREV_BLOCK m ptr := by
  have hre1 := remove_block_outside fs m (NEXT_BLOCK m ptr) _ ho1
  have hre2 := remove_block_outside fs m (NEXT_BLOCK m ptr) _ ho2
  constructor
  · apply get_list_stable _ _ h3
    · omega
    · rw [show (2 : Nat) ^ get_list (GET_SIZE (m (HDRP (PREV_BLOCK m ptr)))) =
        1 <<< get_list (GET_SIZE (m (HDRP (PREV_BLOCK m ptr)))) by
          rw [Nat.shiftLeft_eq]; omega]
      exact h4
  · unfold coalesce
    rw [if_neg (by simp [h1]), if_neg (by simp [h2]), if_neg (by simp [h1])]
    dsimp only
    rw [hre1, hre2]
    rw [if_pos (by omega : 1 <<< get_list (GET_SIZE (m (HDRP (PREV_BLOCK m ptr)))) >
      GET_SIZE (m (HDRP ptr)) + GET_SIZE (m (HDRP (PREV_BLOCK m ptr))) +
      GET_SIZE (m (HDRP (NEXT_BLOCK m ptr))))]

end MM

namespace MM

theorem realloc_absorb_strict (growOk : Nat → Nat → Bool) (fuel : Nat)
    (st : AllocState) (ptr n : Nat)
    (hptr : ptr ≠ 0) (hn : n ≠ 0)
    (hgrow : GET_SIZE (st.mem (HDRP ptr)) < roundSize n)
    (hfree : GET_ALLOC (st.mem (HDRP (NEXT_BLOCK st.mem ptr))) = 0)
    (habs : GET_SIZE (st.mem (HDRP (NEXT_BLOCK st.mem ptr))) +
      GET_SIZE (st.mem (HDRP ptr)) > roundSize n) :
    (mm_realloc growOk fuel st ptr n).2 = ptr ∧
    (mm_realloc growOk fuel st ptr n).1.mem (HDRP ptr) =
      PACK (GET_SIZE (st.mem (HDRP (NEXT_BLOCK st.mem ptr))) +
        GET_SIZE (st.mem (HDRP ptr))) (GET_PREV_ALLOC (st.mem (HDRP ptr))) 1 := by
  have h64 := roundSize_ge n
  unfold mm_realloc
  rw [if_neg hptr, if_neg hn]
  dsimp only
  rw [if_neg (by omega : ¬ roundSize n = GET_SIZE (st.mem (HDRP ptr)))]
  rw [if_pos (by omega : roundSize n > GET_SIZE (st.mem (HDRP ptr)))]
  rw [if_pos ⟨hfree, habs⟩]
  dsimp only
  refine ⟨rfl, ?_⟩
  set S := GET_SIZE (st.mem (HDRP (NEXT_BLOCK st.mem ptr))) +
    GET_SIZE (st.mem (HDRP ptr)) with hSdef
  set pa := GET_PREV_ALLOC (st.mem (HDRP ptr)) with hpadef
  have hS8 : S % 8 = 0 := by
    have := GET_SIZE_mod8 (st.mem (HDRP (NEXT_BLOCK st.mem ptr)))
    have := GET_SIZE_mod8 (st.mem (HDRP ptr))
    omega
  have hpa : pa = 0 ∨ pa = 2 := GET_PREV_ALLOC_cases _
  have hsz : GET_SIZE (PACK S pa 1) = S := GET_SIZE_PACK S pa 1 hS8 hpa (Or.inr rfl)
  have hm2 : writeW (remove_block st.free_start st.mem (NEXT_BLOCK st.mem ptr))
      (HDRP ptr) (PACK S pa 1) (ptr - WSIZE) = PACK S pa 1 := by
    rw [show ptr - WSIZE = HDRP ptr from rfl]
    exact writeW_same _ _ _
  have hnb : NEXT_BLOCK (writeW (remove_block st.free_start st.mem (NEXT_BLOCK st.mem ptr))
      (HDRP ptr) (PACK S pa 1)) ptr = ptr + S := by
    have e : NEXT_BLOCK (writeW (remove_block st.free_start st.mem (NEXT_BLOCK st.mem ptr))
        (HDRP ptr) (PACK S pa 1)) ptr =
        ptr + GET_SIZE (writeW (remove_block st.free_start st.mem (NEXT_BLOCK st.mem ptr))
          (HDRP ptr) (PACK S pa 1) (ptr - WSIZE)) := rfl
    rw [e, hm2, hsz]
  rw [hnb]
  have hSpos : 64 < S := by omega
  rw [writeW_other _ _ _ _ (by unfold HDRP WSIZE; omega : HDRP ptr ≠ HDRP (ptr + S))]
  exact writeW_same _ _ _

end MM

namespace MM

/-- C3: for every size of at least 1, the bucket classification computed by
the iterative bit-clearing loop `get_list` equals the closed form
`min (floor (log2 size) + 1) 15`. -/
theorem C3_get_list_closed_form (size : Nat) (h : 1 ≤ size) :
    get_list size = min (Nat.log2 size + 1) 15 :=
  get_list_closed size h

/-- Witness for C3 at the concrete size 1000. -/
theorem C3_get_list_closed_form_witness :
    1 ≤ 1000 ∧ get_list 1000 = min (Nat.log2 1000 + 1) 15 :=
  ⟨by decide, C3_get_list_closed_form 1000 (by decide)⟩

/-- C4: for an allocated block and a request whose rounded internal size is
strictly below the block's current size, `mm_realloc` returns the original
address and leaves the entire allocator state unchanged; the shrink-and-split
branch is dead code behind the constant-false guard `(0) && !next_alloc`. -/
theorem C4_shrink_is_noop (growOk : Nat → Nat → Bool) (fuel : Nat)
    (st : AllocState) (ptr n : Nat) (hptr : ptr ≠ 0)
    (halloc : GET_ALLOC (st.mem (HDRP ptr)) = 1) (hn : 1 ≤ n)
    (hlt : roundSize n < GET_SIZE (st.mem (HDRP ptr))) :
    mm_realloc growOk fuel st ptr n = (st, ptr) := by
  unfold mm_realloc
  rw [if_neg hptr, if_neg (by omega : ¬ n = 0)]
  dsimp only
  rw [if_neg (by omega : ¬ roundSize n = GET_SIZE (st.mem (HDRP ptr)))]
  rw [if_neg (by omega : ¬ roundSize n > GET_SIZE (st.mem (HDRP ptr)))]
  rw [if_neg (by simp : ¬ ((0 : Nat) ≠ 0 ∧
    GET_ALLOC (st.mem (HDRP (NEXT_BLOCK st.mem ptr))) = 0))]

/-- Witness for C4: shrinking the 80-byte block at 1176 to a 64-byte request
returns the same address with the state untouched. -/
theorem C4_shrink_is_noop_witness :
    mm_realloc growAll 100 stW4 1176 1 = (stW4, 1176) :=
  C4_shrink_is_noop growAll 100 stW4 1176 1 (by decide) (by decide)
    (by decide) (by decide)

/-- C5: `mm_malloc` returns the null address exactly when the request is zero
or no free-list fit exists and the grow primitive refuses the required
extension of `max(rounded size, CHUNKSIZE)` bytes; in all other cases the
returned payload address is non-null. -/
theorem C5_allocate_null_iff (growOk : Nat → Nat → Bool) (fuel : Nat)
    (st : AllocState) (n : Nat)
    (hbrk : 16 < st.brk)
    (hft : GET_SIZE (st.mem (st.brk - 16)) < st.brk) :
    ((mm_malloc growOk fuel st n).2 = 0 ↔
      (n = 0 ∨ (find_fit st.mem st.free_start fuel (roundSize n) = 0 ∧
        growOk st.brk (max (roundSize n) CHUNKSIZE) = false))) :=
  mm_malloc_null_iff growOk fuel st n hbrk hft

/-- Witness for C5 in the freshly initialised state with request 5. -/
theorem C5_allocate_null_iff_witness :
    16 < stInit.brk ∧ GET_SIZE (stInit.mem (stInit.brk - 16)) < stInit.brk ∧
    ((mm_malloc growAll 100 stInit 5).2 = 0 ↔
      (5 = 0 ∨ (find_fit stInit.mem stInit.free_start 100 (roundSize 5) = 0 ∧
        growAll stInit.brk (max (roundSize 5) CHUNKSIZE) = false))) :=
  ⟨by decide, by decide, C5_allocate_null_iff growAll 100 stInit 5 (by decide) (by decide)⟩

/-- C7 counterexample: in the reachable state `stC7` the block at 1176 has a
free successor whose combined size 128 equals the rounded request for 97
bytes, hence is large enough to satisfy it, yet `mm_realloc` does not return
the original address: the code demands strictly more than the request. -/
theorem C7_absorb_counterexample :
    GET_ALLOC (stC7.mem (HDRP 1176)) = 1 ∧
    GET_ALLOC (stC7.mem (HDRP (NEXT_BLOCK stC7.mem 1176))) = 0 ∧
    GET_SIZE (stC7.mem (HDRP (NEXT_BLOCK stC7.mem 1176))) +
      GET_SIZE (stC7.mem (HDRP 1176)) = roundSize 97 ∧
    GET_SIZE (stC7.mem (HDRP 1176)) < roundSize 97 ∧
    (mm_realloc growAll 100 stC7 1176 97).2 ≠ 1176 := by decide

/-- C7 amended: when growing and the free successor makes the combined size
STRICTLY larger than the rounded request, `mm_realloc` absorbs the successor
in place: it returns the original address and rewrites its header to the
combined size with the allocated bit set. -/
theorem C7_grow_absorbs_successor (growOk : Nat → Nat → Bool) (fuel : Nat)
    (st : AllocState) (ptr n : Nat)
    (hptr : ptr ≠ 0) (hn : n ≠ 0)
    (hgrow : GET_SIZE (st.mem (HDRP ptr)) < roundSize n)
    (hfree : GET_ALLOC (st.mem (HDRP (NEXT_BLOCK st.mem ptr))) = 0)
    (habs : GET_SIZE (st.mem (HDRP (NEXT_BLOCK st.mem ptr))) +
      GET_SIZE (st.mem (HDRP ptr)) > roundSize n) :
    (mm_realloc growOk fuel st ptr n).2 = ptr ∧
    (mm_realloc growOk fuel st ptr n).1.mem (HDRP ptr) =
      PACK (GET_SIZE (st.mem (HDRP (NEXT_BLOCK st.mem ptr))) +
        GET_SIZE (st.mem (HDRP ptr))) (GET_PREV_ALLOC (st.mem (HDRP ptr))) 1 :=
  realloc_absorb_strict growOk fuel st ptr n hptr hn hgrow hfree habs

/-- Witness for the amended C7: growing the 64-byte block at 1176 into its
free 192-byte successor (combined 256 > rounded 128). -/
theorem C7_grow_absorbs_successor_witness :
    (mm_realloc growAll 100 stA1 1176 97).2 = 1176 ∧
    (mm_realloc growAll 100 stA1 1176 97).1.mem (HDRP 1176) =
      PACK (GET_SIZE (stA1.mem (HDRP (NEXT_BLOCK stA1.mem 1176))) +
        GET_SIZE (stA1.mem (HDRP 1176))) (GET_PREV_ALLOC (stA1.mem (HDRP 1176))) 1 :=
  C7_grow_absorbs_successor growAll 100 stA1 1176 97 (by decide) (by decide)
    (by decide) (by decide) (by decide)

/-- C8: when a growing resize cannot absorb its successor and the fallback
internal allocation fails, `mm_realloc` returns null and the whole allocator
state, in particular the original block, is exactly as before the call. -/
theorem C8_grow_fallback_failure (growOk : Nat → Nat → Bool) (fuel : Nat)
    (st : AllocState) (ptr n : Nat)
    (hptr : ptr ≠ 0) (hn : n ≠ 0)
    (hgrow : GET_SIZE (st.mem (HDRP ptr)) < roundSize n)
    (hnoabsorb : ¬ (GET_ALLOC (st.mem (HDRP (NEXT_BLOCK st.mem ptr))) = 0 ∧
      GET_SIZE (st.mem (HDRP (NEXT_BLOCK st.mem ptr))) +
        GET_SIZE (st.mem (HDRP ptr)) > roundSize n))
    (hbrk : 16 < st.brk)
    (hft : GET_SIZE (st.mem (st.brk - 16)) < st.brk)
    (hfail : (mm_malloc growOk fuel st (roundSize n)).2 = 0) :
    mm_realloc growOk fuel st ptr n = (st, 0) := by
  have hstate := mm_malloc_fail_state growOk fuel st (roundSize n) hbrk hft hfail
  unfold mm_realloc
  rw [if_neg hptr, if_neg hn]
  dsimp only
  rw [if_neg (by omega : ¬ roundSize n = GET_SIZE (st.mem (HDRP ptr)))]
  rw [if_pos (by omega : roundSize n > GET_SIZE (st.mem (HDRP ptr)))]
  rw [if_neg hnoabsorb]
  rw [if_pos hfail, hstate]

/-- Witness for C8: growing the block at 1176 to 300 bytes with a refusing
grow oracle fails and leaves the state untouched. -/
theorem C8_grow_fallback_failure_witness :
    mm_realloc growUntil1300 100 stA1 1176 300 = (stA1, 0) :=
  C8_grow_fallback_failure growUntil1300 100 stA1 1176 300 (by decide) (by decide)
    (by decide) (by decide) (by decide) (by decide) (by decide)

theorem mm_realloc_aligned8 (growOk : Nat → Nat → Bool) (fuel : Nat)
    (st : AllocState) (ptr n p : Nat)
    (hbrk8 : st.brk % 16 = 8) (hbrk : 16 < st.brk)
    (hnodes : ∀ k, k < MAX_LISTS →
      ∀ q ∈ chain st.mem fuel (GET_ROOT st.mem st.free_start k), q % 16 = 8)
    (hptr8 : ptr % 8 = 0)
    (hret : (mm_realloc growOk fuel st ptr n).2 = p) (hp : p ≠ 0) :
    p % 8 = 0 := by
  unfold mm_realloc at hret
  by_cases h0 : ptr = 0
  · rw [if_pos h0] at hret
    exact mm_malloc_aligned8 growOk fuel st n p hbrk8 hbrk hnodes hret hp
  · rw [if_neg h0] at hret
    by_cases hn : n = 0
    · rw [if_pos hn] at hret
      exact absurd hret.symm hp
    · rw [if_neg hn] at hret
      dsimp only at hret
      by_cases he : roundSize n = GET_SIZE (st.mem (HDRP ptr))
      · rw [if_pos he] at hret
        have hpe : ptr = p := hret
        omega
      · rw [if_neg he] at hret
        by_cases hg : roundSize n > GET_SIZE (st.mem (HDRP ptr))
        · rw [if_pos hg] at hret
          by_cases habs : GET_ALLOC (st.mem (HDRP (NEXT_BLOCK st.mem ptr))) = 0 ∧
              GET_SIZE (st.mem (HDRP (NEXT_BLOCK st.mem ptr))) +
                GET_SIZE (st.mem (HDRP ptr)) > roundSize n
          · rw [if_pos habs] at hret
            dsimp only at hret
            have hpe : ptr = p := hret
            omega
          · rw [if_neg habs] at hret
            rcases hr : mm_malloc growOk fuel st (roundSize n) with ⟨st1, q⟩
            rw [hr] at hret
            dsimp only at hret
            by_cases hq : q = 0
            · rw [if_pos hq] at hret
              exact absurd hret.symm hp
            · rw [if_neg hq] at hret
              have hqe : q = p := hret
              subst hqe
              exact mm_malloc_aligned8 growOk fuel st (roundSize n) q hbrk8 hbrk
                hnodes (by rw [hr]) hq
        · rw [if_neg hg] at hret
          rw [if_neg (by simp : ¬ ((0 : Nat) ≠ 0 ∧
            GET_ALLOC (st.mem (HDRP (NEXT_BLOCK st.mem ptr))) = 0))] at hret
          have hpe : ptr = p := hret
          omega

/-- C2 counterexample: with the backing region based at the 16-byte aligned
address 1024, the very first allocation after `mm_init` returns the non-null
address 1176, which is not 16-byte aligned. -/
theorem C2_sixteen_alignment_counterexample :
    (mm_init growAll 100 initialState).2 = true ∧
    initialState.brk % 16 = 0 ∧
    (mm_malloc growAll 100 stInit 1).2 ≠ 0 ∧
    (mm_malloc growAll 100 stInit 1).2 % 16 ≠ 0 := by decide

/-- C2 amended: every non-null address returned by `mm_malloc` or by
`mm_realloc` is 8-byte aligned (the code's own `ALIGNMENT`) — not 16-byte
aligned, as the counterexample shows — in a state whose break is at 8 modulo
16, whose free-list nodes all sit at 8 modulo 16, and, for resize, whose
argument block address is itself 8-byte aligned: the alignment classes the
allocator maintains. -/
theorem C2_returned_address_8_aligned :
    (∀ (growOk : Nat → Nat → Bool) (fuel : Nat) (st : AllocState) (n p : Nat),
      st.brk % 16 = 8 → 16 < st.brk →
      (∀ k, k < MAX_LISTS →
        ∀ q ∈ chain st.mem fuel (GET_ROOT st.mem st.free_start k), q % 16 = 8) →
      (mm_malloc growOk fuel st n).2 = p → p ≠ 0 → p % 8 = 0) ∧
    (∀ (growOk : Nat → Nat → Bool) (fuel : Nat) (st : AllocState) (ptr n p : Nat),
      st.brk % 16 = 8 → 16 < st.brk →
      (∀ k, k < MAX_LISTS →
        ∀ q ∈ chain st.mem fuel (GET_ROOT st.mem st.free_start k), q % 16 = 8) →
      ptr % 8 = 0 →
      (mm_realloc growOk fuel st ptr n).2 = p → p ≠ 0 → p % 8 = 0) :=
  ⟨fun growOk fuel st n p h1 h2 h3 h4 h5 =>
    mm_malloc_aligned8 growOk fuel st n p h1 h2 h3 h4 h5,
   fun growOk fuel st ptr n p h1 h2 h3 h6 h4 h5 =>
    mm_realloc_aligned8 growOk fuel st ptr n p h1 h2 h3 h6 h4 h5⟩

/-- Witness for the amended C2: the first allocation after init returns 1176,
and an in-place growing resize of that block returns 1176 again; both are
8-byte aligned. -/
theorem C2_returned_address_8_aligned_witness :
    ((mm_malloc growAll 100 stInit 1).2 = 1176 ∧ (1176 : Nat) % 8 = 0) ∧
    ((mm_realloc growAll 100 stA1 1176 97).2 = 1176 ∧ (1176 : Nat) % 8 = 0) :=
  ⟨⟨by decide, C2_returned_address_8_aligned.1 growAll 100 stInit 1 1176
      (by decide) (by decide) (by decide) (by decide) (by decide)⟩,
   ⟨by decide, C2_returned_address_8_aligned.2 growAll 100 stA1 1176 97 1176
      (by decide) (by decide) (by decide) (by decide) (by decide) (by decide)⟩⟩

/-- C10: both in-place fast paths of `coalesce` (case 2, free predecessor and
allocated successor; case 4, both neighbors free) grow the predecessor
without relinking it only under a guard that forces the merged size to
classify into the predecessor's existing bucket, so the bucket stays correct
for the block's current size. -/
theorem C10_inplace_coalesce_keeps_bucket :
    (∀ fs fuel : Nat, ∀ m : Mem, ∀ ptr : Nat,
      GET_PREV_ALLOC (m (HDRP ptr)) = 0 →
      GET_ALLOC (m (HDRP (NEXT_BLOCK m ptr))) ≠ 0 →
      1 ≤ GET_SIZE (m (HDRP (PREV_BLOCK m ptr))) →
      GET_SIZE (m (HDRP ptr)) + GET_SIZE (m (HDRP (PREV_BLOCK m ptr))) <
        1 <<< get_list (GET_SIZE (m (HDRP (PREV_BLOCK m ptr)))) →
      get_list (GET_SIZE (m (HDRP ptr)) + GET_SIZE (m (HDRP (PREV_BLOCK m ptr)))) =
        get_list (GET_SIZE (m (HDRP (PREV_BLOCK m ptr)))) ∧
      coalesce fs fuel m ptr =
        (writeW
          (writeW m (HDRP (PREV_BLOCK m ptr))
            (PACK (GET_SIZE (m (HDRP ptr)) + GET_SIZE (m (HDRP (PREV_BLOCK m ptr)))) 2 0))
          (FTRP
            (writeW m (HDRP (PREV_BLOCK m ptr))
              (PACK (GET_SIZE (m (HDRP ptr)) + GET_SIZE (m (HDRP (PREV_BLOCK m ptr)))) 2 0))
            (PREV_BLOCK m ptr))
          (PACK (GET_SIZE (m (HDRP ptr)) + GET_SIZE (m (HDRP (PREV_BLOCK m ptr)))) 2 0),
        PREV_BLOCK m ptr)) ∧
    (∀ fs fuel : Nat, ∀ m : Mem, ∀ ptr : Nat,
      GET_PREV_ALLOC (m (HDRP ptr)) = 0 →
      GET_ALLOC (m (HDRP (NEXT_BLOCK m ptr))) = 0 →
      HDRP (PREV_BLOCK m ptr) ∉ removeWrites fs m (NEXT_BLOCK m ptr) →
      HDRP (NEXT_BLOCK m ptr) ∉ removeWrites fs m (NEXT_BLOCK m ptr) →
      1 ≤ GET_SIZE (m (HDRP (PREV_BLOCK m ptr))) →
      GET_SIZE (m (HDRP ptr)) + GET_SIZE (m (HDRP (PREV_BLOCK m ptr))) +
        GET_SIZE (m (HDRP (NEXT_BLOCK m ptr))) <
        1 <<< get_list (GET_SIZE (m (HDRP (PREV_BLOCK m ptr)))) →
      get_list (GET_SIZE (m (HDRP ptr)) + GET_SIZE (m (HDRP (PREV_BLOCK m ptr))) +
        GET_SIZE (m (HDRP (NEXT_BLOCK m ptr)))) =
        get_list (GET_SIZE (m (HDRP (PREV_BLOCK m ptr)))) ∧
      (coalesce fs fuel m ptr).2 = PREV_BLOCK m ptr) :=
  ⟨fun fs fuel m ptr h1 h2 h3 h4 =>
    coalesce_case2_fastpath fs fuel m ptr h1 h2 h3 h4,
  fun fs fuel m ptr h1 h2 ho1 ho2 h3 h4 =>
    coalesce_case4_fastpath fs fuel m ptr h1 h2 ho1 ho2 h3 h4⟩

/-- Witness for C10 on two handcrafted heaps exercising both fast paths. -/
theorem C10_inplace_coalesce_keeps_bucket_witness :
    (get_list (GET_SIZE (mC10a (HDRP 344)) + GET_SIZE (mC10a (HDRP (PREV_BLOCK mC10a 344)))) =
      get_list (GET_SIZE (mC10a (HDRP (PREV_BLOCK mC10a 344))))) ∧
    (coalesce 0 100 mC10b 1272).2 = PREV_BLOCK mC10b 1272 :=
  ⟨(C10_inplace_coalesce_keeps_bucket.1 0 100 mC10a 344 (by decide) (by decide)
      (by decide) (by decide)).1,
   (C10_inplace_coalesce_keeps_bucket.2 0 100 mC10b 1272 (by decide) (by decide)
      (by decide) (by decide) (by decide) (by decide)).2⟩

end MM

namespace MM

theorem isChain_congr (m m' : Mem) : ∀ l r, (∀ q ∈ l, m' q = m q) →
    isChain m r l → isChain m' r l := by
  intro l
  induction l with
  | nil => intro r _ h; exact h
  | cons a t ih =>
    intro r hq h
    obtain ⟨hr, ha, hrest⟩ := h
    refine ⟨hr, ha, ?_⟩
    have hnext : NEXT_FLIST_ADDRESS m' a = NEXT_FLIST_ADDRESS m a := by
      unfold NEXT_FLIST_ADDRESS
      exact hq a (List.mem_cons_self _ _)
    rw [hnext]
    exact ih _ (fun q hmem => hq q (List.mem_cons_of_mem _ hmem)) hrest

theorem get_list_go_le : ∀ f s c, c ≤ 15 → get_list_go f s c ≤ 15 := by
  intro f
  induction f with
  | zero => intro s c hc; exact hc
  | succ f ih =>
    intro s c hc
    rw [get_list_go]
    split
    · rename_i h
      exact ih _ _ (by simp only [MAX_LISTS] at h; omega)
    · exact hc

theorem get_list_le15 (s : Nat) : get_list s ≤ 15 :=
  get_list_go_le _ _ _ (by norm_num)

theorem add_walk_all_lt (m : Mem) : ∀ l fuel r b (hne : l ≠ []), isChain m r l →
    (∀ x ∈ l, x < b) → l.length ≤ fuel →
    add_walk m fuel r b = l.getLast hne := by
  intro l
  induction l with
  | nil => intro fuel r b hne; exact absurd rfl hne
  | cons a t ih =>
    intro fuel r b hne hc hlt hlen
    obtain ⟨hra, ha0, hrest⟩ := hc
    subst hra
    rcases fuel with _ | f
    · simp at hlen
    · rw [add_walk]
      rcases t with _ | ⟨x, t'⟩
      · have hz : NEXT_FLIST_ADDRESS m r = 0 := hrest
        rw [if_neg (by simp [hz])]
        simp
      · have hx : NEXT_FLIST_ADDRESS m r = x := hrest.1
        rw [if_pos ⟨hlt r (List.mem_cons_self _ _), by
          rw [hx]; exact hrest.2.1⟩]
        rw [hx]
        rw [hx] at hrest
        rw [ih f x b (by simp) hrest (fun q hq => hlt q (List.mem_cons_of_mem _ hq))
          (by simpa using hlen)]
        simp [List.getLast_cons]

theorem add_walk_to_first_ge (m : Mem) : ∀ l₁ fuel x l₂ r b,
    isChain m r (l₁ ++ x :: l₂) → (∀ q ∈ l₁, q < b) → b < x →
    l₁.length < fuel → add_walk m fuel r b = x := by
  intro l₁
  induction l₁ with
  | nil =>
    intro fuel x l₂ r b hc _ hbx hlen
    obtain ⟨hra, hx0, _⟩ := hc
    subst hra
    rcases fuel with _ | f
    · omega
    · rw [add_walk, if_neg (by omega)]
  | cons a t ih =>
    intro fuel x l₂ r b hc hlt hbx hlen
    obtain ⟨hra, ha0, hrest⟩ := hc
    subst hra
    rcases fuel with _ | f
    · simp at hlen
    · rw [add_walk]
      have hnext0 : NEXT_FLIST_ADDRESS m r ≠ 0 := by
        rcases t with _ | ⟨y, t'⟩
        · have hh : NEXT_FLIST_ADDRESS m r = x := hrest.1
          omega
        · have hh : NEXT_FLIST_ADDRESS m r = y := hrest.1
          rw [hh]; exact hrest.2.1
      rw [if_pos ⟨hlt r (List.mem_cons_self _ _), hnext0⟩]
      exact ih f x l₂ (NEXT_FLIST_ADDRESS m r) b hrest
        (fun q hq => hlt q (List.mem_cons_of_mem _ hq)) hbx (by simpa using hlen)

end MM

namespace MM

theorem prevOk_at (m : Mem) : ∀ l₁ prior x l₂, prevOk m prior (l₁ ++ x :: l₂) →
    PREV_FLIST_ADDRESS m x = l₁.getLastD prior := by
  intro l₁
  induction l₁ with
  | nil =>
    intro prior x l₂ h
    exact (List.chain_cons.mp h).1
  | cons a t ih =>
    intro prior x l₂ h
    rw [List.cons_append] at h
    have h2 := (List.chain_cons.mp h).2
    rw [List.getLastD_cons]
    exact ih a x l₂ h2

theorem orderedInsert_middle (b : Nat) : ∀ l₁ l₂ : List Nat,
    (∀ x ∈ l₁, x < b) → (∀ x ∈ l₂, b < x) →
    List.orderedInsert (· ≤ ·) b (l₁ ++ l₂) = l₁ ++ b :: l₂ := by
  intro l₁
  induction l₁ with
  | nil =>
    intro l₂ _ h2
    rcases l₂ with _ | ⟨y, t⟩
    · rfl
    · rw [List.nil_append, List.orderedInsert,
        if_pos (le_of_lt (h2 y (List.mem_cons_self _ _)))]
      rfl
  | cons a t ih =>
    intro l₂ h1 h2
    rw [List.cons_append, List.orderedInsert,
      if_neg (by have := h1 a (List.mem_cons_self _ _); omega)]
    rw [ih l₂ (fun x hx => h1 x (List.mem_cons_of_mem _ hx)) h2]
    rfl

theorem isChain_insert_after (m m' : Mem) (b t : Nat) :
    ∀ l₁ r l₂, isChain m r (l₁ ++ t :: l₂) →
    (∀ q ∈ l₁, m' q = m q) →
    m' t = b → b ≠ 0 →
    m' b = NEXT_FLIST_ADDRESS m t →
    (∀ q ∈ l₂, m' q = m q) →
    isChain m' r (l₁ ++ t :: b :: l₂) := by
  intro l₁
  induction l₁ with
  | nil =>
    intro r l₂ hc hk1 ht hb0 hbn hk2
    obtain ⟨hrt, ht0, hrest⟩ := hc
    refine ⟨hrt, ht0, ?_⟩
    show isChain m' (NEXT_FLIST_ADDRESS m' t) (b :: l₂)
    have e : NEXT_FLIST_ADDRESS m' t = b := ht
    rw [e]
    refine ⟨rfl, hb0, ?_⟩
    show isChain m' (NEXT_FLIST_ADDRESS m' b) l₂
    have e2 : NEXT_FLIST_ADDRESS m' b = NEXT_FLIST_ADDRESS m t := hbn
    rw [e2]
    exact isChain_congr m m' l₂ _ hk2 hrest
  | cons a l₁' ih =>
    intro r l₂ hc hk1 ht hb0 hbn hk2
    obtain ⟨hra, ha0, hrest⟩ := hc
    refine ⟨hra, ha0, ?_⟩
    have e : NEXT_FLIST_ADDRESS m' a = NEXT_FLIST_ADDRESS m a :=
      hk1 a (List.mem_cons_self _ _)
    rw [e]
    exact ih _ l₂ hrest (fun q hq => hk1 q (List.mem_cons_of_mem _ hq)) ht hb0 hbn hk2

theorem isChain_insert_head (m m' : Mem) (b r : Nat) (l : List Nat)
    (hc : isChain m r l)
    (hb0 : b ≠ 0)
    (hbn : m' b = r)
    (hk : ∀ q ∈ l, m' q = m q) :
    isChain m' b (b :: l) := by
  refine ⟨rfl, hb0, ?_⟩
  show isChain m' (NEXT_FLIST_ADDRESS m' b) l
  have e : NEXT_FLIST_ADDRESS m' b = r := hbn
  rw [e]
  exact isChain_congr m m' l r hk hc

theorem prevChain_congr (m m' : Mem) : ∀ (l : List Nat) (prior : Nat),
    (∀ q ∈ l, m' (PREV_ADDRESS q) = m (PREV_ADDRESS q)) →
    List.Chain (fun a c => PREV_FLIST_ADDRESS m c = a) prior l →
    List.Chain (fun a c => PREV_FLIST_ADDRESS m' c = a) prior l := by
  intro l
  induction l with
  | nil => intro prior _ _; exact List.Chain.nil
  | cons a t ih =>
    intro prior hk hc
    obtain ⟨h1, h2⟩ := List.chain_cons.mp hc
    refine List.chain_cons.mpr ⟨?_, ?_⟩
    · show PREV_FLIST_ADDRESS m' a = prior
      unfold PREV_FLIST_ADDRESS
      rw [hk a (List.mem_cons_self _ _)]
      exact h1
    · exact ih a (fun q hq => hk q (List.mem_cons_of_mem _ hq)) h2

theorem prevOk_insert_after (m m' : Mem) (b t : Nat) :
    ∀ l₁ prior l₂, prevOk m prior (l₁ ++ t :: l₂) →
    (∀ q ∈ l₁, m' (PREV_ADDRESS q) = m (PREV_ADDRESS q)) →
    m' (PREV_ADDRESS t) = m (PREV_ADDRESS t) →
    m' (PREV_ADDRESS b) = t →
    (∀ x l₂', l₂ = x :: l₂' → m' (PREV_ADDRESS x) = b) →
    (∀ q ∈ l₂.tail, m' (PREV_ADDRESS q) = m (PREV_ADDRESS q)) →
    prevOk m' prior (l₁ ++ t :: b :: l₂) := by
  intro l₁
  induction l₁ with
  | nil =>
    intro prior l₂ hp hk1 hkt hbp hheadp hk2
    rw [List.nil_append] at hp ⊢
    obtain ⟨hpt, hrest⟩ := List.chain_cons.mp hp
    refine List.chain_cons.mpr ⟨?_, ?_⟩
    · show PREV_FLIST_ADDRESS m' t = prior
      unfold PREV_FLIST_ADDRESS
      rw [hkt]
      exact hpt
    · refine List.chain_cons.mpr ⟨?_, ?_⟩
      · show PREV_FLIST_ADDRESS m' b = t
        exact hbp
      · rcases l₂ with _ | ⟨x, l₂'⟩
        · exact List.Chain.nil
        · obtain ⟨_, hrest2⟩ := List.chain_cons.mp hrest
          refine List.chain_cons.mpr ⟨?_, ?_⟩
          · show PREV_FLIST_ADDRESS m' x = b
            exact hheadp x l₂' rfl
          · exact prevChain_congr m m' l₂' x (by simpa using hk2) hrest2
  | cons a l₁' ih =>
    intro prior l₂ hp hk1 hkt hbp hheadp hk2
    rw [List.cons_append] at hp ⊢
    obtain ⟨hpa, hrest⟩ := List.chain_cons.mp hp
    refine List.chain_cons.mpr ⟨?_, ?_⟩
    · show PREV_FLIST_ADDRESS m' a = prior
      unfold PREV_FLIST_ADDRESS
      rw [hk1 a (List.mem_cons_self _ _)]
      exact hpa
    · exact ih a l₂ hrest (fun q hq => hk1 q (List.mem_cons_of_mem _ hq)) hkt hbp hheadp hk2

end MM

namespace MM

theorem isChain_next_at (m : Mem) : ∀ (L : List Nat) (t x : Nat) (L' : List Nat) (r : Nat),
    isChain m r (L ++ t :: x :: L') → NEXT_FLIST_ADDRESS m t = x := by
  intro L
  induction L with
  | nil =>
    intro t x L' r hc
    exact hc.2.2.1
  | cons a L₀ ih =>
    intro t x L' r hc
    exact ih t x L' _ hc.2.2

theorem isChain_last_next (m : Mem) : ∀ (L : List Nat) (t : Nat) (r : Nat),
    isChain m r (L ++ [t]) → NEXT_FLIST_ADDRESS m t = 0 := by
  intro L
  induction L with
  | nil => intro t r hc; exact hc.2.2
  | cons a L₀ ih => intro t r hc; exact ih t _ hc.2.2

theorem isChain_skip (m m' : Mem) (t c : Nat) : ∀ (L : List Nat) (r : Nat) (L' : List Nat),
    isChain m r (L ++ t :: c :: L') →
    (∀ q ∈ L, m' q = m q) →
    m' t = NEXT_FLIST_ADDRESS m c →
    (∀ q ∈ L', m' q = m q) →
    isChain m' r (L ++ t :: L') := by
  intro L
  induction L with
  | nil =>
    intro r L' hc hk1 ht hk2
    obtain ⟨hrt, ht0, hrest⟩ := hc
    refine ⟨hrt, ht0, ?_⟩
    show isChain m' (NEXT_FLIST_ADDRESS m' t) L'
    have e : NEXT_FLIST_ADDRESS m' t = NEXT_FLIST_ADDRESS m c := ht
    rw [e]
    exact isChain_congr m m' L' _ hk2 hrest.2.2
  | cons a L₀ ih =>
    intro r L' hc hk1 ht hk2
    obtain ⟨hra, ha0, hrest⟩ := hc
    refine ⟨hra, ha0, ?_⟩
    have e : NEXT_FLIST_ADDRESS m' a = NEXT_FLIST_ADDRESS m a :=
      hk1 a (List.mem_cons_self _ _)
    rw [e]
    exact ih _ L' hrest (fun q hq => hk1 q (List.mem_cons_of_mem _ hq)) ht hk2

theorem prevOk_skip (m m' : Mem) (t c : Nat) : ∀ (L : List Nat) (prior : Nat) (L' : List Nat),
    prevOk m prior (L ++ t :: c :: L') →
    (∀ q ∈ L, m' (PREV_ADDRESS q) = m (PREV_ADDRESS q)) →
    m' (PREV_ADDRESS t) = m (PREV_ADDRESS t) →
    (∀ x L₂, L' = x :: L₂ → m' (PREV_ADDRESS x) = t) →
    (∀ q ∈ L'.tail, m' (PREV_ADDRESS q) = m (PREV_ADDRESS q)) →
    prevOk m' prior (L ++ t :: L') := by
  intro L
  induction L with
  | nil =>
    intro prior L' hp hk1 hkt hhead hk2
    rw [List.nil_append] at hp ⊢
    obtain ⟨hpt, hrest⟩ := List.chain_cons.mp hp
    refine List.chain_cons.mpr ⟨?_, ?_⟩
    · show PREV_FLIST_ADDRESS m' t = prior
      unfold PREV_FLIST_ADDRESS
      rw [hkt]
      exact hpt
    · rcases L' with _ | ⟨x, L₂⟩
      · exact List.Chain.nil
      · obtain ⟨_, hrest2⟩ := List.chain_cons.mp hrest
        obtain ⟨_, hrest3⟩ := List.chain_cons.mp hrest2
        refine List.chain_cons.mpr ⟨?_, ?_⟩
        · show PREV_FLIST_ADDRESS m' x = t
          exact hhead x L₂ rfl
        · exact prevChain_congr m m' L₂ x (by simpa using hk2) hrest3
  | cons a L₀ ih =>
    intro prior L' hp hk1 hkt hhead hk2
    rw [List.cons_append] at hp ⊢
    obtain ⟨hpa, hrest⟩ := List.chain_cons.mp hp
    refine List.chain_cons.mpr ⟨?_, ?_⟩
    · show PREV_FLIST_ADDRESS m' a = prior
      unfold PREV_FLIST_ADDRESS
      rw [hk1 a (List.mem_cons_self _ _)]
      exact hpa
    · exact ih a L' hrest (fun q hq => hk1 q (List.mem_cons_of_mem _ hq)) hkt hhead hk2

end MM

namespace MM

set_option maxHeartbeats 1000000

theorem isChain_next_head_ne (m : Mem) (r c : Nat) (L : List Nat) (hL : L ≠ [])
    (hc : isChain m r (c :: L)) : NEXT_FLIST_ADDRESS m c ≠ 0 := by
  rcases L with _ | ⟨d, L'⟩
  · exact absurd rfl hL
  · have h1 : NEXT_FLIST_ADDRESS m c = d := hc.2.2.1
    rw [h1]
    exact hc.2.2.2.1

theorem isChain_mem_ne_zero (m : Mem) : ∀ (l : List Nat) (r : Nat), isChain m r l →
    ∀ q ∈ l, q ≠ 0 := by
  intro l
  induction l with
  | nil => intro r _ q hq; simp at hq
  | cons a t ih =>
    intro r hc q hq
    rcases List.mem_cons.mp hq with rfl | hq'
    · exact hc.2.1
    · exact ih _ hc.2.2 q hq'

theorem GET_ROOT_writeW (m : Mem) (a v heap l : Nat) (h : heap + l * WSIZE ≠ a) :
    GET_ROOT (writeW m a v) heap l = GET_ROOT m heap l :=
  writeW_other _ _ _ _ h

theorem GET_ROOT_SET_ROOT (m : Mem) (heap l v : Nat) :
    GET_ROOT (SET_ROOT m heap l v) heap l = v :=
  writeW_same _ _ _

theorem add_block_spec (fs fuel k : Nat) (m0 : Mem) (b : Nat) (l₁ l₂ : List Nat)
    (hkeq : get_list (GET_SIZE (m0 (HDRP b))) = k)
    (hb16 : b % 16 = 8)
    (hbfs : fs + 136 ≤ b)
    (hchain : isChain m0 (GET_ROOT m0 fs k) (l₁ ++ l₂))
    (hprev : prevOk m0 0 (l₁ ++ l₂))
    (hlt1 : ∀ x ∈ l₁, x < b)
    (hlt2 : ∀ x ∈ l₂, b < x)
    (halign : ∀ q ∈ l₁ ++ l₂, q % 16 = 8)
    (hfsq : ∀ q ∈ l₁ ++ l₂, fs + 136 ≤ q)
    (hpw : List.Pairwise (· < ·) (l₁ ++ l₂))
    (hlen : (l₁ ++ l₂).length < fuel) :
    isChain (add_block fs fuel m0 b) (GET_ROOT (add_block fs fuel m0 b) fs k)
      (l₁ ++ b :: l₂) ∧
    prevOk (add_block fs fuel m0 b) 0 (l₁ ++ b :: l₂) ∧
    (∀ a, a ≠ fs + k * WSIZE →
      (∀ q ∈ b :: (l₁ ++ l₂), a ≠ NEXT_ADDRESS q ∧ a ≠ PREV_ADDRESS q) →
      add_block fs fuel m0 b a = m0 a) := by
  have hW : WSIZE = 8 := rfl
  have hk15 : k ≤ 15 := hkeq ▸ get_list_le15 _
  have hb0 : b ≠ 0 := by omega
  set m1 := writeW (writeW m0 (NEXT_ADDRESS b) 0) (PREV_ADDRESS b) 0 with hm1def
  have hm1read : ∀ a, a ≠ NEXT_ADDRESS b → a ≠ PREV_ADDRESS b → m1 a = m0 a := by
    intro a h1 h2
    rw [hm1def, writeW_other _ _ _ _ h2, writeW_other _ _ _ _ h1]
  have hm1b : m1 (NEXT_ADDRESS b) = 0 := by
    rw [hm1def, writeW_other _ _ _ _ (by simp only [NEXT_ADDRESS, PREV_ADDRESS, WSIZE]; omega),
      writeW_same]
  have hm1b8 : m1 (PREV_ADDRESS b) = 0 := by
    rw [hm1def, writeW_same]
  have hrsb : fs + k * WSIZE ≠ NEXT_ADDRESS b := by
    simp only [NEXT_ADDRESS, PREV_ADDRESS, WSIZE]; omega
  have hrsb8 : fs + k * WSIZE ≠ PREV_ADDRESS b := by
    simp only [NEXT_ADDRESS, PREV_ADDRESS, WSIZE]; omega
  have hroot1 : GET_ROOT m1 fs k = GET_ROOT m0 fs k := hm1read _ hrsb hrsb8
  have hqb : ∀ q ∈ l₁ ++ l₂, q ≠ b := by
    intro q hq
    rcases List.mem_append.mp hq with h | h
    · have := hlt1 q h; omega
    · have := hlt2 q h; omega
  have hm1n : ∀ q ∈ l₁ ++ l₂, m1 q = m0 q ∧
      m1 (PREV_ADDRESS q) = m0 (PREV_ADDRESS q) := by
    intro q hq
    have ha := halign q hq
    have hne := hqb q hq
    constructor
    · exact hm1read q (by simp only [NEXT_ADDRESS, PREV_ADDRESS, WSIZE]; omega)
        (by simp only [NEXT_ADDRESS, PREV_ADDRESS, WSIZE]; omega)
    · exact hm1read _ (by simp only [NEXT_ADDRESS, PREV_ADDRESS, WSIZE]; omega)
        (by simp only [NEXT_ADDRESS, PREV_ADDRESS, WSIZE]; omega)
  have hchain1 : isChain m1 (GET_ROOT m0 fs k) (l₁ ++ l₂) :=
    isChain_congr m0 m1 _ _ (fun q hq => (hm1n q hq).1) hchain
  have hprev1 : prevOk m1 0 (l₁ ++ l₂) := by
    unfold prevOk
    exact prevChain_congr m0 m1 _ _ (fun q hq => (hm1n q hq).2) hprev
  rcases List.eq_nil_or_concat l₁ with rfl | ⟨l₁i, p, rfl⟩
  · rcases l₂ with _ | ⟨x, l₂t⟩
    · -- branch 1: empty list, b becomes the sole root
      have hr0 : GET_ROOT m0 fs k = 0 := hchain
      have hM : add_block fs fuel m0 b = SET_ROOT m1 fs k b := by
        unfold add_block
        dsimp only
        rw [hkeq, ← hm1def, hroot1, hr0, if_pos rfl]
      rw [hM]
      have hrootM : GET_ROOT (SET_ROOT m1 fs k b) fs k = b := writeW_same _ _ _
      refine ⟨?_, ?_, ?_⟩
      · rw [hrootM]
        refine ⟨rfl, hb0, ?_⟩
        show isChain (SET_ROOT m1 fs k b) (SET_ROOT m1 fs k b (NEXT_ADDRESS b)) []
        show SET_ROOT m1 fs k b (NEXT_ADDRESS b) = 0
        unfold SET_ROOT
        rw [writeW_other _ _ _ _ hrsb.symm, hm1b]
      · refine List.chain_cons.mpr ⟨?_, List.Chain.nil⟩
        show SET_ROOT m1 fs k b (PREV_ADDRESS b) = 0
        unfold SET_ROOT
        rw [writeW_other _ _ _ _ hrsb8.symm, hm1b8]
      · intro a' ha1 ha2
        obtain ⟨hab, hab8⟩ := ha2 b (List.mem_cons_self _ _)
        unfold SET_ROOT
        rw [writeW_other _ _ _ _ ha1]
        exact hm1read a' hab hab8
    · -- branch 2: b precedes the old root, head insertion
      have hrx : GET_ROOT m0 fs k = x := hchain.1
      have hx0 : x ≠ 0 := hchain.2.1
      have hbx : b < x := hlt2 x (List.mem_cons_self _ _)
      have hxfs : fs + 136 ≤ x := hfsq x (List.mem_cons_self _ _)
      have hx16 : x % 16 = 8 := halign x (List.mem_cons_self _ _)
      have hM : add_block fs fuel m0 b =
          writeW (writeW (SET_ROOT m1 fs k b) (NEXT_ADDRESS b) (GET_ROOT m0 fs k))
            (PREV_ADDRESS (GET_ROOT m0 fs k)) b := by
        unfold add_block
        dsimp only
        rw [hkeq, ← hm1def, hroot1]
        rw [if_neg (by rw [hrx]; exact hx0), if_pos (by rw [hrx]; exact hbx)]
      rw [hM]
      set M := writeW (writeW (SET_ROOT m1 fs k b) (NEXT_ADDRESS b) (GET_ROOT m0 fs k))
        (PREV_ADDRESS (GET_ROOT m0 fs k)) b with hMdef
      have hrootM : GET_ROOT M fs k = b := by
        rw [hMdef]
        rw [GET_ROOT_writeW _ _ _ _ _ (by rw [hrx]; simp only [NEXT_ADDRESS, PREV_ADDRESS, WSIZE]; omega)]
        rw [GET_ROOT_writeW _ _ _ _ _ hrsb]
        exact GET_ROOT_SET_ROOT _ _ _ _
      have hMb : M b = GET_ROOT m0 fs k := by
        rw [hMdef]
        rw [writeW_other _ _ _ _ (by rw [hrx]; simp only [NEXT_ADDRESS, PREV_ADDRESS, WSIZE]; omega)]
        exact writeW_same _ _ _
      have hMkeep : ∀ q ∈ x :: l₂t, M q = m1 q := by
        intro q hq
        have hq16 := halign q (by simpa using hq)
        have hqfs := hfsq q (by simpa using hq)
        have hqb2 := hqb q (by simpa using hq)
        rw [hMdef]
        rw [writeW_other _ _ _ _ (by rw [hrx]; simp only [NEXT_ADDRESS, PREV_ADDRESS, WSIZE]; omega)]
        rw [writeW_other _ _ _ _ (by simp only [NEXT_ADDRESS, PREV_ADDRESS, WSIZE]; omega)]
        unfold SET_ROOT
        rw [writeW_other _ _ _ _ (by simp only [NEXT_ADDRESS, PREV_ADDRESS, WSIZE]; omega)]
      refine ⟨?_, ?_, ?_⟩
      · rw [hrootM]
        exact isChain_insert_head m1 M b (GET_ROOT m0 fs k) (x :: l₂t)
          (by rw [hrx] at hchain1 ⊢; exact hrx ▸ hchain1) hb0 hMb hMkeep
      · refine List.chain_cons.mpr ⟨?_, ?_⟩
        · show PREV_FLIST_ADDRESS M b = 0
          unfold PREV_FLIST_ADDRESS
          rw [hMdef]
          rw [writeW_other _ _ _ _ (by rw [hrx]; simp only [NEXT_ADDRESS, PREV_ADDRESS, WSIZE]; omega)]
          rw [writeW_other _ _ _ _ (by simp only [NEXT_ADDRESS, PREV_ADDRESS, WSIZE]; omega)]
          unfold SET_ROOT
          rw [writeW_other _ _ _ _ hrsb8.symm]
          exact hm1b8
        · refine List.chain_cons.mpr ⟨?_, ?_⟩
          · show PREV_FLIST_ADDRESS M x = b
            unfold PREV_FLIST_ADDRESS
            rw [hMdef, ← hrx]
            exact writeW_same _ _ _
          · have htail : List.Chain (fun a c => PREV_FLIST_ADDRESS m1 c = a) x l₂t :=
              (List.chain_cons.mp hprev1).2
            refine prevChain_congr m1 M l₂t x ?_ htail
            intro q hq
            have hq16 := halign q (by simp [hq])
            have hqfs := hfsq q (by simp [hq])
            have hqb2 := hqb q (by simp [hq])
            have hqx : q ≠ x := by
              have hpx := List.pairwise_cons.mp hpw
              have := hpx.1 q hq
              omega
            rw [hMdef]
            rw [writeW_other _ _ _ _
              (by rw [hrx]; simp only [NEXT_ADDRESS, PREV_ADDRESS, WSIZE]; omega)]
            rw [writeW_other _ _ _ _
              (by simp only [NEXT_ADDRESS, PREV_ADDRESS, WSIZE]; omega)]
            unfold SET_ROOT
            rw [writeW_other _ _ _ _ (by simp only [NEXT_ADDRESS, PREV_ADDRESS, WSIZE]; omega)]
      · intro a' ha1 ha2
        obtain ⟨hab, hab8⟩ := ha2 b (List.mem_cons_self _ _)
        obtain ⟨hax, hax8⟩ := ha2 x (by simp)
        rw [hMdef]
        rw [writeW_other _ _ _ _ (by rw [hrx]; exact hax8)]
        rw [writeW_other _ _ _ _ hab]
        unfold SET_ROOT
        rw [writeW_other _ _ _ _ ha1]
        exact hm1read a' hab hab8
  · -- the list has a nonempty prefix below b, ending in node p
    simp only [List.concat_eq_append, List.append_assoc, List.singleton_append]
      at hchain hprev hlt1 halign hfsq hpw hlen hqb hm1n hchain1 hprev1 ⊢
    have hpl : p ∈ l₁i ++ p :: l₂ := by simp
    have hplt : p < b := hlt1 p (by simp)
    have hp16 : p % 16 = 8 := halign p hpl
    have hpfs : fs + 136 ≤ p := hfsq p hpl
    have hp0 : p ≠ 0 := by omega
    have hrhead : GET_ROOT m0 fs k ∈ l₁i ++ [p] := by
      rcases l₁i with _ | ⟨c, l₁it⟩
      · have : GET_ROOT m0 fs k = p := hchain1.1
        simp [this]
      · have : GET_ROOT m0 fs k = c := hchain1.1
        simp [this]
    have hrlt : GET_ROOT m0 fs k < b := hlt1 _ hrhead
    have hrmem2 : GET_ROOT m0 fs k ∈ l₁i ++ p :: l₂ := by
      rcases List.mem_append.mp hrhead with h | h
      · exact List.mem_append_left _ h
      · simp at h
        simp [h]
    have hrfs : fs + 136 ≤ GET_ROOT m0 fs k := hfsq _ hrmem2
    have hr0 : GET_ROOT m0 fs k ≠ 0 := by omega
    by_cases hsolo : l₁i = [] ∧ l₂ = []
    · -- branch 3: the list is exactly the root node p, append b after it
      obtain ⟨rfl, rfl⟩ := hsolo
      have hrp : GET_ROOT m0 fs k = p := hchain1.1
      have hnext0 : NEXT_FLIST_ADDRESS m1 (GET_ROOT m0 fs k) = 0 := by
        rw [hrp]
        exact hchain1.2.2
      have hM : add_block fs fuel m0 b =
          writeW (writeW m1 (NEXT_ADDRESS (GET_ROOT m0 fs k)) b) (PREV_ADDRESS b)
            (GET_ROOT m0 fs k) := by
        unfold add_block
        dsimp only
        rw [hkeq, ← hm1def, hroot1]
        rw [if_neg hr0]
        rw [if_neg (by omega : ¬ GET_ROOT m0 fs k > b)]
        rw [if_pos hnext0]
      rw [hM, hrp]
      rw [hrp] at hchain1
      set M := writeW (writeW m1 (NEXT_ADDRESS p) b) (PREV_ADDRESS b) p with hMdef
      have hMp : M p = b := by
        rw [hMdef]
        rw [writeW_other _ _ _ _ (by simp only [NEXT_ADDRESS, PREV_ADDRESS, WSIZE]; omega)]
        exact writeW_same _ _ _
      have hMb : M b = NEXT_FLIST_ADDRESS m1 p := by
        rw [hMdef]
        rw [writeW_other _ _ _ _ (by simp only [NEXT_ADDRESS, PREV_ADDRESS, WSIZE]; omega)]
        rw [writeW_other _ _ _ _ (by simp only [NEXT_ADDRESS]; omega)]
        rw [show m1 b = (0 : Nat) from hm1b]
        rw [show NEXT_FLIST_ADDRESS m1 p = 0 from hrp ▸ hnext0]
      refine ⟨?_, ?_, ?_⟩
      · have hrootM : GET_ROOT M fs k = p := by
          rw [hMdef]
          rw [GET_ROOT_writeW _ _ _ _ _ hrsb8]
          rw [GET_ROOT_writeW _ _ _ _ _
            (by simp only [NEXT_ADDRESS, WSIZE]; omega)]
          rw [hroot1, hrp]
        rw [hrootM]
        exact isChain_insert_after m1 M b p [] p [] hchain1 (by simp) hMp hb0 hMb (by simp)
      · refine prevOk_insert_after m1 M b p [] 0 [] hprev1 (by simp) ?_ ?_ ?_ (by simp)
        · rw [hMdef]
          rw [writeW_other _ _ _ _ (by simp only [NEXT_ADDRESS, PREV_ADDRESS, WSIZE]; omega)]
          rw [writeW_other _ _ _ _ (by simp only [NEXT_ADDRESS, PREV_ADDRESS, WSIZE]; omega)]
        · rw [hMdef]
          exact writeW_same _ _ _
        · intro x L h
          exact absurd h (by simp)
      · intro a' ha1 ha2
        obtain ⟨hab, hab8⟩ := ha2 b (List.mem_cons_self _ _)
        obtain ⟨hap, hap8⟩ := ha2 p (by simp)
        rw [hMdef]
        rw [writeW_other _ _ _ _ hab8]
        rw [writeW_other _ _ _ _ hap]
        exact hm1read a' hab hab8
    · -- the search loop runs: b lands after p, before any larger node
      have hqp : ∀ q ∈ l₁i, q < p := fun q hq =>
        (List.pairwise_append.mp hpw).2.2 q hq p (List.mem_cons_self _ _)
      have hnext0 : NEXT_FLIST_ADDRESS m1 (GET_ROOT m0 fs k) ≠ 0 := by
        rcases hli : l₁i with _ | ⟨c, l₁it⟩
        · rcases hl2 : l₂ with _ | ⟨x, l₂t⟩
          · exact absurd ⟨hli, hl2⟩ hsolo
          · subst hli hl2
            have hrp : GET_ROOT m0 fs k = p := hchain1.1
            rw [hrp]
            exact isChain_next_head_ne m1 _ p (x :: l₂t) (by simp) hchain1
        · subst hli
          have hrc : GET_ROOT m0 fs k = c := hchain1.1
          rw [hrc]
          exact isChain_next_head_ne m1 _ c (l₁it ++ p :: l₂) (by simp) hchain1
      rcases l₂ with _ | ⟨x, l₂t⟩
      · -- tail append: b becomes the new last node after p
        have hwalk : add_walk m1 fuel (GET_ROOT m0 fs k) b = p := by
          have h := add_walk_all_lt m1 (l₁i ++ [p]) fuel (GET_ROOT m0 fs k) b
            (by simp) hchain1 (fun q hq => hlt1 q hq)
            (by have := hlen; simp at this ⊢; omega)
          rw [h]
          simp
        have hnextp : NEXT_FLIST_ADDRESS m1 p = 0 := isChain_last_next m1 l₁i p _ hchain1
        have hM : add_block fs fuel m0 b =
            writeW (writeW m1 (NEXT_ADDRESS p) b) (PREV_ADDRESS b) p := by
          unfold add_block
          dsimp only
          rw [hkeq, ← hm1def, hroot1]
          rw [if_neg hr0, if_neg (by omega : ¬ GET_ROOT m0 fs k > b), if_neg hnext0]
          rw [hwalk, hnextp]
          rw [if_pos rfl, if_neg (by omega : ¬ b ≤ p)]
        rw [hM]
        set M := writeW (writeW m1 (NEXT_ADDRESS p) b) (PREV_ADDRESS b) p with hMdef
        have hMp : M p = b := by
          rw [hMdef]
          rw [writeW_other _ _ _ _ (by simp only [NEXT_ADDRESS, PREV_ADDRESS, WSIZE]; omega)]
          exact writeW_same _ _ _
        have hMb : M b = NEXT_FLIST_ADDRESS m1 p := by
          rw [hMdef]
          rw [writeW_other _ _ _ _ (by simp only [NEXT_ADDRESS, PREV_ADDRESS, WSIZE]; omega)]
          rw [writeW_other _ _ _ _ (by simp only [NEXT_ADDRESS]; omega)]
          rw [show m1 b = (0 : Nat) from hm1b, hnextp]
        have hkeep1 : ∀ q ∈ l₁i, M q = m1 q := by
          intro q hq
          have hq16 := halign q (by simp [hq])
          have hqblt := hqp q hq
          rw [hMdef]
          rw [writeW_other _ _ _ _ (by simp only [NEXT_ADDRESS, PREV_ADDRESS, WSIZE]; omega)]
          rw [writeW_other _ _ _ _ (by simp only [NEXT_ADDRESS]; omega)]
        refine ⟨?_, ?_, ?_⟩
        · have hrootM : GET_ROOT M fs k = GET_ROOT m0 fs k := by
            rw [hMdef]
            rw [GET_ROOT_writeW _ _ _ _ _ hrsb8]
            rw [GET_ROOT_writeW _ _ _ _ _ (by simp only [NEXT_ADDRESS, WSIZE]; omega)]
            exact hroot1
          rw [hrootM]
          exact isChain_insert_after m1 M b p l₁i _ [] hchain1 hkeep1 hMp hb0 hMb (by simp)
        · refine prevOk_insert_after m1 M b p l₁i 0 [] hprev1 ?_ ?_ ?_ ?_ (by simp)
          · intro q hq
            have hq16 := halign q (by simp [hq])
            have hqb2 := hqb q (by simp [hq])
            rw [hMdef]
            rw [writeW_other _ _ _ _ (by simp only [NEXT_ADDRESS, PREV_ADDRESS, WSIZE]; omega)]
            rw [writeW_other _ _ _ _ (by simp only [NEXT_ADDRESS, PREV_ADDRESS, WSIZE]; omega)]
          · rw [hMdef]
            rw [writeW_other _ _ _ _ (by simp only [NEXT_ADDRESS, PREV_ADDRESS, WSIZE]; omega)]
            rw [writeW_other _ _ _ _ (by simp only [NEXT_ADDRESS, PREV_ADDRESS, WSIZE]; omega)]
          · rw [hMdef]
            exact writeW_same _ _ _
          · intro y L h
            exact absurd h (by simp)
        · intro a' ha1 ha2
          obtain ⟨hab, hab8⟩ := ha2 b (List.mem_cons_self _ _)
          obtain ⟨hap, hap8⟩ := ha2 p (by simp)
          rw [hMdef]
          rw [writeW_other _ _ _ _ hab8]
          rw [writeW_other _ _ _ _ hap]
          exact hm1read a' hab hab8
      · -- b goes between p and the first larger node x
        have hbx : b < x := hlt2 x (List.mem_cons_self _ _)
        have hx16 : x % 16 = 8 := halign x (by simp)
        have hxfs : fs + 136 ≤ x := hfsq x (by simp)
        have hx0 : x ≠ 0 := by omega
        have hchain1x : isChain m1 (GET_ROOT m0 fs k) ((l₁i ++ [p]) ++ x :: l₂t) := by
          simpa [List.append_assoc] using hchain1
        have hprev1x : prevOk m1 0 ((l₁i ++ [p]) ++ x :: l₂t) := by
          unfold prevOk at hprev1 ⊢
          simpa [List.append_assoc] using hprev1
        have hwalk : add_walk m1 fuel (GET_ROOT m0 fs k) b = x := by
          refine add_walk_to_first_ge m1 (l₁i ++ [p]) fuel x l₂t _ b hchain1x
            (fun q hq => hlt1 q hq) hbx ?_
          have := hlen
          simp at this ⊢
          omega
        have hprevx : PREV_FLIST_ADDRESS m1 x = p := by
          have h := prevOk_at m1 (l₁i ++ [p]) 0 x l₂t hprev1x
          rw [h, List.getLastD_concat]
        have hnmp : NEXT_FLIST_ADDRESS m1 p = x := isChain_next_at m1 l₁i p x l₂t _ hchain1
        rcases l₂t with _ | ⟨z, l₂tt⟩
        · -- branch 4a: x is the last node and b slots in just before it
          have hnx : NEXT_FLIST_ADDRESS m1 x = 0 :=
            isChain_last_next m1 (l₁i ++ [p]) x _ hchain1x
          have hM : add_block fs fuel m0 b =
              writeW (writeW (writeW (writeW m1 (PREV_ADDRESS x) b) (NEXT_ADDRESS b) x)
                (PREV_ADDRESS b) p) (NEXT_ADDRESS p) b := by
            unfold add_block
            dsimp only
            rw [hkeq, ← hm1def, hroot1]
            rw [if_neg hr0, if_neg (by omega : ¬ GET_ROOT m0 fs k > b), if_neg hnext0]
            rw [hwalk, hnx, hprevx]
            rw [if_pos rfl, if_pos (by omega : b ≤ x)]
          rw [hM]
          set M := writeW (writeW (writeW (writeW m1 (PREV_ADDRESS x) b) (NEXT_ADDRESS b) x)
            (PREV_ADDRESS b) p) (NEXT_ADDRESS p) b with hMdef
          have hMp : M p = b := by
            rw [hMdef]
            exact writeW_same _ _ _
          have hMb : M b = NEXT_FLIST_ADDRESS m1 p := by
            rw [hMdef]
            rw [writeW_other _ _ _ _ (by simp only [NEXT_ADDRESS]; omega)]
            rw [writeW_other _ _ _ _ (by simp only [NEXT_ADDRESS, PREV_ADDRESS, WSIZE]; omega)]
            rw [show (NEXT_ADDRESS b) = b from rfl, writeW_same, hnmp]
          have hkeep1 : ∀ q ∈ l₁i, M q = m1 q := by
            intro q hq
            have hq16 := halign q (by simp [hq])
            have hqblt := hqp q hq
            have hqb2 := hqb q (by simp [hq])
            rw [hMdef]
            rw [writeW_other _ _ _ _ (by simp only [NEXT_ADDRESS]; omega)]
            rw [writeW_other _ _ _ _ (by simp only [NEXT_ADDRESS, PREV_ADDRESS, WSIZE]; omega)]
            rw [writeW_other _ _ _ _ (by simp only [NEXT_ADDRESS]; omega)]
            rw [writeW_other _ _ _ _ (by simp only [PREV_ADDRESS, WSIZE]; omega)]
          have hkeepx : M x = m1 x := by
            rw [hMdef]
            rw [writeW_other _ _ _ _ (by simp only [NEXT_ADDRESS]; omega)]
            rw [writeW_other _ _ _ _ (by simp only [NEXT_ADDRESS, PREV_ADDRESS, WSIZE]; omega)]
            rw [writeW_other _ _ _ _ (by simp only [NEXT_ADDRESS]; omega)]
            rw [writeW_other _ _ _ _ (by simp only [PREV_ADDRESS, WSIZE]; omega)]
          refine ⟨?_, ?_, ?_⟩
          · have hrootM : GET_ROOT M fs k = GET_ROOT m0 fs k := by
              rw [hMdef]
              rw [GET_ROOT_writeW _ _ _ _ _ (by simp only [NEXT_ADDRESS, WSIZE]; omega)]
              rw [GET_ROOT_writeW _ _ _ _ _ hrsb8]
              rw [GET_ROOT_writeW _ _ _ _ _ hrsb]
              rw [GET_ROOT_writeW _ _ _ _ _ (by simp only [PREV_ADDRESS, WSIZE]; omega)]
              exact hroot1
            rw [hrootM]
            exact isChain_insert_after m1 M b p l₁i _ [x] hchain1 hkeep1 hMp hb0 hMb
              (by intro q hq; simp at hq; subst hq; exact hkeepx)
          · refine prevOk_insert_after m1 M b p l₁i 0 [x] hprev1 ?_ ?_ ?_ ?_ (by simp)
            · intro q hq
              have hq16 := halign q (by simp [hq])
              have hqb2 := hqb q (by simp [hq])
              have hqblt := hqp q hq
              rw [hMdef]
              rw [writeW_other _ _ _ _ (by simp only [NEXT_ADDRESS, PREV_ADDRESS, WSIZE]; omega)]
              rw [writeW_other _ _ _ _ (by simp only [NEXT_ADDRESS, PREV_ADDRESS, WSIZE]; omega)]
              rw [writeW_other _ _ _ _ (by simp only [NEXT_ADDRESS, PREV_ADDRESS, WSIZE]; omega)]
              rw [writeW_other _ _ _ _ (by simp only [PREV_ADDRESS, WSIZE]; omega)]
            · rw [hMdef]
              rw [writeW_other _ _ _ _ (by simp only [NEXT_ADDRESS, PREV_ADDRESS, WSIZE]; omega)]
              rw [writeW_other _ _ _ _ (by simp only [NEXT_ADDRESS, PREV_ADDRESS, WSIZE]; omega)]
              rw [writeW_other _ _ _ _ (by simp only [NEXT_ADDRESS, PREV_ADDRESS, WSIZE]; omega)]
              rw [writeW_other _ _ _ _ (by simp only [PREV_ADDRESS, WSIZE]; omega)]
            · rw [hMdef]
              rw [writeW_other _ _ _ _ (by simp only [NEXT_ADDRESS, PREV_ADDRESS, WSIZE]; omega)]
              exact writeW_same _ _ _
            · intro y L h
              simp at h
              obtain ⟨rfl, rfl⟩ := h
              rw [hMdef]
              rw [writeW_other _ _ _ _ (by simp only [NEXT_ADDRESS, PREV_ADDRESS, WSIZE]; omega)]
              rw [writeW_other _ _ _ _ (by simp only [NEXT_ADDRESS, PREV_ADDRESS, WSIZE]; omega)]
              rw [writeW_other _ _ _ _ (by simp only [NEXT_ADDRESS, PREV_ADDRESS, WSIZE]; omega)]
              exact writeW_same _ _ _
          · intro a' ha1 ha2
            obtain ⟨hab, hab8⟩ := ha2 b (List.mem_cons_self _ _)
            obtain ⟨hap, hap8⟩ := ha2 p (by simp)
            obtain ⟨hax, hax8⟩ := ha2 x (by simp)
            rw [hMdef]
            rw [writeW_other _ _ _ _ hap]
            rw [writeW_other _ _ _ _ hab8]
            rw [writeW_other _ _ _ _ hab]
            rw [writeW_other _ _ _ _ hax8]
            exact hm1read a' hab hab8
        · -- branch 5: b goes between p and x inside the list
          have hnz : NEXT_FLIST_ADDRESS m1 x = z :=
            isChain_next_at m1 (l₁i ++ [p]) x z l₂tt _ hchain1x
          have hz0 : z ≠ 0 := isChain_mem_ne_zero m1 _ _ hchain1 z (by simp)
          have hzgt : x < z := by
            have hp2 := (List.pairwise_append.mp hpw).2.1
            have hp3 := (List.pairwise_cons.mp hp2).2
            have hp4 := (List.pairwise_cons.mp hp3).1
            exact hp4 z (List.mem_cons_self _ _)
          have hM : add_block fs fuel m0 b =
              writeW (writeW (writeW (writeW m1 (NEXT_ADDRESS b) x) (PREV_ADDRESS b) p)
                (NEXT_ADDRESS p) b) (PREV_ADDRESS x) b := by
            unfold add_block
            dsimp only
            rw [hkeq, ← hm1def, hroot1]
            rw [if_neg hr0, if_neg (by omega : ¬ GET_ROOT m0 fs k > b), if_neg hnext0]
            rw [hwalk, hnz, hprevx]
            rw [if_neg hz0]
          rw [hM]
          set M := writeW (writeW (writeW (writeW m1 (NEXT_ADDRESS b) x) (PREV_ADDRESS b) p)
            (NEXT_ADDRESS p) b) (PREV_ADDRESS x) b with hMdef
          have hMp : M p = b := by
            rw [hMdef]
            rw [writeW_other _ _ _ _ (by simp only [NEXT_ADDRESS, PREV_ADDRESS, WSIZE]; omega)]
            exact writeW_same _ _ _
          have hMb : M b = NEXT_FLIST_ADDRESS m1 p := by
            rw [hMdef]
            rw [writeW_other _ _ _ _ (by simp only [NEXT_ADDRESS, PREV_ADDRESS, WSIZE]; omega)]
            rw [writeW_other _ _ _ _ (by simp only [NEXT_ADDRESS]; omega)]
            rw [writeW_other _ _ _ _ (by simp only [NEXT_ADDRESS, PREV_ADDRESS, WSIZE]; omega)]
            rw [show (NEXT_ADDRESS b) = b from rfl, writeW_same, hnmp]
          have hkeep1 : ∀ q ∈ l₁i, M q = m1 q := by
            intro q hq
            have hq16 := halign q (by simp [hq])
            have hqblt := hqp q hq
            have hqb2 := hqb q (by simp [hq])
            rw [hMdef]
            rw [writeW_other _ _ _ _ (by simp only [NEXT_ADDRESS, PREV_ADDRESS, WSIZE]; omega)]
            rw [writeW_other _ _ _ _ (by simp only [NEXT_ADDRESS]; omega)]
            rw [writeW_other _ _ _ _ (by simp only [NEXT_ADDRESS, PREV_ADDRESS, WSIZE]; omega)]
            rw [writeW_other _ _ _ _ (by simp only [NEXT_ADDRESS]; omega)]
          have hkeep2 : ∀ q ∈ x :: z :: l₂tt, M q = m1 q := by
            intro q hq
            have hq16 := halign q (by
              have : q ∈ l₁i ++ p :: x :: z :: l₂tt := by simp [hq]
              exact this)
            have hqb2 : q ≠ b := hqb q (by simp [hq])
            have hqgt : p < q := by
              have hcross := (List.pairwise_append.mp hpw).2.1
              have := (List.pairwise_cons.mp hcross).1 q hq
              exact this
            rw [hMdef]
            rw [writeW_other _ _ _ _ (by simp only [NEXT_ADDRESS, PREV_ADDRESS, WSIZE]; omega)]
            rw [writeW_other _ _ _ _ (by simp only [NEXT_ADDRESS]; omega)]
            rw [writeW_other _ _ _ _ (by simp only [NEXT_ADDRESS, PREV_ADDRESS, WSIZE]; omega)]
            rw [writeW_other _ _ _ _ (by simp only [NEXT_ADDRESS]; omega)]
          refine ⟨?_, ?_, ?_⟩
          · have hrootM : GET_ROOT M fs k = GET_ROOT m0 fs k := by
              rw [hMdef]
              rw [GET_ROOT_writeW _ _ _ _ _ (by simp only [PREV_ADDRESS, WSIZE]; omega)]
              rw [GET_ROOT_writeW _ _ _ _ _ (by simp only [NEXT_ADDRESS, WSIZE]; omega)]
              rw [GET_ROOT_writeW _ _ _ _ _ hrsb8]
              rw [GET_ROOT_writeW _ _ _ _ _ hrsb]
              exact hroot1
            rw [hrootM]
            exact isChain_insert_after m1 M b p l₁i _ (x :: z :: l₂tt) hchain1 hkeep1 hMp hb0
              hMb hkeep2
          · refine prevOk_insert_after m1 M b p l₁i 0 (x :: z :: l₂tt) hprev1 ?_ ?_ ?_ ?_ ?_
            · intro q hq
              have hq16 := halign q (by simp [hq])
              have hqb2 := hqb q (by simp [hq])
              have hqblt := hqp q hq
              rw [hMdef]
              rw [writeW_other _ _ _ _ (by simp only [NEXT_ADDRESS, PREV_ADDRESS, WSIZE]; omega)]
              rw [writeW_other _ _ _ _ (by simp only [NEXT_ADDRESS, PREV_ADDRESS, WSIZE]; omega)]
              rw [writeW_other _ _ _ _ (by simp only [NEXT_ADDRESS, PREV_ADDRESS, WSIZE]; omega)]
              rw [writeW_other _ _ _ _ (by simp only [NEXT_ADDRESS, PREV_ADDRESS, WSIZE]; omega)]
            · rw [hMdef]
              rw [writeW_other _ _ _ _ (by simp only [NEXT_ADDRESS, PREV_ADDRESS, WSIZE]; omega)]
              rw [writeW_other _ _ _ _ (by simp only [NEXT_ADDRESS, PREV_ADDRESS, WSIZE]; omega)]
              rw [writeW_other _ _ _ _ (by simp only [NEXT_ADDRESS, PREV_ADDRESS, WSIZE]; omega)]
              rw [writeW_other _ _ _ _ (by simp only [NEXT_ADDRESS, PREV_ADDRESS, WSIZE]; omega)]
            · rw [hMdef]
              rw [writeW_other _ _ _ _ (by simp only [NEXT_ADDRESS, PREV_ADDRESS, WSIZE]; omega)]
              rw [writeW_other _ _ _ _ (by simp only [NEXT_ADDRESS, PREV_ADDRESS, WSIZE]; omega)]
              exact writeW_same _ _ _
            · intro y L h
              simp at h
              obtain ⟨rfl, _⟩ := h
              rw [hMdef]
              exact writeW_same _ _ _
            · intro q hq
              simp at hq
              have hq16 : q % 16 = 8 := halign q (by simp; tauto)
              have hqb2 : q ≠ b := hqb q (by simp; tauto)
              have hqx : x < q := by
                have hcross := (List.pairwise_append.mp hpw).2.1
                have h2 := (List.pairwise_cons.mp hcross).2
                have h3 := (List.pairwise_cons.mp h2).1
                rcases hq with rfl | hq'
                · exact h3 q (List.mem_cons_self _ _)
                · exact h3 q (List.mem_cons_of_mem _ hq')
              rw [hMdef]
              rw [writeW_other _ _ _ _ (by simp only [NEXT_ADDRESS, PREV_ADDRESS, WSIZE]; omega)]
              rw [writeW_other _ _ _ _ (by simp only [NEXT_ADDRESS, PREV_ADDRESS, WSIZE]; omega)]
              rw [writeW_other _ _ _ _ (by simp only [NEXT_ADDRESS, PREV_ADDRESS, WSIZE]; omega)]
              rw [writeW_other _ _ _ _ (by simp only [NEXT_ADDRESS, PREV_ADDRESS, WSIZE]; omega)]
          · intro a' ha1 ha2
            obtain ⟨hab, hab8⟩ := ha2 b (List.mem_cons_self _ _)
            obtain ⟨hap, hap8⟩ := ha2 p (by simp)
            obtain ⟨hax, hax8⟩ := ha2 x (by simp)
            rw [hMdef]
            rw [writeW_other _ _ _ _ hax8]
            rw [writeW_other _ _ _ _ hap]
            rw [writeW_other _ _ _ _ hab8]
            rw [writeW_other _ _ _ _ hab]
            exact hm1read a' hab hab8

theorem remove_block_spec (fs k : Nat) (m0 : Mem) (c : Nat) (l₁ l₂ : List Nat)
    (hkeq : get_list (GET_SIZE (m0 (HDRP c))) = k)
    (hchain : isChain m0 (GET_ROOT m0 fs k) (l₁ ++ c :: l₂))
    (hprev : prevOk m0 0 (l₁ ++ c :: l₂))
    (halign : ∀ q ∈ l₁ ++ c :: l₂, q % 16 = 8)
    (hfsq : ∀ q ∈ l₁ ++ c :: l₂, fs + 136 ≤ q)
    (hpw : List.Pairwise (· < ·) (l₁ ++ c :: l₂)) :
    isChain (remove_block fs m0 c) (GET_ROOT (remove_block fs m0 c) fs k) (l₁ ++ l₂) ∧
    prevOk (remove_block fs m0 c) 0 (l₁ ++ l₂) ∧
    (∀ a, a ≠ fs + k * WSIZE →
      (∀ q ∈ c :: (l₁ ++ l₂), a ≠ NEXT_ADDRESS q ∧ a ≠ PREV_ADDRESS q) →
      remove_block fs m0 c a = m0 a) := by
  have hW : WSIZE = 8 := rfl
  have hk15 : k ≤ 15 := hkeq ▸ get_list_le15 _
  have hc16 : c % 16 = 8 := halign c (by simp)
  have hcfs : fs + 136 ≤ c := hfsq c (by simp)
  have hc0 : c ≠ 0 := by omega
  rcases List.eq_nil_or_concat l₁ with rfl | ⟨l, p, rfl⟩
  · -- c is the head of its bucket list
    have hpc0 : PREV_FLIST_ADDRESS m0 c = 0 := prevOk_at m0 [] 0 c l₂ hprev
    have hcq : ∀ q ∈ l₂, c < q := (List.pairwise_cons.mp hpw).1
    rcases l₂ with _ | ⟨x, l₂t⟩
    · -- case 1: sole node, root is nulled
      have hnext : NEXT_FLIST_ADDRESS m0 c = 0 := hchain.2.2
      have hM : remove_block fs m0 c =
          writeW (writeW (SET_ROOT m0 fs k 0) (PREV_ADDRESS c) 0) (NEXT_ADDRESS c) 0 := by
        unfold remove_block
        dsimp only
        rw [hkeq, hpc0, hnext]
        rw [if_pos (⟨rfl, rfl⟩ : (0 : Nat) = 0 ∧ (0 : Nat) = 0)]
      rw [hM]
      set M := writeW (writeW (SET_ROOT m0 fs k 0) (PREV_ADDRESS c) 0) (NEXT_ADDRESS c) 0
        with hMdef
      have hroot : GET_ROOT M fs k = 0 := by
        rw [hMdef]
        rw [GET_ROOT_writeW _ _ _ _ _ (by simp only [NEXT_ADDRESS, WSIZE]; omega)]
        rw [GET_ROOT_writeW _ _ _ _ _ (by simp only [PREV_ADDRESS, WSIZE]; omega)]
        exact GET_ROOT_SET_ROOT _ _ _ _
      refine ⟨hroot, List.Chain.nil, ?_⟩
      intro a ha1 ha2
      obtain ⟨hac, hac8⟩ := ha2 c (List.mem_cons_self _ _)
      rw [hMdef]
      rw [writeW_other _ _ _ _ hac]
      rw [writeW_other _ _ _ _ hac8]
      unfold SET_ROOT
      exact writeW_other _ _ _ _ ha1
    · -- case 3: head removal, root moves to the next node
      have hnx : NEXT_FLIST_ADDRESS m0 c = x := hchain.2.2.1
      have hx16 : x % 16 = 8 := halign x (by simp)
      have hxfs : fs + 136 ≤ x := hfsq x (by simp)
      have hx0 : x ≠ 0 := by omega
      have hcx : c < x := hcq x (List.mem_cons_self _ _)
      have hxq : ∀ q ∈ l₂t, x < q :=
        (List.pairwise_cons.mp (List.pairwise_cons.mp hpw).2).1
      have hM : remove_block fs m0 c =
          writeW (writeW (writeW (SET_ROOT m0 fs k x) (PREV_ADDRESS x) 0)
            (PREV_ADDRESS c) 0) (NEXT_ADDRESS c) 0 := by
        unfold remove_block
        dsimp only
        rw [hkeq, hpc0, hnx]
        rw [if_neg (by simp [hx0]), if_neg hx0, if_pos rfl]
      rw [hM]
      set M := writeW (writeW (writeW (SET_ROOT m0 fs k x) (PREV_ADDRESS x) 0)
        (PREV_ADDRESS c) 0) (NEXT_ADDRESS c) 0 with hMdef
      have hroot : GET_ROOT M fs k = x := by
        rw [hMdef]
        rw [GET_ROOT_writeW _ _ _ _ _ (by simp only [NEXT_ADDRESS, WSIZE]; omega)]
        rw [GET_ROOT_writeW _ _ _ _ _ (by simp only [PREV_ADDRESS, WSIZE]; omega)]
        rw [GET_ROOT_writeW _ _ _ _ _ (by simp only [PREV_ADDRESS, WSIZE]; omega)]
        exact GET_ROOT_SET_ROOT _ _ _ _
      have hkeep : ∀ q ∈ x :: l₂t, M q = m0 q := by
        intro q hq
        have hq16 : q % 16 = 8 := halign q (by simp [hq])
        have hqfs : fs + 136 ≤ q := hfsq q (by simp [hq])
        have hqc : c < q := hcq q hq
        rw [hMdef]
        rw [writeW_other _ _ _ _ (by simp only [NEXT_ADDRESS]; omega)]
        rw [writeW_other _ _ _ _ (by simp only [PREV_ADDRESS, WSIZE]; omega)]
        rw [writeW_other _ _ _ _ (by simp only [PREV_ADDRESS, WSIZE]; omega)]
        unfold SET_ROOT
        exact writeW_other _ _ _ _ (by simp only [WSIZE]; omega)
      refine ⟨?_, ?_, ?_⟩
      · rw [hroot]
        have h := hchain.2.2
        rw [hnx] at h
        exact isChain_congr m0 M (x :: l₂t) x hkeep h
      · have hpx : M (PREV_ADDRESS x) = 0 := by
          rw [hMdef]
          rw [writeW_other _ _ _ _ (by simp only [NEXT_ADDRESS, PREV_ADDRESS, WSIZE]; omega)]
          rw [writeW_other _ _ _ _ (by simp only [PREV_ADDRESS, WSIZE]; omega)]
          exact writeW_same _ _ _
        have htail : List.Chain (fun a c => PREV_FLIST_ADDRESS m0 c = a) x l₂t :=
          (List.chain_cons.mp (List.chain_cons.mp hprev).2).2
        refine List.chain_cons.mpr ⟨hpx, ?_⟩
        refine prevChain_congr m0 M l₂t x ?_ htail
        intro q hq
        have hq16 : q % 16 = 8 := halign q (by simp [hq])
        have hqfs : fs + 136 ≤ q := hfsq q (by simp [hq])
        have hqc : c < q := hcq q (by simp [hq])
        have hqx : x < q := hxq q hq
        rw [hMdef]
        rw [writeW_other _ _ _ _ (by simp only [NEXT_ADDRESS, PREV_ADDRESS, WSIZE]; omega)]
        rw [writeW_other _ _ _ _ (by simp only [PREV_ADDRESS, WSIZE]; omega)]
        rw [writeW_other _ _ _ _ (by simp only [PREV_ADDRESS, WSIZE]; omega)]
        unfold SET_ROOT
        exact writeW_other _ _ _ _ (by simp only [PREV_ADDRESS, WSIZE]; omega)
      · intro a ha1 ha2
        obtain ⟨hac, hac8⟩ := ha2 c (List.mem_cons_self _ _)
        obtain ⟨hax, hax8⟩ := ha2 x (by simp)
        rw [hMdef]
        rw [writeW_other _ _ _ _ hac]
        rw [writeW_other _ _ _ _ hac8]
        rw [writeW_other _ _ _ _ hax8]
        unfold SET_ROOT
        exact writeW_other _ _ _ _ ha1
  · -- c has a predecessor p in the list
    have hpc : PREV_FLIST_ADDRESS m0 c = p := by
      have h := prevOk_at m0 (l.concat p) 0 c l₂ hprev
      rw [h, List.concat_eq_append, List.getLastD_concat]
    simp only [List.concat_eq_append, List.append_assoc, List.singleton_append]
      at hchain hprev halign hfsq hpw ⊢
    have hp16 : p % 16 = 8 := halign p (by simp)
    have hpfs : fs + 136 ≤ p := hfsq p (by simp)
    have hp0 : p ≠ 0 := by omega
    have hqp : ∀ q ∈ l, q < p := fun q hq =>
      (List.pairwise_append.mp hpw).2.2 q hq p (List.mem_cons_self _ _)
    have hqc : ∀ q ∈ l, q < c := fun q hq =>
      (List.pairwise_append.mp hpw).2.2 q hq c (by simp)
    have hp2 := (List.pairwise_append.mp hpw).2.1
    have hpc2 : p < c := (List.pairwise_cons.mp hp2).1 c (by simp)
    have hpq : ∀ q ∈ l₂, p < q := fun q hq =>
      (List.pairwise_cons.mp hp2).1 q (by simp [hq])
    have hcq : ∀ q ∈ l₂, c < q :=
      (List.pairwise_cons.mp (List.pairwise_cons.mp hp2).2).1
    rcases l₂ with _ | ⟨x, l₂t⟩
    · -- case 2: c is the last node, p becomes the new tail
      have hnext : NEXT_FLIST_ADDRESS m0 c = 0 :=
        isChain_last_next m0 (l ++ [p]) c _ (by simpa [List.append_assoc] using hchain)
      have hM : remove_block fs m0 c =
          writeW (writeW (writeW m0 (NEXT_ADDRESS p) 0) (PREV_ADDRESS c) 0)
            (NEXT_ADDRESS c) 0 := by
        unfold remove_block
        dsimp only
        rw [hkeq, hpc, hnext]
        rw [if_neg (by simp [hp0]), if_pos rfl]
      rw [hM]
      set M := writeW (writeW (writeW m0 (NEXT_ADDRESS p) 0) (PREV_ADDRESS c) 0)
        (NEXT_ADDRESS c) 0 with hMdef
      have hroot : GET_ROOT M fs k = GET_ROOT m0 fs k := by
        rw [hMdef]
        rw [GET_ROOT_writeW _ _ _ _ _ (by simp only [NEXT_ADDRESS, WSIZE]; omega)]
        rw [GET_ROOT_writeW _ _ _ _ _ (by simp only [PREV_ADDRESS, WSIZE]; omega)]
        exact GET_ROOT_writeW _ _ _ _ _ (by simp only [NEXT_ADDRESS, WSIZE]; omega)
      have hk1 : ∀ q ∈ l, M q = m0 q := by
        intro q hq
        have hq16 : q % 16 = 8 := halign q (by simp [hq])
        have hqp2 := hqp q hq
        have hqc2 := hqc q hq
        rw [hMdef]
        rw [writeW_other _ _ _ _ (by simp only [NEXT_ADDRESS]; omega)]
        rw [writeW_other _ _ _ _ (by simp only [PREV_ADDRESS, WSIZE]; omega)]
        rw [writeW_other _ _ _ _ (by simp only [NEXT_ADDRESS]; omega)]
      have htp : M p = NEXT_FLIST_ADDRESS m0 c := by
        rw [hMdef]
        rw [writeW_other _ _ _ _ (by simp only [NEXT_ADDRESS]; omega)]
        rw [writeW_other _ _ _ _ (by simp only [PREV_ADDRESS, WSIZE]; omega)]
        rw [show (NEXT_ADDRESS p) = p from rfl, writeW_same, hnext]
      refine ⟨?_, ?_, ?_⟩
      · rw [hroot]
        exact isChain_skip m0 M p c l _ [] hchain hk1 htp
          (fun q hq => absurd hq (List.not_mem_nil q))
      · refine prevOk_skip m0 M p c l 0 [] hprev ?_ ?_ ?_ ?_
        · intro q hq
          have hq16 : q % 16 = 8 := halign q (by simp [hq])
          have hqc2 := hqc q hq
          rw [hMdef]
          rw [writeW_other _ _ _ _ (by simp only [NEXT_ADDRESS, PREV_ADDRESS, WSIZE]; omega)]
          rw [writeW_other _ _ _ _ (by simp only [PREV_ADDRESS, WSIZE]; omega)]
          rw [writeW_other _ _ _ _ (by simp only [NEXT_ADDRESS, PREV_ADDRESS, WSIZE]; omega)]
        · rw [hMdef]
          rw [writeW_other _ _ _ _ (by simp only [NEXT_ADDRESS, PREV_ADDRESS, WSIZE]; omega)]
          rw [writeW_other _ _ _ _ (by simp only [PREV_ADDRESS, WSIZE]; omega)]
          rw [writeW_other _ _ _ _ (by simp only [NEXT_ADDRESS, PREV_ADDRESS, WSIZE]; omega)]
        · intro y L h
          exact absurd h (by simp)
        · intro q hq
          exact absurd hq (List.not_mem_nil q)
      · intro a ha1 ha2
        obtain ⟨hac, hac8⟩ := ha2 c (List.mem_cons_self _ _)
        obtain ⟨hap, hap8⟩ := ha2 p (by simp)
        rw [hMdef]
        rw [writeW_other _ _ _ _ hac]
        rw [writeW_other _ _ _ _ hac8]
        exact writeW_other _ _ _ _ hap
    · -- case 4: interior removal, p is linked straight to x
      have hnx : NEXT_FLIST_ADDRESS m0 c = x :=
        isChain_next_at m0 (l ++ [p]) c x l₂t _ (by simpa [List.append_assoc] using hchain)
      have hx16 : x % 16 = 8 := halign x (by simp)
      have hxfs : fs + 136 ≤ x := hfsq x (by simp)
      have hx0 : x ≠ 0 := by omega
      have hcx : c < x := hcq x (List.mem_cons_self _ _)
      have hxq : ∀ q ∈ l₂t, x < q := by
        have h3 := (List.pairwise_cons.mp (List.pairwise_cons.mp hp2).2).2
        exact (List.pairwise_cons.mp h3).1
      have hM : remove_block fs m0 c =
          writeW (writeW (writeW (writeW m0 (PREV_ADDRESS x) p) (NEXT_ADDRESS p) x)
            (PREV_ADDRESS c) 0) (NEXT_ADDRESS c) 0 := by
        unfold remove_block
        dsimp only
        rw [hkeq, hpc, hnx]
        rw [if_neg (by simp [hp0]), if_neg hx0, if_neg hp0]
      rw [hM]
      set M := writeW (writeW (writeW (writeW m0 (PREV_ADDRESS x) p) (NEXT_ADDRESS p) x)
        (PREV_ADDRESS c) 0) (NEXT_ADDRESS c) 0 with hMdef
      have hroot : GET_ROOT M fs k = GET_ROOT m0 fs k := by
        rw [hMdef]
        rw [GET_ROOT_writeW _ _ _ _ _ (by simp only [NEXT_ADDRESS, WSIZE]; omega)]
        rw [GET_ROOT_writeW _ _ _ _ _ (by simp only [PREV_ADDRESS, WSIZE]; omega)]
        rw [GET_ROOT_writeW _ _ _ _ _ (by simp only [NEXT_ADDRESS, WSIZE]; omega)]
        exact GET_ROOT_writeW _ _ _ _ _ (by simp only [PREV_ADDRESS, WSIZE]; omega)
      have hk1 : ∀ q ∈ l, M q = m0 q := by
        intro q hq
        have hq16 : q % 16 = 8 := halign q (by simp [hq])
        have hqp2 := hqp q hq
        have hqc2 := hqc q hq
        rw [hMdef]
        rw [writeW_other _ _ _ _ (by simp only [NEXT_ADDRESS]; omega)]
        rw [writeW_other _ _ _ _ (by simp only [PREV_ADDRESS, WSIZE]; omega)]
        rw [writeW_other _ _ _ _ (by simp only [NEXT_ADDRESS]; omega)]
        rw [writeW_other _ _ _ _ (by simp only [PREV_ADDRESS, WSIZE]; omega)]
      have htp : M p = NEXT_FLIST_ADDRESS m0 c := by
        rw [hMdef]
        rw [writeW_other _ _ _ _ (by simp only [NEXT_ADDRESS]; omega)]
        rw [writeW_other _ _ _ _ (by simp only [PREV_ADDRESS, WSIZE]; omega)]
        rw [show (NEXT_ADDRESS p) = p from rfl, writeW_same, hnx]
      have hk2 : ∀ q ∈ x :: l₂t, M q = m0 q := by
        intro q hq
        have hq16 : q % 16 = 8 := halign q (by simp [hq])
        have hqc2 : c < q := hcq q hq
        have hqp2 : p < q := hpq q hq
        rw [hMdef]
        rw [writeW_other _ _ _ _ (by simp only [NEXT_ADDRESS]; omega)]
        rw [writeW_other _ _ _ _ (by simp only [PREV_ADDRESS, WSIZE]; omega)]
        rw [writeW_other _ _ _ _ (by simp only [NEXT_ADDRESS]; omega)]
        rw [writeW_other _ _ _ _ (by simp only [PREV_ADDRESS, WSIZE]; omega)]
      refine ⟨?_, ?_, ?_⟩
      · rw [hroot]
        exact isChain_skip m0 M p c l _ (x :: l₂t) hchain hk1 htp hk2
      · refine prevOk_skip m0 M p c l 0 (x :: l₂t) hprev ?_ ?_ ?_ ?_
        · intro q hq
          have hq16 : q % 16 = 8 := halign q (by simp [hq])
          have hqc2 := hqc q hq
          have hqp2 := hqp q hq
          rw [hMdef]
          rw [writeW_other _ _ _ _ (by simp only [NEXT_ADDRESS, PREV_ADDRESS, WSIZE]; omega)]
          rw [writeW_other _ _ _ _ (by simp only [PREV_ADDRESS, WSIZE]; omega)]
          rw [writeW_other _ _ _ _ (by simp only [NEXT_ADDRESS, PREV_ADDRESS, WSIZE]; omega)]
          rw [writeW_other _ _ _ _ (by simp only [PREV_ADDRESS, WSIZE]; omega)]
        · rw [hMdef]
          rw [writeW_other _ _ _ _ (by simp only [NEXT_ADDRESS, PREV_ADDRESS, WSIZE]; omega)]
          rw [writeW_other _ _ _ _ (by simp only [PREV_ADDRESS, WSIZE]; omega)]
          rw [writeW_other _ _ _ _ (by simp only [NEXT_ADDRESS, PREV_ADDRESS, WSIZE]; omega)]
          rw [writeW_other _ _ _ _ (by simp only [PREV_ADDRESS, WSIZE]; omega)]
        · intro y L h
          simp at h
          obtain ⟨rfl, _⟩ := h
          rw [hMdef]
          rw [writeW_other _ _ _ _ (by simp only [NEXT_ADDRESS, PREV_ADDRESS, WSIZE]; omega)]
          rw [writeW_other _ _ _ _ (by simp only [PREV_ADDRESS, WSIZE]; omega)]
          rw [writeW_other _ _ _ _ (by simp only [NEXT_ADDRESS, PREV_ADDRESS, WSIZE]; omega)]
          exact writeW_same _ _ _
        · intro q hq
          simp at hq
          have hq16 : q % 16 = 8 := halign q (by simp; tauto)
          have hqc2 : c < q := hcq q (by simp; tauto)
          have hqx : x < q := hxq q hq
          rw [hMdef]
          rw [writeW_other _ _ _ _ (by simp only [NEXT_ADDRESS, PREV_ADDRESS, WSIZE]; omega)]
          rw [writeW_other _ _ _ _ (by simp only [PREV_ADDRESS, WSIZE]; omega)]
          rw [writeW_other _ _ _ _ (by simp only [NEXT_ADDRESS, PREV_ADDRESS, WSIZE]; omega)]
          rw [writeW_other _ _ _ _ (by simp only [PREV_ADDRESS, WSIZE]; omega)]
      · intro a ha1 ha2
        obtain ⟨hac, hac8⟩ := ha2 c (List.mem_cons_self _ _)
        obtain ⟨hap, hap8⟩ := ha2 p (by simp)
        obtain ⟨hax, hax8⟩ := ha2 x (by simp)
        rw [hMdef]
        rw [writeW_other _ _ _ _ hac]
        rw [writeW_other _ _ _ _ hac8]
        rw [writeW_other _ _ _ _ hap]
        exact writeW_other _ _ _ _ hax8

/-- C6: the free-list insert (`add_block`) and remove (`remove_block`)
operations preserve the bucket-list invariant on all their case paths (sole
root, head, tail, interior): starting from a bucket list for class
`k = get_list(size)` that is a well-formed null-terminated next chain rooted in
the bucket's root slot, has consistent prev back links, and is strictly
ascending in address, inserting a block of class `k` yields the chain with the
block spliced in at its address-ordered position — so the block is linked into
exactly that bucket's doubly linked list, still address-ordered — and removing
a listed block yields the chain with exactly that block deleted, again
doubly linked and address-ordered. -/
theorem C6_insert_remove_preserve_order :
    (∀ fs fuel k m0 b l₁ l₂,
      get_list (GET_SIZE (m0 (HDRP b))) = k →
      b % 16 = 8 → fs + 136 ≤ b →
      isChain m0 (GET_ROOT m0 fs k) (l₁ ++ l₂) →
      prevOk m0 0 (l₁ ++ l₂) →
      (∀ x ∈ l₁, x < b) → (∀ x ∈ l₂, b < x) →
      (∀ q ∈ l₁ ++ l₂, q % 16 = 8) → (∀ q ∈ l₁ ++ l₂, fs + 136 ≤ q) →
      List.Pairwise (· < ·) (l₁ ++ l₂) → (l₁ ++ l₂).length < fuel →
      (isChain (add_block fs fuel m0 b) (GET_ROOT (add_block fs fuel m0 b) fs k)
        (l₁ ++ b :: l₂) ∧
       prevOk (add_block fs fuel m0 b) 0 (l₁ ++ b :: l₂) ∧
       List.Pairwise (· < ·) (l₁ ++ b :: l₂))) ∧
    (∀ fs k m0 c l₁ l₂,
      get_list (GET_SIZE (m0 (HDRP c))) = k →
      isChain m0 (GET_ROOT m0 fs k) (l₁ ++ c :: l₂) →
      prevOk m0 0 (l₁ ++ c :: l₂) →
      (∀ q ∈ l₁ ++ c :: l₂, q % 16 = 8) → (∀ q ∈ l₁ ++ c :: l₂, fs + 136 ≤ q) →
      List.Pairwise (· < ·) (l₁ ++ c :: l₂) →
      (isChain (remove_block fs m0 c) (GET_ROOT (remove_block fs m0 c) fs k)
        (l₁ ++ l₂) ∧
       prevOk (remove_block fs m0 c) 0 (l₁ ++ l₂) ∧
       List.Pairwise (· < ·) (l₁ ++ l₂))) := by
  constructor
  · intro fs fuel k m0 b l₁ l₂ hkeq hb16 hbfs hchain hprev hlt1 hlt2 halign hfsq hpw hlen
    obtain ⟨h1, h2, _⟩ :=
      add_block_spec fs fuel k m0 b l₁ l₂ hkeq hb16 hbfs hchain hprev hlt1 hlt2
        halign hfsq hpw hlen
    refine ⟨h1, h2, ?_⟩
    rw [List.pairwise_append] at hpw ⊢
    refine ⟨hpw.1, List.pairwise_cons.mpr ⟨hlt2, hpw.2.1⟩, ?_⟩
    intro a ha b' hb'
    rcases List.mem_cons.mp hb' with rfl | hb2
    · exact hlt1 a ha
    · exact hpw.2.2 a ha b' hb2
  · intro fs k m0 c l₁ l₂ hkeq hchain hprev halign hfsq hpw
    obtain ⟨h1, h2, _⟩ := remove_block_spec fs k m0 c l₁ l₂ hkeq hchain hprev halign hfsq hpw
    exact ⟨h1, h2, List.Pairwise.sublist ((List.sublist_cons_self c l₂).append_left l₁) hpw⟩

theorem C6_insert_remove_preserve_order_witness :
    (isChain (add_block 0 5 mAdd 1512) (GET_ROOT (add_block 0 5 mAdd 1512) 0 7)
        [1000, 1512, 2008] ∧
      prevOk (add_block 0 5 mAdd 1512) 0 [1000, 1512, 2008] ∧
      List.Pairwise (· < ·) [1000, 1512, 2008]) ∧
    (isChain (remove_block 0 mRem 1512) (GET_ROOT (remove_block 0 mRem 1512) 0 7)
        [1000, 2008] ∧
      prevOk (remove_block 0 mRem 1512) 0 [1000, 2008] ∧
      List.Pairwise (· < ·) [1000, 2008]) :=
  ⟨C6_insert_remove_preserve_order.1 0 5 7 mAdd 1512 [1000] [2008] (by decide)
      (by decide) (by decide) (by decide) (by decide) (by decide) (by decide)
      (by decide) (by decide) (by decide) (by decide),
   C6_insert_remove_preserve_order.2 0 7 mRem 1512 [1000] [2008] (by decide)
      (by decide) (by decide) (by decide) (by decide) (by decide)⟩


theorem writeWords_out : ∀ (vs : List Nat) (m : Mem) (a x : Nat),
    (∀ i, i < vs.length → x ≠ a + 8 * i) → writeWords m a vs x = m x := by
  intro vs
  induction vs with
  | nil => intro m a x _; rfl
  | cons v vs ih =>
    intro m a x h
    show writeWords (writeW m a v) (a + WSIZE) vs x = m x
    rw [ih (writeW m a v) (a + WSIZE) x ?_]
    · exact writeW_other _ _ _ _ (by have := h 0 (by simp); omega)
    · intro i hi
      have := h (i + 1) (by simp; omega)
      simp only [WSIZE]
      omega

theorem writeWords_in : ∀ (vs : List Nat) (m : Mem) (a i : Nat), i < vs.length →
    writeWords m a vs (a + 8 * i) = vs.getD i 0 := by
  intro vs
  induction vs with
  | nil => intro m a i hi; simp at hi
  | cons v vs ih =>
    intro m a i hi
    show writeWords (writeW m a v) (a + WSIZE) vs (a + 8 * i) = _
    rcases i with _ | i'
    · rw [writeWords_out vs _ _ _ (by intro j hj; simp only [WSIZE]; omega)]
      simp only [Nat.mul_zero, Nat.add_zero]
      exact writeW_same _ _ _
    · have e : a + 8 * (i' + 1) = (a + WSIZE) + 8 * i' := by simp only [WSIZE]; omega
      rw [e, ih _ _ i' (by simpa using hi)]
      rfl

theorem readWords_pat (m : Mem) (p : Nat) (P : List Nat)
    (h : ∀ i, i < P.length → m (p + 8 * i) = P.getD i 0) :
    readWords m p P.length = P := by
  apply List.ext_getElem (by simp [readWords])
  intro i h1 h2
  unfold readWords
  simp only [List.getElem_map, List.getElem_range, WSIZE]
  rw [h i h2, List.getD_eq_getElem P 0 h2]

theorem memcpyWords_read_in (m : Mem) (dst src : Nat) :
    ∀ c i, i < c → memcpyWords m dst src c (dst + i * WSIZE) = m (src + i * WSIZE) := by
  intro c
  induction c with
  | zero => intro i hi; omega
  | succ c ih =>
    intro i hi
    show writeW (memcpyWords m dst src c) (dst + c * WSIZE) (m (src + c * WSIZE))
      (dst + i * WSIZE) = _
    rcases Nat.lt_or_ge i c with h | h
    · rw [writeW_other _ _ _ _ (by simp only [WSIZE]; omega)]
      exact ih i h
    · have : i = c := by omega
      subst this
      exact writeW_same _ _ _

theorem memcpyWords_read_out (m : Mem) (dst src : Nat) :
    ∀ c x, (∀ i, i < c → x ≠ dst + i * WSIZE) → memcpyWords m dst src c x = m x := by
  intro c
  induction c with
  | zero => intro x _; rfl
  | succ c ih =>
    intro x h
    show writeW (memcpyWords m dst src c) (dst + c * WSIZE) (m (src + c * WSIZE)) x = _
    rw [writeW_other _ _ _ _ (h c (by omega))]
    exact ih x (fun i hi => h i (by omega))

theorem find_fit_walk_zero (m : Mem) (size : Nat) : ∀ f, find_fit_walk m f size 0 = 0 := by
  intro f
  cases f with
  | zero => rfl
  | succ f => simp [find_fit_walk]

theorem find_fit_lists_zero (m : Mem) (fs fuel size : Nat) : ∀ (r ln : Nat),
    (∀ j, ln ≤ j → j < MAX_LISTS → find_fit_walk m fuel size (GET_ROOT m fs j) = 0) →
    find_fit_lists m fs fuel size r ln = 0 := by
  intro r
  induction r with
  | zero => intro ln _; rfl
  | succ r ih =>
    intro ln h
    show (if ln < MAX_LISTS then _ else 0) = 0
    by_cases hln : ln < MAX_LISTS
    · rw [if_pos hln]
      dsimp only
      rw [h ln (by omega) hln]
      rw [if_neg (by simp)]
      exact ih (ln + 1) (fun j h1 h2 => h j (by omega) h2)
    · rw [if_neg hln]

theorem roundSize_ge64 (n : Nat) : 64 ≤ roundSize n := by
  unfold roundSize DWORD
  split
  · omega
  · omega

theorem roundSize_mono (n m : Nat) (h : n ≤ m) : roundSize n ≤ roundSize m := by
  unfold roundSize DWORD
  split <;> split <;> omega

theorem roundSize_ge_add8 (n : Nat) : n + 8 ≤ roundSize n := by
  unfold roundSize DWORD
  split
  · omega
  · omega

theorem get_list_of_band (k s : Nat) (h1 : 2 ^ k ≤ s) (h2 : s < 2 ^ (k + 1))
    (hk : k + 1 ≤ 15) : get_list s = k + 1 := by
  have hs1 : 1 ≤ s := le_trans (Nat.one_le_two_pow) h1
  rw [get_list_closed s hs1]
  have hlog : Nat.log2 s = k := by
    have ha : Nat.log2 s < k + 1 := (Nat.log2_lt (by omega)).mpr h2
    have hb : ¬ Nat.log2 s < k := by
      intro hc
      exact absurd ((Nat.log2_lt (by omega)).mp hc) (by omega)
    omega
  rw [hlog]
  omega


theorem find_fit_walk_succ (m : Mem) (f size ptr : Nat) :
    find_fit_walk m (f + 1) size ptr =
      if ptr ≠ 0 then
        if size ≤ GET_SIZE (m (HDRP ptr)) then ptr
        else find_fit_walk m f size (NEXT_FLIST_ADDRESS m ptr)
      else 0 := rfl

theorem find_fit_lists_succ (m : Mem) (fs fuel size r ln : Nat) :
    find_fit_lists m fs fuel size (r + 1) ln =
      if ln < MAX_LISTS then
        if find_fit_walk m fuel size (GET_ROOT m fs ln) ≠ 0 then
          find_fit_walk m fuel size (GET_ROOT m fs ln)
        else find_fit_lists m fs fuel size r (ln + 1)
      else 0 := rfl

theorem stInit_root_vals : ∀ k, k < 16 →
    GET_ROOT stInit.mem 1024 k = if k = 9 then 1176 else 0 := by decide

theorem find_fit_stInit (size : Nat) (h1 : 64 ≤ size) (h2 : size ≤ 256) :
    find_fit stInit.mem 1024 100 size = 1176 := by
  have hwalk9 : find_fit_walk stInit.mem 100 size 1176 = 1176 := by
    rw [show (100 : Nat) = 99 + 1 from rfl, find_fit_walk_succ]
    rw [if_pos (by omega)]
    rw [show GET_SIZE (stInit.mem (HDRP 1176)) = 256 from by decide]
    rw [if_pos h2]
  have hat9 : ∀ r, find_fit_lists stInit.mem 1024 100 size (r + 1) 9 = 1176 := by
    intro r
    rw [find_fit_lists_succ, if_pos (by norm_num [MAX_LISTS])]
    rw [show GET_ROOT stInit.mem 1024 9 = 1176 from by decide, hwalk9]
    rw [if_pos (by omega)]
  have hat8 : ∀ r, find_fit_lists stInit.mem 1024 100 size (r + 2) 8 = 1176 := by
    intro r
    rw [show r + 2 = (r + 1) + 1 from rfl, find_fit_lists_succ,
      if_pos (by norm_num [MAX_LISTS])]
    rw [show GET_ROOT stInit.mem 1024 8 = 0 from by decide, find_fit_walk_zero]
    rw [if_neg (by omega)]
    exact hat9 r
  have hat7 : ∀ r, find_fit_lists stInit.mem 1024 100 size (r + 3) 7 = 1176 := by
    intro r
    rw [show r + 3 = (r + 2) + 1 from rfl, find_fit_lists_succ,
      if_pos (by norm_num [MAX_LISTS])]
    rw [show GET_ROOT stInit.mem 1024 7 = 0 from by decide, find_fit_walk_zero]
    rw [if_neg (by omega)]
    exact hat8 r
  have hc : get_list size = 7 ∨ get_list size = 8 ∨ get_list size = 9 := by
    rcases Nat.lt_or_ge size 128 with h | h
    · exact Or.inl (get_list_of_band 6 size (by omega) (by norm_num; omega) (by omega))
    · rcases Nat.lt_or_ge size 256 with h' | h'
      · exact Or.inr (Or.inl
          (get_list_of_band 7 size (by norm_num; omega) (by norm_num; omega) (by omega)))
      · have : size = 256 := by omega
        subst this
        exact Or.inr (Or.inr (by decide))
  unfold find_fit MAX_LISTS
  rcases hc with hc | hc | hc <;> rw [hc]
  · exact hat7 13
  · exact hat8 14
  · exact hat9 15


theorem remove_block_stInit :
    remove_block 1024 stInit.mem 1176 =
      writeW (writeW (writeW stInit.mem 1096 0) 1184 0) 1176 0 := by
  unfold remove_block
  dsimp only
  rw [show GET_SIZE (stInit.mem (HDRP 1176)) = 256 from by decide]
  rw [show get_list 256 = 9 from by decide]
  rw [show PREV_FLIST_ADDRESS stInit.mem 1176 = 0 from by decide]
  rw [show NEXT_FLIST_ADDRESS stInit.mem 1176 = 0 from by decide]
  rw [if_pos (⟨rfl, rfl⟩ : (0 : Nat) = 0 ∧ (0 : Nat) = 0)]
  unfold SET_ROOT
  rw [show (1024 + 9 * WSIZE : Nat) = 1096 from rfl]
  rw [show (PREV_ADDRESS 1176 : Nat) = 1184 from rfl]
  rw [show (NEXT_ADDRESS 1176 : Nat) = 1176 from rfl]

theorem place_stInit (size : Nat) (h1 : 64 ≤ size) (h2 : size ≤ 176)
    (h16 : size % 16 = 0) :
    place 1024 100 stInit.mem 1176 size =
      (writeW (writeW (writeW (writeW (writeW (writeW (writeW (writeW (writeW (writeW
        stInit.mem 1096 0) 1184 0) 1176 0) 1424 1) 1168 (size + 3))
        (1168 + size) (258 - size)) 1416 (258 - size)) (1176 + size) 0)
        (1184 + size) 0)
        (1024 + get_list (256 - size) * WSIZE) (1176 + size), 1176) := by
  have hcR8 : get_list (256 - size) ≤ 8 := by
    have hl : Nat.log2 (256 - size) < 8 :=
      (Nat.log2_lt (by omega)).mpr (by norm_num; omega)
    rw [get_list_closed _ (by omega)]
    omega
  unfold place
  dsimp only
  rw [show NEXT_BLOCK stInit.mem 1176 = 1432 from by decide]
  rw [show GET_SIZE (stInit.mem (HDRP 1432)) = 0 from by decide]
  rw [show GET_SIZE (stInit.mem (HDRP 1176)) = 256 from by decide]
  rw [remove_block_stInit]
  rw [if_pos (show 256 - size > 1 <<< 6 by norm_num; omega)]
  set R := writeW (writeW (writeW stInit.mem 1096 0) 1184 0) 1176 0 with hR
  rw [show (HDRP 1432 : Nat) = 1424 from rfl]
  rw [show PACK 0 0 1 = 1 from by decide]
  rw [show (HDRP 1176 : Nat) = 1168 from rfl]
  rw [PACK_eq_add size 2 1 (by omega) (Or.inr rfl) (Or.inr rfl)]
  rw [show (size + 2 + 1 : Nat) = size + 3 from by omega]
  set M2 := writeW (writeW R 1424 1) 1168 (size + 3) with hM2
  have hsplit : NEXT_BLOCK M2 1176 = 1176 + size := by
    unfold NEXT_BLOCK
    rw [show (1176 - WSIZE : Nat) = 1168 from rfl]
    rw [hM2, writeW_same]
    unfold GET_SIZE
    omega
  rw [hsplit]
  rw [show (HDRP (1176 + size) : Nat) = 1168 + size from by
    simp only [HDRP, WSIZE]; omega]
  rw [PACK_eq_add (256 - size) 2 0 (by omega) (Or.inr rfl) (Or.inl rfl)]
  rw [show (256 - size + 2 + 0 : Nat) = 258 - size from by omega]
  have hftr : FTRP (writeW M2 (1168 + size) (258 - size)) (1176 + size) = 1416 := by
    unfold FTRP
    rw [show (HDRP (1176 + size) : Nat) = 1168 + size from by
      simp only [HDRP, WSIZE]; omega]
    rw [writeW_same]
    unfold GET_SIZE DWORD
    omega
  rw [hftr]
  set M3 := writeW (writeW M2 (1168 + size) (258 - size)) 1416 (258 - size) with hM3
  have haddb : add_block 1024 100 M3 (1176 + size) =
      writeW (writeW (writeW M3 (1176 + size) 0) (1184 + size) 0)
        (1024 + get_list (256 - size) * WSIZE) (1176 + size) := by
    unfold add_block
    dsimp only
    rw [show (HDRP (1176 + size) : Nat) = 1168 + size from by
      simp only [HDRP, WSIZE]; omega]
    have hrd : M3 (1168 + size) = 258 - size := by
      rw [hM3]
      rw [writeW_other _ _ _ _ (by omega)]
      exact writeW_same _ _ _
    rw [hrd]
    rw [show GET_SIZE (258 - size) = 256 - size from by unfold GET_SIZE; omega]
    rw [show (NEXT_ADDRESS (1176 + size) : Nat) = 1176 + size from rfl]
    rw [show (PREV_ADDRESS (1176 + size) : Nat) = 1184 + size from by
      simp only [PREV_ADDRESS, WSIZE]; omega]
    have hroot : GET_ROOT (writeW (writeW M3 (1176 + size) 0) (1184 + size) 0) 1024
        (get_list (256 - size)) = 0 := by
      unfold GET_ROOT
      rw [writeW_other _ _ _ _ (by simp only [WSIZE]; omega)]
      rw [writeW_other _ _ _ _ (by simp only [WSIZE]; omega)]
      rw [hM3]
      rw [writeW_other _ _ _ _ (by simp only [WSIZE]; omega)]
      rw [writeW_other _ _ _ _ (by simp only [WSIZE]; omega)]
      rw [hM2]
      rw [writeW_other _ _ _ _ (by simp only [WSIZE]; omega)]
      rw [writeW_other _ _ _ _ (by simp only [WSIZE]; omega)]
      rw [hR]
      rw [writeW_other _ _ _ _ (by simp only [WSIZE]; omega)]
      rw [writeW_other _ _ _ _ (by simp only [WSIZE]; omega)]
      rw [writeW_other _ _ _ _ (by simp only [WSIZE]; omega)]
      have h16' : get_list (256 - size) < 16 := by omega
      have hv := stInit_root_vals (get_list (256 - size)) h16'
      unfold GET_ROOT at hv
      rw [hv, if_neg (by omega)]
    rw [hroot]
    rw [if_pos rfl]
    unfold SET_ROOT
    rfl
  rw [haddb]


theorem get_list_lt_of_lt (S k : Nat) (h1 : 1 ≤ S) (h2 : S < 2 ^ k) (hk : k ≤ 15) :
    get_list S ≤ k := by
  rw [get_list_closed _ h1]
  have := (Nat.log2_lt (by omega)).mpr h2
  omega

theorem c9malloc_band_i (n : Nat) (h0 : 1 ≤ n) (h2 : roundSize n ≤ 176) :
    c9malloc n =
      (AllocState.mk (writeW (writeW (writeW (writeW (writeW (writeW (writeW
        (writeW (writeW (writeW stInit.mem 1096 0) 1184 0) 1176 0) 1424 1)
        1168 (roundSize n + 3)) (1168 + roundSize n) (258 - roundSize n))
        1416 (258 - roundSize n)) (1176 + roundSize n) 0) (1184 + roundSize n) 0)
        (1024 + get_list (256 - roundSize n) * WSIZE) (1176 + roundSize n))
        1432 1024 1160 1424 1176,
       1176) := by
  have h1 : 64 ≤ roundSize n := roundSize_ge n
  have h16 : roundSize n % 16 = 0 := roundSize_mod16 n
  unfold c9malloc mm_malloc
  rw [if_neg (by omega : ¬ n = 0)]
  dsimp only
  rw [show stInit.free_start = 1024 from rfl]
  rw [find_fit_stInit _ h1 (by omega)]
  rw [if_pos (by omega : (1176 : Nat) ≠ 0)]
  rw [place_stInit _ h1 h2 h16]
  rfl

theorem c9fill_shape_i (n : Nat) (P : List Nat) (h0 : 1 ≤ n) (h2 : roundSize n ≤ 176)
    (hP : 8 * P.length + 8 ≤ roundSize n) :
    shapeA (c9fill n P) (roundSize n) (256 - roundSize n) ∧
    (∀ i, i < P.length → (c9fill n P).mem (1176 + 8 * i) = P.getD i 0) := by
  have h1 : 64 ≤ roundSize n := roundSize_ge n
  have h16 : roundSize n % 16 = 0 := roundSize_mod16 n
  have hcR8 : get_list (256 - roundSize n) ≤ 8 :=
    get_list_lt_of_lt _ 8 (by omega) (by norm_num; omega) (by norm_num)
  have hcR0 : 1 ≤ get_list (256 - roundSize n) := by
    rw [get_list_closed _ (by omega)]
    omega
  unfold c9fill
  rw [c9malloc_band_i n h0 h2]
  dsimp only
  set rs := roundSize n with hrs
  set M := writeW (writeW (writeW (writeW (writeW (writeW (writeW
    (writeW (writeW (writeW stInit.mem 1096 0) 1184 0) 1176 0) 1424 1)
    1168 (rs + 3)) (1168 + rs) (258 - rs))
    1416 (258 - rs)) (1176 + rs) 0) (1184 + rs) 0)
    (1024 + get_list (256 - rs) * WSIZE) (1176 + rs) with hM
  have hout : ∀ a, (a < 1176 ∨ 1160 + rs < a) → writeWords M 1176 P a = M a := by
    intro a ha
    apply writeWords_out
    intro i hi
    omega
  have hpat : ∀ i, i < P.length → writeWords M 1176 P (1176 + 8 * i) = P.getD i 0 :=
    fun i hi => writeWords_in P M 1176 i hi
  refine ⟨⟨by omega, by omega, by omega, by omega, by omega, ?_, ?_, ?_, ?_,
    ?_, ?_, ?_, ?_, ?_, ?_, ?_⟩, hpat⟩
  · exact rfl
  · exact rfl
  · show stInit.heap_epilogue = 1168 + rs + (256 - rs)
    rw [show stInit.heap_epilogue = 1424 from rfl]
    omega
  · show stInit.brk = 1176 + rs + (256 - rs)
    rw [show stInit.brk = 1432 from rfl]
    omega
  · show writeWords M 1176 P 1168 = rs + 3
    rw [hout 1168 (by omega), hM]
    rw [writeW_other _ _ _ _ (by simp only [WSIZE]; omega)]
    rw [writeW_other _ _ _ _ (by omega)]
    rw [writeW_other _ _ _ _ (by omega)]
    rw [writeW_other _ _ _ _ (by omega)]
    rw [writeW_other _ _ _ _ (by omega)]
    exact writeW_same _ _ _
  · show writeWords M 1176 P (1168 + rs) = 256 - rs + 2
    rw [hout (1168 + rs) (by omega), hM]
    rw [writeW_other _ _ _ _ (by simp only [WSIZE]; omega)]
    rw [writeW_other _ _ _ _ (by omega)]
    rw [writeW_other _ _ _ _ (by omega)]
    rw [writeW_other _ _ _ _ (by omega)]
    rw [writeW_same]
    omega
  · show writeWords M 1176 P (1176 + rs) = 0
    rw [hout (1176 + rs) (by omega), hM]
    rw [writeW_other _ _ _ _ (by simp only [WSIZE]; omega)]
    rw [writeW_other _ _ _ _ (by omega)]
    exact writeW_same _ _ _
  · show writeWords M 1176 P (1184 + rs) = 0
    rw [hout (1184 + rs) (by omega), hM]
    rw [writeW_other _ _ _ _ (by simp only [WSIZE]; omega)]
    exact writeW_same _ _ _
  · show writeWords M 1176 P (1160 + rs + (256 - rs)) = 256 - rs + 2
    rw [show (1160 + rs + (256 - rs) : Nat) = 1416 from by omega]
    rw [hout 1416 (by omega), hM]
    rw [writeW_other _ _ _ _ (by simp only [WSIZE]; omega)]
    rw [writeW_other _ _ _ _ (by omega)]
    rw [writeW_other _ _ _ _ (by omega)]
    rw [writeW_same]
    omega
  · show writeWords M 1176 P (1168 + rs + (256 - rs)) = 1
    rw [show (1168 + rs + (256 - rs) : Nat) = 1424 from by omega]
    rw [hout 1424 (by omega), hM]
    rw [writeW_other _ _ _ _ (by simp only [WSIZE]; omega)]
    rw [writeW_other _ _ _ _ (by omega)]
    rw [writeW_other _ _ _ _ (by omega)]
    rw [writeW_other _ _ _ _ (by omega)]
    rw [writeW_other _ _ _ _ (by omega)]
    rw [writeW_other _ _ _ _ (by omega)]
    exact writeW_same _ _ _
  · intro k hk
    show writeWords M 1176 P (1024 + 8 * k) =
      if k = get_list (256 - rs) then 1176 + rs else 0
    rw [hout (1024 + 8 * k) (by omega), hM]
    by_cases hkc : k = get_list (256 - rs)
    · rw [if_pos hkc, hkc]
      rw [show (1024 + 8 * get_list (256 - rs) : Nat) =
        1024 + get_list (256 - rs) * WSIZE from by simp only [WSIZE]; omega]
      exact writeW_same _ _ _
    · rw [if_neg hkc]
      rw [writeW_other _ _ _ _ (by simp only [WSIZE]; omega)]
      rw [writeW_other _ _ _ _ (by omega)]
      rw [writeW_other _ _ _ _ (by omega)]
      rw [writeW_other _ _ _ _ (by omega)]
      rw [writeW_other _ _ _ _ (by omega)]
      rw [writeW_other _ _ _ _ (by omega)]
      rw [writeW_other _ _ _ _ (by omega)]
      rw [writeW_other _ _ _ _ (by omega)]
      rw [writeW_other _ _ _ _ (by omega)]
      by_cases hk9 : k = 9
      · subst hk9
        exact writeW_same _ _ _
      · rw [writeW_other _ _ _ _ (by omega)]
        have hv := stInit_root_vals k hk
        unfold GET_ROOT at hv
        rw [show (1024 + 8 * k : Nat) = 1024 + k * WSIZE from by
          simp only [WSIZE]; omega]
        rw [hv, if_neg hk9]


theorem place_stInit_nosplit (size : Nat) (h1 : 192 ≤ size) (h2 : size ≤ 256)
    (h16 : size % 16 = 0) :
    place 1024 100 stInit.mem 1176 size =
      (writeW (writeW (writeW (writeW (writeW stInit.mem 1096 0) 1184 0) 1176 0)
        1424 3) 1168 259, 1176) := by
  unfold place
  dsimp only
  rw [show NEXT_BLOCK stInit.mem 1176 = 1432 from by decide]
  rw [show GET_SIZE (stInit.mem (HDRP 1432)) = 0 from by decide]
  rw [show GET_SIZE (stInit.mem (HDRP 1176)) = 256 from by decide]
  rw [remove_block_stInit]
  rw [if_neg (show ¬ 256 - size > 1 <<< 6 by norm_num; omega)]
  rw [show (HDRP 1432 : Nat) = 1424 from rfl]
  rw [show PACK 0 2 1 = 3 from by decide]
  rw [show (HDRP 1176 : Nat) = 1168 from rfl]
  rw [show PACK 256 2 1 = 259 from by decide]

theorem c9malloc_band_ii (n : Nat) (h0 : 1 ≤ n) (h1 : 192 ≤ roundSize n)
    (h2 : roundSize n ≤ 256) :
    c9malloc n =
      (AllocState.mk (writeW (writeW (writeW (writeW (writeW stInit.mem 1096 0)
        1184 0) 1176 0) 1424 3) 1168 259) 1432 1024 1160 1424 1176, 1176) := by
  have h16 : roundSize n % 16 = 0 := roundSize_mod16 n
  unfold c9malloc mm_malloc
  rw [if_neg (by omega : ¬ n = 0)]
  dsimp only
  rw [show stInit.free_start = 1024 from rfl]
  rw [find_fit_stInit _ (by omega) h2]
  rw [if_pos (by omega : (1176 : Nat) ≠ 0)]
  rw [place_stInit_nosplit _ h1 h2 h16]
  rfl

theorem c9fill_shape_ii (n : Nat) (P : List Nat) (h0 : 1 ≤ n)
    (h1 : 192 ≤ roundSize n) (h2 : roundSize n ≤ 256)
    (hP : 8 * P.length + 8 ≤ roundSize n) :
    shapeB (c9fill n P) ∧
    (∀ i, i < P.length → (c9fill n P).mem (1176 + 8 * i) = P.getD i 0) := by
  unfold c9fill
  rw [c9malloc_band_ii n h0 h1 h2]
  dsimp only
  set M := writeW (writeW (writeW (writeW (writeW stInit.mem 1096 0)
    1184 0) 1176 0) 1424 3) 1168 259 with hM
  have hout : ∀ a, (a < 1176 ∨ 1160 + roundSize n < a) → writeWords M 1176 P a = M a := by
    intro a ha
    apply writeWords_out
    intro i hi
    omega
  have hpat : ∀ i, i < P.length → writeWords M 1176 P (1176 + 8 * i) = P.getD i 0 :=
    fun i hi => writeWords_in P M 1176 i hi
  refine ⟨⟨rfl, rfl, rfl, rfl, ?_, ?_, ?_⟩, hpat⟩
  · show writeWords M 1176 P 1168 = 259
    rw [hout 1168 (by omega), hM]
    exact writeW_same _ _ _
  · show writeWords M 1176 P 1424 = 3
    rw [hout 1424 (by omega), hM]
    rw [writeW_other _ _ _ _ (by omega)]
    exact writeW_same _ _ _
  · intro k hk
    show writeWords M 1176 P (1024 + 8 * k) = 0
    rw [hout (1024 + 8 * k) (by omega), hM]
    rw [writeW_other _ _ _ _ (by omega)]
    rw [writeW_other _ _ _ _ (by omega)]
    rw [writeW_other _ _ _ _ (by omega)]
    rw [writeW_other _ _ _ _ (by omega)]
    by_cases hk9 : k = 9
    · subst hk9
      exact writeW_same _ _ _
    · rw [writeW_other _ _ _ _ (by omega)]
      have hv := stInit_root_vals k hk
      unfold GET_ROOT at hv
      rw [show (1024 + 8 * k : Nat) = 1024 + k * WSIZE from by simp only [WSIZE]; omega]
      rw [hv, if_neg hk9]


theorem find_fit_stInit_fail (size : Nat) (h : 257 ≤ size) :
    find_fit stInit.mem 1024 100 size = 0 := by
  unfold find_fit
  apply find_fit_lists_zero
  intro j _ hlt
  have hj16 : j < 16 := by simpa [MAX_LISTS] using hlt
  have hv := stInit_root_vals j hj16
  by_cases h9 : j = 9
  · subst h9
    rw [hv, if_pos rfl]
    rw [show (100 : Nat) = 99 + 1 from rfl, find_fit_walk_succ]
    rw [if_pos (by omega)]
    rw [show GET_SIZE (stInit.mem (HDRP 1176)) = 256 from by decide]
    rw [if_neg (by omega)]
    rw [show NEXT_FLIST_ADDRESS stInit.mem 1176 = 0 from by decide]
    exact find_fit_walk_zero _ _ _
  · rw [hv, if_neg h9]
    exact find_fit_walk_zero _ _ _

theorem extend_stInit_iii (B : Nat) (h1 : 272 ≤ B) (h16 : B % 16 = 0) :
    extend_heap growAll 100 stInit (B / 8) =
      (AllocState.mk (writeW (writeW (writeW (writeW (writeW (writeW (writeW (writeW
        (writeW (writeW (writeW stInit.mem
        1424 B) (1416 + B) B) (1424 + B) 1)
        1096 0) 1184 0) 1176 0)
        1168 (B + 258)) (1416 + B) (B + 258))
        1176 0) 1184 0)
        (1024 + get_list (B + 256) * WSIZE) 1176)
        (1432 + B) 1024 1160 (1424 + B) 1176,
       some 1176) := by
  have hcM10 : 10 ≤ get_list (B + 256) := by
    rw [get_list_closed _ (by omega)]
    have h9 : ¬ Nat.log2 (B + 256) < 9 := fun hc =>
      absurd ((Nat.log2_lt (by omega)).mp hc) (by norm_num; omega)
    omega
  have hcM15 : get_list (B + 256) ≤ 15 := get_list_le15 _
  unfold extend_heap mem_sbrk growAll
  rw [show stInit.brk = 1432 from rfl]
  dsimp only
  rw [if_neg (by omega : ¬ B / 8 % 2 = 1)]
  rw [show (B / 8 * WSIZE : Nat) = B from by simp only [WSIZE]; omega]
  rw [show stInit.heap_epilogue = 1424 from rfl]
  rw [show GET_PREV_ALLOC (stInit.mem 1424) = 0 from by decide]
  rw [if_pos rfl]
  dsimp only
  rw [show (HDRP 1432 : Nat) = 1424 from rfl]
  rw [PACK_eq_add B 0 0 (by omega) (Or.inl rfl) (Or.inl rfl)]
  rw [show (B + 0 + 0 : Nat) = B from by omega]
  have hftr : FTRP (writeW stInit.mem 1424 B) 1432 = 1416 + B := by
    unfold FTRP DWORD
    rw [show (HDRP 1432 : Nat) = 1424 from rfl, writeW_same]
    unfold GET_SIZE
    omega
  rw [hftr]
  have hnb : NEXT_BLOCK (writeW (writeW stInit.mem 1424 B) (1416 + B) B) 1432 =
      1432 + B := by
    unfold NEXT_BLOCK
    rw [show (1432 - WSIZE : Nat) = 1424 from rfl]
    rw [writeW_other _ _ _ _ (by omega), writeW_same]
    unfold GET_SIZE
    omega
  rw [hnb]
  rw [show PACK 0 0 1 = 1 from by decide]
  rw [show (HDRP (1432 + B) : Nat) = 1424 + B from by simp only [HDRP, WSIZE]; omega]
  set M3 := writeW (writeW (writeW stInit.mem 1424 B) (1416 + B) B) (1424 + B) 1
    with hM3
  have hnb3 : NEXT_BLOCK M3 1432 = 1432 + B := by
    unfold NEXT_BLOCK
    rw [show (1432 - WSIZE : Nat) = 1424 from rfl]
    rw [hM3]
    rw [writeW_other _ _ _ _ (by omega)]
    rw [writeW_other _ _ _ _ (by omega), writeW_same]
    unfold GET_SIZE
    omega
  rw [hnb3]
  rw [show (HDRP (1432 + B) : Nat) = 1424 + B from by simp only [HDRP, WSIZE]; omega]
  rw [if_neg (by omega : ¬ (0 : Nat) ≠ 0)]
  rw [show stInit.free_start = 1024 from rfl]
  -- the coalesce of the fresh block with the free 256-byte seed block
  have hm3h : M3 1424 = B := by
    rw [hM3]
    rw [writeW_other _ _ _ _ (by omega)]
    rw [writeW_other _ _ _ _ (by omega)]
    exact writeW_same _ _ _
  have hco : coalesce 1024 100 M3 1432 =
      (writeW (writeW (writeW (writeW (writeW (writeW (writeW (writeW M3
        1096 0) 1184 0) 1176 0)
        1168 (B + 258)) (1416 + B) (B + 258))
        1176 0) 1184 0)
        (1024 + get_list (B + 256) * WSIZE) 1176, 1176) := by
    unfold coalesce
    dsimp only
    rw [show (HDRP 1432 : Nat) = 1424 from rfl]
    rw [hm3h]
    rw [show GET_PREV_ALLOC B = 0 from by unfold GET_PREV_ALLOC; omega]
    rw [hnb3]
    rw [show (HDRP (1432 + B) : Nat) = 1424 + B from by simp only [HDRP, WSIZE]; omega]
    rw [show M3 (1424 + B) = 1 from by rw [hM3]; exact writeW_same _ _ _]
    rw [show GET_ALLOC 1 = 1 from rfl]
    rw [show GET_SIZE B = B from by unfold GET_SIZE; omega]
    rw [if_neg (by simp)]
    rw [if_pos (⟨rfl, by omega⟩ : (0 : Nat) = 0 ∧ (1 : Nat) ≠ 0)]
    have hpb : PREV_BLOCK M3 1432 = 1176 := by
      unfold PREV_BLOCK DWORD
      rw [show (1432 - 16 : Nat) = 1416 from rfl]
      rw [hM3]
      rw [writeW_other _ _ _ _ (by omega)]
      rw [writeW_other _ _ _ _ (by omega)]
      rw [writeW_other _ _ _ _ (by omega)]
      rw [show stInit.mem 1416 = 258 from by decide]
      rw [show GET_SIZE 258 = 256 from by decide]
    rw [hpb]
    rw [show (HDRP 1176 : Nat) = 1168 from rfl]
    have hm3p : M3 1168 = 258 := by
      rw [hM3]
      rw [writeW_other _ _ _ _ (by omega)]
      rw [writeW_other _ _ _ _ (by omega)]
      rw [writeW_other _ _ _ _ (by omega)]
      decide
    rw [hm3p]
    rw [show GET_SIZE 258 = 256 from by decide]
    rw [show get_list 256 = 9 from by decide]
    rw [if_pos (show (1 <<< 9 : Nat) ≤ B + 256 from by norm_num; omega)]
    have hrm : remove_block 1024 M3 1176 =
        writeW (writeW (writeW M3 1096 0) 1184 0) 1176 0 := by
      unfold remove_block
      dsimp only
      rw [show (HDRP 1176 : Nat) = 1168 from rfl]
      rw [hm3p]
      rw [show GET_SIZE 258 = 256 from by decide]
      rw [show get_list 256 = 9 from by decide]
      rw [show PREV_FLIST_ADDRESS M3 1176 = 0 from by
        unfold PREV_FLIST_ADDRESS PREV_ADDRESS WSIZE
        rw [hM3]
        rw [writeW_other _ _ _ _ (by omega)]
        rw [writeW_other _ _ _ _ (by omega)]
        rw [writeW_other _ _ _ _ (by omega)]
        decide]
      rw [show NEXT_FLIST_ADDRESS M3 1176 = 0 from by
        unfold NEXT_FLIST_ADDRESS
        rw [hM3]
        rw [writeW_other _ _ _ _ (by omega)]
        rw [writeW_other _ _ _ _ (by omega)]
        rw [writeW_other _ _ _ _ (by omega)]
        decide]
      rw [if_pos (⟨rfl, rfl⟩ : (0 : Nat) = 0 ∧ (0 : Nat) = 0)]
      unfold SET_ROOT
      rw [show (1024 + 9 * WSIZE : Nat) = 1096 from rfl]
      rw [show (PREV_ADDRESS 1176 : Nat) = 1184 from rfl]
      rw [show (NEXT_ADDRESS 1176 : Nat) = 1176 from rfl]
    rw [hrm]
    rw [PACK_eq_add (B + 256) 2 0 (by omega) (Or.inr rfl) (Or.inl rfl)]
    rw [show (B + 256 + 2 + 0 : Nat) = B + 258 from by omega]
    set M7 := writeW (writeW (writeW (writeW M3 1096 0) 1184 0) 1176 0)
      1168 (B + 258) with hM7
    have hftr7 : FTRP M7 1176 = 1416 + B := by
      unfold FTRP DWORD
      rw [show (HDRP 1176 : Nat) = 1168 from rfl]
      rw [hM7, writeW_same]
      unfold GET_SIZE
      omega
    rw [hftr7]
    have hab : add_block 1024 100 (writeW M7 (1416 + B) (B + 258)) 1176 =
        writeW (writeW (writeW (writeW M7 (1416 + B) (B + 258)) 1176 0) 1184 0)
          (1024 + get_list (B + 256) * WSIZE) 1176 := by
      unfold add_block
      dsimp only
      rw [show (HDRP 1176 : Nat) = 1168 from rfl]
      rw [show (writeW M7 (1416 + B) (B + 258)) 1168 = B + 258 from by
        rw [writeW_other _ _ _ _ (by omega)]
        rw [hM7]
        exact writeW_same _ _ _]
      rw [show GET_SIZE (B + 258) = B + 256 from by unfold GET_SIZE; omega]
      rw [show (NEXT_ADDRESS 1176 : Nat) = 1176 from rfl]
      rw [show (PREV_ADDRESS 1176 : Nat) = 1184 from rfl]
      have hroot : GET_ROOT (writeW (writeW (writeW M7 (1416 + B) (B + 258)) 1176 0)
          1184 0) 1024 (get_list (B + 256)) = 0 := by
        unfold GET_ROOT
        rw [writeW_other _ _ _ _ (by simp only [WSIZE]; omega)]
        rw [writeW_other _ _ _ _ (by simp only [WSIZE]; omega)]
        rw [writeW_other _ _ _ _ (by simp only [WSIZE]; omega)]
        rw [hM7]
        rw [writeW_other _ _ _ _ (by simp only [WSIZE]; omega)]
        rw [writeW_other _ _ _ _ (by simp only [WSIZE]; omega)]
        rw [writeW_other _ _ _ _ (by simp only [WSIZE]; omega)]
        rw [writeW_other _ _ _ _ (by simp only [WSIZE]; omega)]
        rw [hM3]
        rw [writeW_other _ _ _ _ (by simp only [WSIZE]; omega)]
        rw [writeW_other _ _ _ _ (by simp only [WSIZE]; omega)]
        rw [writeW_other _ _ _ _ (by simp only [WSIZE]; omega)]
        have hv := stInit_root_vals (get_list (B + 256)) (by omega)
        unfold GET_ROOT at hv
        rw [hv, if_neg (by omega)]
      rw [hroot]
      rw [if_pos rfl]
      unfold SET_ROOT
      rfl
    rw [hab]
  rw [hco]
  rfl


theorem place_band_iii (B : Nat) (h1 : 272 ≤ B) (h16 : B % 16 = 0) :
    place 1024 100
      (writeW (writeW (writeW (writeW (writeW (writeW (writeW (writeW
        (writeW (writeW (writeW stInit.mem
        1424 B) (1416 + B) B) (1424 + B) 1)
        1096 0) 1184 0) 1176 0)
        1168 (B + 258)) (1416 + B) (B + 258))
        1176 0) 1184 0)
        (1024 + get_list (B + 256) * WSIZE) 1176)
      1176 B =
      (writeW (writeW (writeW (writeW (writeW (writeW (writeW (writeW (writeW (writeW
        (writeW (writeW (writeW (writeW (writeW (writeW (writeW (writeW
        (writeW (writeW (writeW stInit.mem
        1424 B) (1416 + B) B) (1424 + B) 1)
        1096 0) 1184 0) 1176 0)
        1168 (B + 258)) (1416 + B) (B + 258))
        1176 0) 1184 0)
        (1024 + get_list (B + 256) * WSIZE) 1176)
        (1024 + get_list (B + 256) * WSIZE) 0) 1184 0) 1176 0)
        (1424 + B) 1) 1168 (B + 3)) (1168 + B) 258) (1416 + B) 258)
        (1176 + B) 0) (1184 + B) 0) 1096 (1176 + B), 1176) := by
  have hcM10 : 10 ≤ get_list (B + 256) := by
    rw [get_list_closed _ (by omega)]
    have h9 : ¬ Nat.log2 (B + 256) < 9 := fun hc =>
      absurd ((Nat.log2_lt (by omega)).mp hc) (by norm_num; omega)
    omega
  have hcM15 : get_list (B + 256) ≤ 15 := get_list_le15 _
  set M11 := writeW (writeW (writeW (writeW (writeW (writeW (writeW (writeW
    (writeW (writeW (writeW stInit.mem
    1424 B) (1416 + B) B) (1424 + B) 1)
    1096 0) 1184 0) 1176 0)
    1168 (B + 258)) (1416 + B) (B + 258))
    1176 0) 1184 0)
    (1024 + get_list (B + 256) * WSIZE) 1176 with hM11
  have hr1168 : M11 1168 = B + 258 := by
    rw [hM11]
    rw [writeW_other _ _ _ _ (by simp only [WSIZE]; omega)]
    rw [writeW_other _ _ _ _ (by omega)]
    rw [writeW_other _ _ _ _ (by omega)]
    rw [writeW_other _ _ _ _ (by omega)]
    exact writeW_same _ _ _
  have hr1424B : M11 (1424 + B) = 1 := by
    rw [hM11]
    rw [writeW_other _ _ _ _ (by simp only [WSIZE]; omega)]
    rw [writeW_other _ _ _ _ (by omega)]
    rw [writeW_other _ _ _ _ (by omega)]
    rw [writeW_other _ _ _ _ (by omega)]
    rw [writeW_other _ _ _ _ (by omega)]
    rw [writeW_other _ _ _ _ (by omega)]
    rw [writeW_other _ _ _ _ (by omega)]
    rw [writeW_other _ _ _ _ (by omega)]
    exact writeW_same _ _ _
  unfold place
  dsimp only
  have hnb : NEXT_BLOCK M11 1176 = 1432 + B := by
    unfold NEXT_BLOCK
    rw [show (1176 - WSIZE : Nat) = 1168 from rfl, hr1168]
    unfold GET_SIZE
    omega
  rw [hnb]
  rw [show (HDRP (1432 + B) : Nat) = 1424 + B from by simp only [HDRP, WSIZE]; omega]
  rw [hr1424B]
  rw [show (HDRP 1176 : Nat) = 1168 from rfl, hr1168]
  rw [show GET_SIZE (1 : Nat) = 0 from by decide]
  rw [show GET_SIZE (B + 258) = B + 256 from by unfold GET_SIZE; omega]
  have hrm : remove_block 1024 M11 1176 =
      writeW (writeW (writeW M11 (1024 + get_list (B + 256) * WSIZE) 0) 1184 0)
        1176 0 := by
    unfold remove_block
    dsimp only
    rw [show (HDRP 1176 : Nat) = 1168 from rfl, hr1168]
    rw [show GET_SIZE (B + 258) = B + 256 from by unfold GET_SIZE; omega]
    rw [show PREV_FLIST_ADDRESS M11 1176 = 0 from by
      unfold PREV_FLIST_ADDRESS PREV_ADDRESS WSIZE
      rw [hM11]
      rw [writeW_other _ _ _ _ (by simp only [WSIZE]; omega)]
      exact writeW_same _ _ _]
    rw [show NEXT_FLIST_ADDRESS M11 1176 = 0 from by
      unfold NEXT_FLIST_ADDRESS
      rw [hM11]
      rw [writeW_other _ _ _ _ (by simp only [WSIZE]; omega)]
      rw [writeW_other _ _ _ _ (by omega)]
      exact writeW_same _ _ _]
    rw [if_pos (⟨rfl, rfl⟩ : (0 : Nat) = 0 ∧ (0 : Nat) = 0)]
    unfold SET_ROOT
    rw [show (PREV_ADDRESS 1176 : Nat) = 1184 from rfl]
    rw [show (NEXT_ADDRESS 1176 : Nat) = 1176 from rfl]
  rw [hrm]
  rw [if_pos (show B + 256 - B > 1 <<< 6 from by norm_num; omega)]
  rw [show PACK 0 0 1 = 1 from by decide]
  rw [PACK_eq_add B 2 1 (by omega) (Or.inr rfl) (Or.inr rfl)]
  rw [show (B + 2 + 1 : Nat) = B + 3 from by omega]
  set M16 := writeW (writeW (writeW (writeW (writeW M11
    (1024 + get_list (B + 256) * WSIZE) 0) 1184 0) 1176 0)
    (1424 + B) 1) 1168 (B + 3) with hM16
  have hsplit : NEXT_BLOCK M16 1176 = 1176 + B := by
    unfold NEXT_BLOCK
    rw [show (1176 - WSIZE : Nat) = 1168 from rfl]
    rw [hM16, writeW_same]
    unfold GET_SIZE
    omega
  rw [hsplit]
  rw [show (HDRP (1176 + B) : Nat) = 1168 + B from by simp only [HDRP, WSIZE]; omega]
  rw [show (B + 256 - B : Nat) = 256 from by omega]
  rw [PACK_eq_add 256 2 0 (by omega) (Or.inr rfl) (Or.inl rfl)]
  rw [show (256 + 2 + 0 : Nat) = 258 from by omega]
  have hftr : FTRP (writeW M16 (1168 + B) 258) (1176 + B) = 1416 + B := by
    unfold FTRP DWORD
    rw [show (HDRP (1176 + B) : Nat) = 1168 + B from by simp only [HDRP, WSIZE]; omega]
    rw [writeW_same]
    unfold GET_SIZE
    omega
  rw [hftr]
  have hab : add_block 1024 100 (writeW (writeW M16 (1168 + B) 258) (1416 + B) 258)
      (1176 + B) =
      writeW (writeW (writeW (writeW (writeW M16 (1168 + B) 258) (1416 + B) 258)
        (1176 + B) 0) (1184 + B) 0) 1096 (1176 + B) := by
    unfold add_block
    dsimp only
    rw [show (HDRP (1176 + B) : Nat) = 1168 + B from by simp only [HDRP, WSIZE]; omega]
    rw [show (writeW (writeW M16 (1168 + B) 258) (1416 + B) 258) (1168 + B) = 258 from by
      rw [writeW_other _ _ _ _ (by omega)]
      exact writeW_same _ _ _]
    rw [show GET_SIZE (258 : Nat) = 256 from by decide]
    rw [show get_list 256 = 9 from by decide]
    rw [show (NEXT_ADDRESS (1176 + B) : Nat) = 1176 + B from rfl]
    rw [show (PREV_ADDRESS (1176 + B) : Nat) = 1184 + B from by
      simp only [PREV_ADDRESS, WSIZE]; omega]
    have hroot : GET_ROOT (writeW (writeW (writeW (writeW M16 (1168 + B) 258)
        (1416 + B) 258) (1176 + B) 0) (1184 + B) 0) 1024 9 = 0 := by
      unfold GET_ROOT
      rw [show (1024 + 9 * WSIZE : Nat) = 1096 from rfl]
      rw [writeW_other _ _ _ _ (by omega)]
      rw [writeW_other _ _ _ _ (by omega)]
      rw [writeW_other _ _ _ _ (by omega)]
      rw [writeW_other _ _ _ _ (by omega)]
      rw [hM16]
      rw [writeW_other _ _ _ _ (by omega)]
      rw [writeW_other _ _ _ _ (by omega)]
      rw [writeW_other _ _ _ _ (by omega)]
      rw [writeW_other _ _ _ _ (by omega)]
      rw [writeW_other _ _ _ _ (by simp only [WSIZE]; omega)]
      rw [hM11]
      rw [writeW_other _ _ _ _ (by simp only [WSIZE]; omega)]
      rw [writeW_other _ _ _ _ (by omega)]
      rw [writeW_other _ _ _ _ (by omega)]
      rw [writeW_other _ _ _ _ (by omega)]
      rw [writeW_other _ _ _ _ (by omega)]
      rw [writeW_other _ _ _ _ (by omega)]
      rw [writeW_other _ _ _ _ (by omega)]
      rw [writeW_same]
    rw [hroot]
    rw [if_pos rfl]
    unfold SET_ROOT
    rfl
  rw [hab]


theorem c9malloc_band_iii (n : Nat) (h0 : 1 ≤ n) (h1 : 272 ≤ roundSize n) :
    c9malloc n =
      (AllocState.mk (writeW (writeW (writeW (writeW (writeW (writeW (writeW (writeW
        (writeW (writeW (writeW (writeW (writeW (writeW (writeW (writeW (writeW (writeW
        (writeW (writeW (writeW stInit.mem
        1424 (roundSize n)) (1416 + roundSize n) (roundSize n)) (1424 + roundSize n) 1)
        1096 0) 1184 0) 1176 0)
        1168 (roundSize n + 258)) (1416 + roundSize n) (roundSize n + 258))
        1176 0) 1184 0)
        (1024 + get_list (roundSize n + 256) * WSIZE) 1176)
        (1024 + get_list (roundSize n + 256) * WSIZE) 0) 1184 0) 1176 0)
        (1424 + roundSize n) 1) 1168 (roundSize n + 3)) (1168 + roundSize n) 258)
        (1416 + roundSize n) 258)
        (1176 + roundSize n) 0) (1184 + roundSize n) 0) 1096 (1176 + roundSize n))
        (1432 + roundSize n) 1024 1160 (1424 + roundSize n) 1176,
       1176) := by
  have h16 : roundSize n % 16 = 0 := roundSize_mod16 n
  unfold c9malloc mm_malloc
  rw [if_neg (by omega : ¬ n = 0)]
  dsimp only
  rw [show stInit.free_start = 1024 from rfl]
  rw [find_fit_stInit_fail _ (by omega)]
  rw [if_neg (by omega : ¬ (0 : Nat) ≠ 0)]
  rw [show max (roundSize n) CHUNKSIZE = roundSize n from by
    unfold CHUNKSIZE; omega]
  rw [show (roundSize n / WSIZE : Nat) = roundSize n / 8 from rfl]
  rw [extend_stInit_iii (roundSize n) h1 h16]
  dsimp only
  rw [place_band_iii (roundSize n) h1 h16]


theorem c9fill_shape_iii (n : Nat) (P : List Nat) (h0 : 1 ≤ n)
    (h1 : 272 ≤ roundSize n) (hP : 8 * P.length + 8 ≤ roundSize n) :
    shapeA (c9fill n P) (roundSize n) 256 ∧
    (∀ i, i < P.length → (c9fill n P).mem (1176 + 8 * i) = P.getD i 0) := by
  have h16 : roundSize n % 16 = 0 := roundSize_mod16 n
  have hcM10 : 10 ≤ get_list (roundSize n + 256) := by
    rw [get_list_closed _ (by omega)]
    have h9 : ¬ Nat.log2 (roundSize n + 256) < 9 := fun hc =>
      absurd ((Nat.log2_lt (by omega)).mp hc) (by norm_num; omega)
    omega
  have hcM15 : get_list (roundSize n + 256) ≤ 15 := get_list_le15 _
  unfold c9fill
  rw [c9malloc_band_iii n h0 h1]
  dsimp only
  set rs := roundSize n with hrs
  set M := writeW (writeW (writeW (writeW (writeW (writeW (writeW (writeW
    (writeW (writeW (writeW (writeW (writeW (writeW (writeW (writeW (writeW (writeW
    (writeW (writeW (writeW stInit.mem
    1424 rs) (1416 + rs) rs) (1424 + rs) 1)
    1096 0) 1184 0) 1176 0)
    1168 (rs + 258)) (1416 + rs) (rs + 258))
    1176 0) 1184 0)
    (1024 + get_list (rs + 256) * WSIZE) 1176)
    (1024 + get_list (rs + 256) * WSIZE) 0) 1184 0) 1176 0)
    (1424 + rs) 1) 1168 (rs + 3)) (1168 + rs) 258)
    (1416 + rs) 258)
    (1176 + rs) 0) (1184 + rs) 0) 1096 (1176 + rs) with hM
  have hout : ∀ a, (a < 1176 ∨ 1160 + rs < a) → writeWords M 1176 P a = M a := by
    intro a ha
    apply writeWords_out
    intro i hi
    omega
  have hpat : ∀ i, i < P.length → writeWords M 1176 P (1176 + 8 * i) = P.getD i 0 :=
    fun i hi => writeWords_in P M 1176 i hi
  refine ⟨⟨by omega, by omega, by omega, by omega, by omega, rfl, rfl, ?_, ?_,
    ?_, ?_, ?_, ?_, ?_, ?_, ?_⟩, hpat⟩
  · show (1424 + rs : Nat) = 1168 + rs + 256
    omega
  · show (1432 + rs : Nat) = 1176 + rs + 256
    omega
  · show writeWords M 1176 P 1168 = rs + 3
    rw [hout 1168 (by omega), hM]
    rw [writeW_other _ _ _ _ (by omega)]
    rw [writeW_other _ _ _ _ (by omega)]
    rw [writeW_other _ _ _ _ (by omega)]
    rw [writeW_other _ _ _ _ (by omega)]
    rw [writeW_other _ _ _ _ (by omega)]
    exact writeW_same _ _ _
  · show writeWords M 1176 P (1168 + rs) = 256 + 2
    rw [hout (1168 + rs) (by omega), hM]
    rw [writeW_other _ _ _ _ (by omega)]
    rw [writeW_other _ _ _ _ (by omega)]
    rw [writeW_other _ _ _ _ (by omega)]
    rw [writeW_other _ _ _ _ (by omega)]
    rw [writeW_same]
  · show writeWords M 1176 P (1176 + rs) = 0
    rw [hout (1176 + rs) (by omega), hM]
    rw [writeW_other _ _ _ _ (by omega)]
    rw [writeW_other _ _ _ _ (by omega)]
    exact writeW_same _ _ _
  · show writeWords M 1176 P (1184 + rs) = 0
    rw [hout (1184 + rs) (by omega), hM]
    rw [writeW_other _ _ _ _ (by omega)]
    exact writeW_same _ _ _
  · show writeWords M 1176 P (1160 + rs + 256) = 256 + 2
    rw [hout (1160 + rs + 256) (by omega), hM]
    rw [writeW_other _ _ _ _ (by omega)]
    rw [writeW_other _ _ _ _ (by omega)]
    rw [writeW_other _ _ _ _ (by omega)]
    rw [show (1160 + rs + 256 : Nat) = 1416 + rs from by omega]
    rw [writeW_same]
  · show writeWords M 1176 P (1168 + rs + 256) = 1
    rw [hout (1168 + rs + 256) (by omega), hM]
    rw [writeW_other _ _ _ _ (by omega)]
    rw [writeW_other _ _ _ _ (by omega)]
    rw [writeW_other _ _ _ _ (by omega)]
    rw [writeW_other _ _ _ _ (by omega)]
    rw [writeW_other _ _ _ _ (by omega)]
    rw [writeW_other _ _ _ _ (by omega)]
    rw [show (1168 + rs + 256 : Nat) = 1424 + rs from by omega]
    rw [writeW_same]
  · intro k hk
    show writeWords M 1176 P (1024 + 8 * k) =
      if k = get_list 256 then 1176 + rs else 0
    rw [show get_list 256 = 9 from by decide]
    rw [hout (1024 + 8 * k) (by omega), hM]
    by_cases hk9 : k = 9
    · subst hk9
      rw [if_pos rfl]
      rw [show (1024 + 8 * 9 : Nat) = 1096 from by norm_num]
      exact writeW_same _ _ _
    · rw [if_neg hk9]
      rw [writeW_other _ _ _ _ (by omega)]
      rw [writeW_other _ _ _ _ (by omega)]
      rw [writeW_other _ _ _ _ (by omega)]
      rw [writeW_other _ _ _ _ (by omega)]
      rw [writeW_other _ _ _ _ (by omega)]
      rw [writeW_other _ _ _ _ (by omega)]
      rw [writeW_other _ _ _ _ (by omega)]
      rw [writeW_other _ _ _ _ (by omega)]
      rw [writeW_other _ _ _ _ (by omega)]
      by_cases hkc : k = get_list (rs + 256)
      · rw [show (1024 + 8 * k : Nat) = 1024 + get_list (rs + 256) * WSIZE from by
          simp only [WSIZE]; omega]
        exact writeW_same _ _ _
      · rw [writeW_other _ _ _ _ (by simp only [WSIZE]; omega)]
        rw [writeW_other _ _ _ _ (by simp only [WSIZE]; omega)]
        rw [writeW_other _ _ _ _ (by omega)]
        rw [writeW_other _ _ _ _ (by omega)]
        rw [writeW_other _ _ _ _ (by omega)]
        rw [writeW_other _ _ _ _ (by omega)]
        rw [writeW_other _ _ _ _ (by omega)]
        rw [writeW_other _ _ _ _ (by omega)]
        rw [writeW_other _ _ _ _ (by omega)]
        rw [writeW_other _ _ _ _ (by omega)]
        rw [writeW_other _ _ _ _ (by omega)]
        rw [writeW_other _ _ _ _ (by omega)]
        have hv := stInit_root_vals k hk
        unfold GET_ROOT at hv
        rw [show (1024 + 8 * k : Nat) = 1024 + k * WSIZE from by
          simp only [WSIZE]; omega]
        rw [hv, if_neg hk9]


theorem realloc_noop_A (st : AllocState) (B S mreq : Nat) (hA : shapeA st B S)
    (hm0 : 1 ≤ mreq) (hsz : roundSize mreq = B) :
    mm_realloc growAll 100 st 1176 mreq = (st, 1176) := by
  obtain ⟨hB64, hB16, hS80, hS256, hS16, hfs, hpro, hepi, hbrk, h1168, hh2, hl1,
    hl2, hft, hep, hroots⟩ := hA
  unfold mm_realloc
  rw [if_neg (by omega : ¬ (1176 : Nat) = 0)]
  rw [if_neg (by omega : ¬ mreq = 0)]
  dsimp only
  rw [show (HDRP 1176 : Nat) = 1168 from rfl]
  rw [h1168]
  rw [show GET_SIZE (B + 3) = B from by unfold GET_SIZE; omega]
  rw [hsz]
  rw [if_pos rfl]

theorem realloc_noop_B (st : AllocState) (mreq : Nat) (hB : shapeB st)
    (hm0 : 1 ≤ mreq) (hsz : roundSize mreq ≤ 256) :
    mm_realloc growAll 100 st 1176 mreq = (st, 1176) := by
  obtain ⟨hfs, hpro, hepi, hbrk, h1168, hep, hroots⟩ := hB
  unfold mm_realloc
  rw [if_neg (by omega : ¬ (1176 : Nat) = 0)]
  rw [if_neg (by omega : ¬ mreq = 0)]
  dsimp only
  rw [show (HDRP 1176 : Nat) = 1168 from rfl]
  rw [h1168]
  rw [show GET_SIZE (259 : Nat) = 256 from by decide]
  by_cases heq : roundSize mreq = 256
  · rw [heq, if_pos rfl]
  · rw [if_neg heq]
    rw [if_neg (by omega : ¬ roundSize mreq > 256)]
    rw [if_neg (by simp : ¬ ((0 : Nat) ≠ 0 ∧
      GET_ALLOC (st.mem (HDRP (NEXT_BLOCK st.mem 1176))) = 0))]

theorem realloc_absorb_A (st : AllocState) (B S mreq : Nat) (hA : shapeA st B S)
    (hm0 : 1 ≤ mreq) (hlt : B < roundSize mreq) (hgt : roundSize mreq < B + S) :
    (mm_realloc growAll 100 st 1176 mreq).2 = 1176 ∧
    (∀ a, 1176 ≤ a → a ≤ 1160 + B →
      (mm_realloc growAll 100 st 1176 mreq).1.mem a = st.mem a) := by
  obtain ⟨hB64, hB16, hS80, hS256, hS16, hfs, hpro, hepi, hbrk, h1168, hh2, hl1,
    hl2, hft, hep, hroots⟩ := hA
  have hcS15 : get_list S ≤ 15 := get_list_le15 S
  have heq : mm_realloc growAll 100 st 1176 mreq =
      ({ st with mem := writeW (writeW (writeW (writeW (writeW st.mem
        (1024 + get_list S * WSIZE) 0) (1184 + B) 0) (1176 + B) 0)
        1168 (S + B + 3)) (1168 + B + S) 3 }, 1176) := by
    unfold mm_realloc
    rw [if_neg (by omega : ¬ (1176 : Nat) = 0)]
    rw [if_neg (by omega : ¬ mreq = 0)]
    dsimp only
    rw [show (HDRP 1176 : Nat) = 1168 from rfl]
    rw [h1168]
    rw [show GET_SIZE (B + 3) = B from by unfold GET_SIZE; omega]
    rw [show GET_PREV_ALLOC (B + 3) = 2 from by unfold GET_PREV_ALLOC; omega]
    have hnb : NEXT_BLOCK st.mem 1176 = 1176 + B := by
      unfold NEXT_BLOCK
      rw [show (1176 - WSIZE : Nat) = 1168 from rfl, h1168]
      unfold GET_SIZE
      omega
    rw [hnb]
    rw [show (HDRP (1176 + B) : Nat) = 1168 + B from by simp only [HDRP, WSIZE]; omega]
    rw [hh2]
    rw [show GET_ALLOC (S + 2) = 0 from by unfold GET_ALLOC; omega]
    rw [show GET_SIZE (S + 2) = S from by unfold GET_SIZE; omega]
    rw [if_neg (by omega : ¬ roundSize mreq = B)]
    rw [if_pos (by omega : roundSize mreq > B)]
    rw [if_pos (⟨rfl, by omega⟩ : (0 : Nat) = 0 ∧ S + B > roundSize mreq)]
    rw [hfs]
    have hrm : remove_block 1024 st.mem (1176 + B) =
        writeW (writeW (writeW st.mem (1024 + get_list S * WSIZE) 0)
          (1184 + B) 0) (1176 + B) 0 := by
      unfold remove_block
      dsimp only
      rw [show (HDRP (1176 + B) : Nat) = 1168 + B from by
        simp only [HDRP, WSIZE]; omega]
      rw [hh2]
      rw [show GET_SIZE (S + 2) = S from by unfold GET_SIZE; omega]
      rw [show PREV_FLIST_ADDRESS st.mem (1176 + B) = 0 from by
        unfold PREV_FLIST_ADDRESS
        rw [show (PREV_ADDRESS (1176 + B) : Nat) = 1184 + B from by
          simp only [PREV_ADDRESS, WSIZE]; omega]
        exact hl2]
      rw [show NEXT_FLIST_ADDRESS st.mem (1176 + B) = 0 from hl1]
      rw [if_pos (⟨rfl, rfl⟩ : (0 : Nat) = 0 ∧ (0 : Nat) = 0)]
      unfold SET_ROOT
      rw [show (PREV_ADDRESS (1176 + B) : Nat) = 1184 + B from by
        simp only [PREV_ADDRESS, WSIZE]; omega]
      rw [show (NEXT_ADDRESS (1176 + B) : Nat) = 1176 + B from rfl]
    rw [hrm]
    rw [PACK_eq_add (S + B) 2 1 (by omega) (Or.inr rfl) (Or.inr rfl)]
    rw [show (S + B + 2 + 1 : Nat) = S + B + 3 from by omega]
    set V4 := writeW (writeW (writeW (writeW st.mem
      (1024 + get_list S * WSIZE) 0) (1184 + B) 0) (1176 + B) 0)
      1168 (S + B + 3) with hV4
    have hnb2 : NEXT_BLOCK V4 1176 = 1176 + (B + S) := by
      unfold NEXT_BLOCK
      rw [show (1176 - WSIZE : Nat) = 1168 from rfl]
      rw [hV4, writeW_same]
      unfold GET_SIZE
      omega
    rw [hnb2]
    rw [show (HDRP (1176 + (B + S)) : Nat) = 1168 + B + S from by
      simp only [HDRP, WSIZE]; omega]
    have hrd : V4 (1168 + B + S) = 1 := by
      rw [hV4]
      rw [writeW_other _ _ _ _ (by omega)]
      rw [writeW_other _ _ _ _ (by omega)]
      rw [writeW_other _ _ _ _ (by omega)]
      rw [writeW_other _ _ _ _ (by simp only [WSIZE]; omega)]
      exact hep
    rw [hrd]
    rw [show GET_SIZE (1 : Nat) = 0 from by decide]
    rw [show PACK 0 2 1 = 3 from by decide]
  rw [heq]
  refine ⟨rfl, ?_⟩
  intro a ha1 ha2
  dsimp only
  rw [writeW_other _ _ _ _ (by omega)]
  rw [writeW_other _ _ _ _ (by omega)]
  rw [writeW_other _ _ _ _ (by omega)]
  rw [writeW_other _ _ _ _ (by omega)]
  rw [writeW_other _ _ _ _ (by simp only [WSIZE]; omega)]


theorem find_fit_zero_roots (m : Mem) (fs fuel size : Nat)
    (h : ∀ j, j < MAX_LISTS → GET_ROOT m fs j = 0) :
    find_fit m fs fuel size = 0 := by
  unfold find_fit
  apply find_fit_lists_zero
  intro j _ hlt
  rw [h j hlt]
  exact find_fit_walk_zero _ _ _

theorem roundSize_idem16 (x : Nat) (h16 : x % 16 = 0) (h : 48 ≤ x) :
    roundSize x = x + 16 := by
  unfold roundSize DWORD
  split <;> omega

theorem realloc_copy_B (st : AllocState) (mreq : Nat) (hB : shapeB st)
    (hm0 : 1 ≤ mreq) (hgt : 256 < roundSize mreq) :
    (mm_realloc growAll 100 st 1176 mreq).2 = 1432 ∧
    (∀ i, 8 * i + 16 ≤ 256 →
      (mm_realloc growAll 100 st 1176 mreq).1.mem (1432 + 8 * i) =
        st.mem (1176 + 8 * i)) := by
  obtain ⟨hfs, hpro, hepi, hbrk, h1168, hep, hroots⟩ := hB
  have hms16 : roundSize mreq % 16 = 0 := roundSize_mod16 mreq
  set ms := roundSize mreq with hms
  have hcN : get_list (ms + 16) ≤ 15 := get_list_le15 _
  have hmalloc : mm_malloc growAll 100 st ms =
      ({ st with
          mem := writeW (writeW (writeW (writeW (writeW (writeW (writeW (writeW
            (writeW (writeW (writeW st.mem
            1424 (ms + 18)) (1432 + ms) (ms + 18)) (1440 + ms) 1)
            1432 0) 1440 0)
            (1024 + get_list (ms + 16) * WSIZE) 1432)
            (1024 + get_list (ms + 16) * WSIZE) 0) 1440 0) 1432 0)
            (1440 + ms) 3) 1424 (ms + 19),
          brk := 1448 + ms, heap_epilogue := 1440 + ms },
       1432) := by
    unfold mm_malloc
    rw [if_neg (by omega : ¬ ms = 0)]
    dsimp only
    rw [hfs]
    rw [roundSize_idem16 ms hms16 (by omega)]
    rw [find_fit_zero_roots st.mem 1024 100 (ms + 16) (fun j hj => by
      have h := hroots j (by simpa [MAX_LISTS] using hj)
      unfold GET_ROOT
      rw [show (1024 + j * WSIZE : Nat) = 1024 + 8 * j from by
        simp only [WSIZE]; omega]
      exact h)]
    rw [if_neg (by omega : ¬ (0 : Nat) ≠ 0)]
    rw [show max (ms + 16) CHUNKSIZE = ms + 16 from by unfold CHUNKSIZE; omega]
    unfold extend_heap mem_sbrk growAll
    rw [hbrk, hepi]
    dsimp only
    rw [if_neg (by simp only [WSIZE]; omega : ¬ (ms + 16) / WSIZE % 2 = 1)]
    rw [show ((ms + 16) / WSIZE * WSIZE : Nat) = ms + 16 from by
      simp only [WSIZE]; omega]
    rw [show GET_PREV_ALLOC (st.mem 1424) = 2 from by rw [hep]; decide]
    rw [if_pos rfl]
    dsimp only
    rw [show (HDRP 1432 : Nat) = 1424 from rfl]
    rw [PACK_eq_add (ms + 16) 2 0 (by omega) (Or.inr rfl) (Or.inl rfl)]
    rw [show (ms + 16 + 2 + 0 : Nat) = ms + 18 from by omega]
    have hftr : FTRP (writeW st.mem 1424 (ms + 18)) 1432 = 1432 + ms := by
      unfold FTRP DWORD
      rw [show (HDRP 1432 : Nat) = 1424 from rfl, writeW_same]
      unfold GET_SIZE
      omega
    rw [hftr]
    have hnb : NEXT_BLOCK (writeW (writeW st.mem 1424 (ms + 18)) (1432 + ms) (ms + 18))
        1432 = 1448 + ms := by
      unfold NEXT_BLOCK
      rw [show (1432 - WSIZE : Nat) = 1424 from rfl]
      rw [writeW_other _ _ _ _ (by omega), writeW_same]
      unfold GET_SIZE
      omega
    rw [hnb]
    rw [show PACK 0 0 1 = 1 from by decide]
    rw [show (HDRP (1448 + ms) : Nat) = 1440 + ms from by simp only [HDRP, WSIZE]; omega]
    set U3 := writeW (writeW (writeW st.mem 1424 (ms + 18)) (1432 + ms) (ms + 18))
      (1440 + ms) 1 with hU3
    have hnb3 : NEXT_BLOCK U3 1432 = 1448 + ms := by
      unfold NEXT_BLOCK
      rw [show (1432 - WSIZE : Nat) = 1424 from rfl]
      rw [hU3]
      rw [writeW_other _ _ _ _ (by omega)]
      rw [writeW_other _ _ _ _ (by omega)]
      rw [writeW_same]
      unfold GET_SIZE
      omega
    rw [hnb3]
    rw [show (HDRP (1448 + ms) : Nat) = 1440 + ms from by simp only [HDRP, WSIZE]; omega]
    rw [if_pos (by omega : (2 : Nat) ≠ 0)]
    dsimp only
    rw [hfs]
    have hU3h : U3 1424 = ms + 18 := by
      rw [hU3]
      rw [writeW_other _ _ _ _ (by omega)]
      rw [writeW_other _ _ _ _ (by omega)]
      exact writeW_same _ _ _
    have hab : add_block 1024 100 U3 1432 =
        writeW (writeW (writeW U3 1432 0) 1440 0)
          (1024 + get_list (ms + 16) * WSIZE) 1432 := by
      unfold add_block
      dsimp only
      rw [show (HDRP 1432 : Nat) = 1424 from rfl, hU3h]
      rw [show GET_SIZE (ms + 18) = ms + 16 from by unfold GET_SIZE; omega]
      rw [show (NEXT_ADDRESS 1432 : Nat) = 1432 from rfl]
      rw [show (PREV_ADDRESS 1432 : Nat) = 1440 from rfl]
      have hroot : GET_ROOT (writeW (writeW U3 1432 0) 1440 0) 1024
          (get_list (ms + 16)) = 0 := by
        unfold GET_ROOT
        rw [writeW_other _ _ _ _ (by simp only [WSIZE]; omega)]
        rw [writeW_other _ _ _ _ (by simp only [WSIZE]; omega)]
        rw [hU3]
        rw [writeW_other _ _ _ _ (by simp only [WSIZE]; omega)]
        rw [writeW_other _ _ _ _ (by simp only [WSIZE]; omega)]
        rw [writeW_other _ _ _ _ (by simp only [WSIZE]; omega)]
        rw [show (1024 + get_list (ms + 16) * WSIZE : Nat) =
          1024 + 8 * get_list (ms + 16) from by simp only [WSIZE]; omega]
        exact hroots _ (by omega)
      rw [hroot]
      rw [if_pos rfl]
      unfold SET_ROOT
      rfl
    rw [hab]
    set U6 := writeW (writeW (writeW U3 1432 0) 1440 0)
      (1024 + get_list (ms + 16) * WSIZE) 1432 with hU6
    have hU6h : U6 1424 = ms + 18 := by
      rw [hU6]
      rw [writeW_other _ _ _ _ (by simp only [WSIZE]; omega)]
      rw [writeW_other _ _ _ _ (by omega)]
      rw [writeW_other _ _ _ _ (by omega)]
      exact hU3h
    have hplace : place 1024 100 U6 1432 (ms + 16) =
        (writeW (writeW (writeW (writeW (writeW U6
          (1024 + get_list (ms + 16) * WSIZE) 0) 1440 0) 1432 0)
          (1440 + ms) 3) 1424 (ms + 19), 1432) := by
      unfold place
      dsimp only
      have hnb6 : NEXT_BLOCK U6 1432 = 1448 + ms := by
        unfold NEXT_BLOCK
        rw [show (1432 - WSIZE : Nat) = 1424 from rfl, hU6h]
        unfold GET_SIZE
        omega
      rw [hnb6]
      rw [show (HDRP (1448 + ms) : Nat) = 1440 + ms from by
        simp only [HDRP, WSIZE]; omega]
      rw [show (HDRP 1432 : Nat) = 1424 from rfl, hU6h]
      have hU6e : U6 (1440 + ms) = 1 := by
        rw [hU6]
        rw [writeW_other _ _ _ _ (by simp only [WSIZE]; omega)]
        rw [writeW_other _ _ _ _ (by omega)]
        rw [writeW_other _ _ _ _ (by omega)]
        rw [hU3]
        exact writeW_same _ _ _
      rw [hU6e]
      rw [show GET_SIZE (1 : Nat) = 0 from by decide]
      rw [show GET_SIZE (ms + 18) = ms + 16 from by unfold GET_SIZE; omega]
      have hrm : remove_block 1024 U6 1432 =
          writeW (writeW (writeW U6 (1024 + get_list (ms + 16) * WSIZE) 0)
            1440 0) 1432 0 := by
        unfold remove_block
        dsimp only
        rw [show (HDRP 1432 : Nat) = 1424 from rfl, hU6h]
        rw [show GET_SIZE (ms + 18) = ms + 16 from by unfold GET_SIZE; omega]
        rw [show PREV_FLIST_ADDRESS U6 1432 = 0 from by
          unfold PREV_FLIST_ADDRESS
          rw [show (PREV_ADDRESS 1432 : Nat) = 1440 from rfl]
          rw [hU6]
          rw [writeW_other _ _ _ _ (by simp only [WSIZE]; omega)]
          exact writeW_same _ _ _]
        rw [show NEXT_FLIST_ADDRESS U6 1432 = 0 from by
          unfold NEXT_FLIST_ADDRESS
          rw [hU6]
          rw [writeW_other _ _ _ _ (by simp only [WSIZE]; omega)]
          rw [writeW_other _ _ _ _ (by omega)]
          exact writeW_same _ _ _]
        rw [if_pos (⟨rfl, rfl⟩ : (0 : Nat) = 0 ∧ (0 : Nat) = 0)]
        unfold SET_ROOT
        rw [show (PREV_ADDRESS 1432 : Nat) = 1440 from rfl]
        rw [show (NEXT_ADDRESS 1432 : Nat) = 1432 from rfl]
      rw [hrm]
      rw [if_neg (by norm_num : ¬ ms + 16 - (ms + 16) > 1 <<< 6)]
      rw [show PACK 0 2 1 = 3 from by decide]
      rw [PACK_eq_add (ms + 16) 2 1 (by omega) (Or.inr rfl) (Or.inr rfl)]
    rw [hplace]
    rw [hU6, hU3]
    rw [show (1432 + (ms + 16) : Nat) = 1448 + ms from by omega]
  rw [hms] at hmalloc
  unfold mm_realloc
  rw [if_neg (by omega : ¬ (1176 : Nat) = 0)]
  rw [if_neg (by omega : ¬ mreq = 0)]
  dsimp only
  rw [show (HDRP 1176 : Nat) = 1168 from rfl, h1168]
  rw [show GET_SIZE (259 : Nat) = 256 from by decide]
  have hnb0 : NEXT_BLOCK st.mem 1176 = 1432 := by
    unfold NEXT_BLOCK
    rw [show (1176 - WSIZE : Nat) = 1168 from rfl, h1168]
    decide
  rw [hnb0]
  rw [show (HDRP 1432 : Nat) = 1424 from rfl, hep]
  rw [show GET_ALLOC (3 : Nat) = 1 from by decide]
  rw [if_neg (by omega : ¬ ms = 256)]
  rw [if_pos (by omega : ms > 256)]
  rw [if_neg (by omega : ¬ ((1 : Nat) = 0 ∧ GET_SIZE 3 + 256 > ms))]
  rw [← hms] at hmalloc
  rw [hmalloc]
  rw [if_neg (by omega : ¬ (1432 : Nat) = 0)]
  dsimp only
  set M11 := writeW (writeW (writeW (writeW (writeW (writeW (writeW (writeW
    (writeW (writeW (writeW st.mem
    1424 (ms + 18)) (1432 + ms) (ms + 18)) (1440 + ms) 1)
    1432 0) 1440 0)
    (1024 + get_list (ms + 16) * WSIZE) 1432)
    (1024 + get_list (ms + 16) * WSIZE) 0) 1440 0) 1432 0)
    (1440 + ms) 3) 1424 (ms + 19) with hM11
  set MC := memcpyWords M11 1432 1176 (ms / WSIZE) with hMC
  have hMCout : ∀ a, a < 1432 → MC a = M11 a := by
    intro a ha
    rw [hMC]
    apply memcpyWords_read_out
    intro j hj
    simp only [WSIZE]
    omega
  have hM11pay : ∀ a, 1176 ≤ a → a ≤ 1424 → a ≠ 1424 → M11 a = st.mem a := by
    intro a ha1 ha2 ha3
    rw [hM11]
    rw [writeW_other _ _ _ _ ha3]
    rw [writeW_other _ _ _ _ (by omega)]
    rw [writeW_other _ _ _ _ (by omega)]
    rw [writeW_other _ _ _ _ (by omega)]
    rw [writeW_other _ _ _ _ (by simp only [WSIZE]; omega)]
    rw [writeW_other _ _ _ _ (by simp only [WSIZE]; omega)]
    rw [writeW_other _ _ _ _ (by omega)]
    rw [writeW_other _ _ _ _ (by omega)]
    rw [writeW_other _ _ _ _ (by omega)]
    rw [writeW_other _ _ _ _ (by omega)]
    rw [writeW_other _ _ _ _ (by omega)]
  have hmc1168 : MC 1168 = 259 := by
    rw [hMCout 1168 (by omega), hM11]
    rw [writeW_other _ _ _ _ (by omega)]
    rw [writeW_other _ _ _ _ (by omega)]
    rw [writeW_other _ _ _ _ (by omega)]
    rw [writeW_other _ _ _ _ (by omega)]
    rw [writeW_other _ _ _ _ (by simp only [WSIZE]; omega)]
    rw [writeW_other _ _ _ _ (by simp only [WSIZE]; omega)]
    rw [writeW_other _ _ _ _ (by omega)]
    rw [writeW_other _ _ _ _ (by omega)]
    rw [writeW_other _ _ _ _ (by omega)]
    rw [writeW_other _ _ _ _ (by omega)]
    rw [writeW_other _ _ _ _ (by omega)]
    exact h1168
  have hmc1424 : MC 1424 = ms + 19 := by
    rw [hMCout 1424 (by omega), hM11]
    exact writeW_same _ _ _
  have hmc1096 : MC 1096 = 0 := by
    rw [hMCout 1096 (by omega), hM11]
    rw [writeW_other _ _ _ _ (by omega)]
    rw [writeW_other _ _ _ _ (by omega)]
    rw [writeW_other _ _ _ _ (by omega)]
    rw [writeW_other _ _ _ _ (by omega)]
    by_cases hc9 : get_list (ms + 16) = 9
    · rw [hc9]
      rw [show (1024 + 9 * WSIZE : Nat) = 1096 from rfl]
      exact writeW_same _ _ _
    · rw [writeW_other _ _ _ _ (by simp only [WSIZE]; omega)]
      rw [writeW_other _ _ _ _ (by simp only [WSIZE]; omega)]
      rw [writeW_other _ _ _ _ (by omega)]
      rw [writeW_other _ _ _ _ (by omega)]
      rw [writeW_other _ _ _ _ (by omega)]
      rw [writeW_other _ _ _ _ (by omega)]
      rw [writeW_other _ _ _ _ (by omega)]
      exact hroots 9 (by omega)
  have hfree : mm_free 100 (AllocState.mk MC (1448 + ms) st.free_start
      st.heap_prologue (1440 + ms) st.heap_start) 1176 =
      AllocState.mk (writeW (writeW (writeW (writeW (writeW (writeW MC
        1168 258) 1416 258) 1424 (ms + 17)) 1176 0) 1184 0) 1096 1176)
        (1448 + ms) st.free_start st.heap_prologue (1440 + ms) st.heap_start := by
    unfold mm_free
    dsimp only
    rw [show (HDRP 1176 : Nat) = 1168 from rfl, hmc1168]
    rw [show GET_SIZE (259 : Nat) = 256 from by decide]
    rw [show GET_PREV_ALLOC (259 : Nat) = 2 from by decide]
    have hnb : NEXT_BLOCK MC 1176 = 1432 := by
      unfold NEXT_BLOCK
      rw [show (1176 - WSIZE : Nat) = 1168 from rfl, hmc1168]
      decide
    rw [hnb]
    rw [show (HDRP 1432 : Nat) = 1424 from rfl, hmc1424]
    rw [show GET_SIZE (ms + 19) = ms + 16 from by unfold GET_SIZE; omega]
    rw [show GET_ALLOC (ms + 19) = 1 from by unfold GET_ALLOC; omega]
    rw [show PACK 256 2 0 = 258 from by decide]
    have hftr1 : FTRP (writeW MC 1168 258) 1176 = 1416 := by
      unfold FTRP DWORD
      rw [show (HDRP 1176 : Nat) = 1168 from rfl, writeW_same]
      decide
    rw [hftr1]
    rw [PACK_eq_add (ms + 16) 0 1 (by omega) (Or.inl rfl) (Or.inr rfl)]
    rw [show (ms + 16 + 0 + 1 : Nat) = ms + 17 from by omega]
    rw [if_neg (by omega : ¬ (1 : Nat) = 0)]
    rw [hfs]
    set F3 := writeW (writeW (writeW MC 1168 258) 1416 258) 1424 (ms + 17) with hF3
    have hf1168 : F3 1168 = 258 := by
      rw [hF3]
      rw [writeW_other _ _ _ _ (by omega)]
      rw [writeW_other _ _ _ _ (by omega)]
      exact writeW_same _ _ _
    have hco : coalesce 1024 100 F3 1176 =
        (writeW (writeW (writeW F3 1176 0) 1184 0) 1096 1176, 1176) := by
      unfold coalesce
      dsimp only
      rw [show (HDRP 1176 : Nat) = 1168 from rfl, hf1168]
      rw [show GET_PREV_ALLOC (258 : Nat) = 2 from by decide]
      rw [show GET_SIZE (258 : Nat) = 256 from by decide]
      have hnb3 : NEXT_BLOCK F3 1176 = 1432 := by
        unfold NEXT_BLOCK
        rw [show (1176 - WSIZE : Nat) = 1168 from rfl, hf1168]
        decide
      rw [hnb3]
      rw [show (HDRP 1432 : Nat) = 1424 from rfl]
      rw [show F3 1424 = ms + 17 from by rw [hF3]; exact writeW_same _ _ _]
      rw [show GET_ALLOC (ms + 17) = 1 from by unfold GET_ALLOC; omega]
      rw [if_neg (by simp : ¬ ((2 : Nat) ≠ 0 ∧ (1 : Nat) = 0))]
      rw [if_neg (by simp : ¬ ((2 : Nat) = 0 ∧ (1 : Nat) ≠ 0))]
      rw [if_pos (⟨by omega, by omega⟩ : (2 : Nat) ≠ 0 ∧ (1 : Nat) ≠ 0)]
      unfold add_block
      dsimp only
      rw [show (HDRP 1176 : Nat) = 1168 from rfl, hf1168]
      rw [show GET_SIZE (258 : Nat) = 256 from by decide]
      rw [show get_list 256 = 9 from by decide]
      rw [show (NEXT_ADDRESS 1176 : Nat) = 1176 from rfl]
      rw [show (PREV_ADDRESS 1176 : Nat) = 1184 from rfl]
      have hroot : GET_ROOT (writeW (writeW F3 1176 0) 1184 0) 1024 9 = 0 := by
        unfold GET_ROOT
        rw [show (1024 + 9 * WSIZE : Nat) = 1096 from rfl]
        rw [writeW_other _ _ _ _ (by omega)]
        rw [writeW_other _ _ _ _ (by omega)]
        rw [hF3]
        rw [writeW_other _ _ _ _ (by omega)]
        rw [writeW_other _ _ _ _ (by omega)]
        rw [writeW_other _ _ _ _ (by omega)]
        exact hmc1096
      rw [hroot]
      rw [if_pos rfl]
      unfold SET_ROOT
      rfl
    rw [hco]
  show _ ∧ _
  constructor
  · rfl
  · intro i hi
    show (mm_free 100 (AllocState.mk MC (1448 + ms) st.free_start
      st.heap_prologue (1440 + ms) st.heap_start) 1176).mem (1432 + 8 * i) =
      st.mem (1176 + 8 * i)
    rw [hfree]
    show writeW (writeW (writeW (writeW (writeW (writeW MC
      1168 258) 1416 258) 1424 (ms + 17)) 1176 0) 1184 0) 1096 1176
      (1432 + 8 * i) = st.mem (1176 + 8 * i)
    rw [writeW_other _ _ _ _ (by omega)]
    rw [writeW_other _ _ _ _ (by omega)]
    rw [writeW_other _ _ _ _ (by omega)]
    rw [writeW_other _ _ _ _ (by omega)]
    rw [writeW_other _ _ _ _ (by omega)]
    rw [writeW_other _ _ _ _ (by omega)]
    rw [show (1432 + 8 * i : Nat) = 1432 + i * WSIZE from by
      simp only [WSIZE]; omega]
    rw [hMC]
    rw [memcpyWords_read_in M11 1432 1176 (ms / WSIZE) i (by
      simp only [WSIZE]; omega)]
    rw [show (1176 + i * WSIZE : Nat) = 1176 + 8 * i from by
      simp only [WSIZE]; omega]
    exact hM11pay (1176 + 8 * i) (by omega) (by omega) (by omega)


theorem realloc_copy_A (st : AllocState) (B S mreq : Nat) (hA : shapeA st B S)
    (hBS : 256 ≤ B + S) (hm0 : 1 ≤ mreq) (hge : B + S ≤ roundSize mreq) :
    (mm_realloc growAll 100 st 1176 mreq).2 = 1176 + B ∧
    (∀ i, 8 * i + 16 ≤ B →
      (mm_realloc growAll 100 st 1176 mreq).1.mem (1176 + B + 8 * i) =
        st.mem (1176 + 8 * i)) := by
  obtain ⟨hB64, hB16, hS80, hS256, hS16, hfs, hpro, hepi, hbrk, h1168, hh2, hl1,
    hl2, hft, hep, hroots⟩ := hA
  have hms16 : roundSize mreq % 16 = 0 := roundSize_mod16 mreq
  set ms := roundSize mreq with hms
  have hcS9 : get_list S ≤ 9 :=
    get_list_lt_of_lt S 9 (by omega) (by norm_num; omega) (by norm_num)
  have hcS15 : get_list S ≤ 15 := get_list_le15 S
  have hcM15 : get_list (ms + 16 + S) ≤ 15 := get_list_le15 _
  have hcB15 : get_list B ≤ 15 := get_list_le15 B
  have hpow : 1 <<< get_list S ≤ ms + 16 + S := by
    have hsh : (1 <<< get_list S : Nat) = 2 ^ get_list S := by
      rw [Nat.shiftLeft_eq]; omega
    have hl : Nat.log2 S < 9 := (Nat.log2_lt (by omega)).mpr (by norm_num; omega)
    have hle : 2 ^ get_list S ≤ 2 * S := by
      rw [get_list_closed S (by omega), min_eq_left (by omega)]
      have h2 : 2 ^ (Nat.log2 S + 1) = 2 * 2 ^ Nat.log2 S := by ring
      have h3 : 2 ^ Nat.log2 S ≤ S := Nat.log2_self_le (by omega)
      omega
    omega
  have hff : find_fit st.mem 1024 100 (ms + 16) = 0 := by
    unfold find_fit
    apply find_fit_lists_zero
    intro j _ hlt
    have hj16 : j < 16 := by simpa [MAX_LISTS] using hlt
    have hv := hroots j hj16
    have hvv : GET_ROOT st.mem 1024 j = if j = get_list S then 1176 + B else 0 := by
      unfold GET_ROOT
      rw [show (1024 + j * WSIZE : Nat) = 1024 + 8 * j from by
        simp only [WSIZE]; omega]
      exact hv
    by_cases hj : j = get_list S
    · rw [hvv, if_pos hj]
      rw [show (100 : Nat) = 99 + 1 from rfl, find_fit_walk_succ]
      rw [if_pos (by omega)]
      rw [show (HDRP (1176 + B) : Nat) = 1168 + B from by simp only [HDRP, WSIZE]; omega]
      rw [hh2]
      rw [show GET_SIZE (S + 2) = S from by unfold GET_SIZE; omega]
      rw [if_neg (by omega : ¬ ms + 16 ≤ S)]
      rw [show NEXT_FLIST_ADDRESS st.mem (1176 + B) = 0 from hl1]
      exact find_fit_walk_zero _ _ _
    · rw [hvv, if_neg hj]
      exact find_fit_walk_zero _ _ _
  have hmalloc : mm_malloc growAll 100 st ms =
      ({ st with
          mem := writeW (writeW (writeW (writeW (writeW (writeW (writeW (writeW
            (writeW (writeW (writeW (writeW (writeW (writeW (writeW (writeW (writeW
            (writeW (writeW (writeW (writeW st.mem
            (1168 + B + S) (ms + 16)) (1176 + B + S + ms) (ms + 16))
            (1184 + B + S + ms) 1)
            (1024 + get_list S * WSIZE) 0) (1184 + B) 0) (1176 + B) 0)
            (1168 + B) (ms + S + 18)) (1176 + B + S + ms) (ms + S + 18))
            (1176 + B) 0) (1184 + B) 0)
            (1024 + get_list (ms + 16 + S) * WSIZE) (1176 + B))
            (1024 + get_list (ms + 16 + S) * WSIZE) 0) (1184 + B) 0) (1176 + B) 0)
            (1184 + B + S + ms) 1) (1168 + B) (ms + 19))
            (1184 + B + ms) (S + 2)) (1176 + B + ms + S) (S + 2))
            (1192 + B + ms) 0) (1200 + B + ms) 0)
            (1024 + get_list S * WSIZE) (1192 + B + ms),
          brk := 1192 + B + S + ms, heap_epilogue := 1184 + B + S + ms },
       1176 + B) := by
    unfold mm_malloc
    rw [if_neg (by omega : ¬ ms = 0)]
    dsimp only
    rw [hfs]
    rw [roundSize_idem16 ms hms16 (by omega)]
    rw [hff]
    rw [if_neg (by omega : ¬ (0 : Nat) ≠ 0)]
    rw [show max (ms + 16) CHUNKSIZE = ms + 16 from by unfold CHUNKSIZE; omega]
    unfold extend_heap mem_sbrk growAll
    rw [hbrk, hepi]
    dsimp only
    rw [if_neg (by simp only [WSIZE]; omega : ¬ (ms + 16) / WSIZE % 2 = 1)]
    rw [show ((ms + 16) / WSIZE * WSIZE : Nat) = ms + 16 from by
      simp only [WSIZE]; omega]
    rw [hep]
    rw [show GET_PREV_ALLOC (1 : Nat) = 0 from by decide]
    rw [if_pos rfl]
    dsimp only
    rw [show (HDRP (1176 + B + S) : Nat) = 1168 + B + S from by
      simp only [HDRP, WSIZE]; omega]
    rw [PACK_eq_add (ms + 16) 0 0 (by omega) (Or.inl rfl) (Or.inl rfl)]
    rw [show (ms + 16 + 0 + 0 : Nat) = ms + 16 from by omega]
    have hftr : FTRP (writeW st.mem (1168 + B + S) (ms + 16)) (1176 + B + S) =
        1176 + B + S + ms := by
      unfold FTRP DWORD
      rw [show (HDRP (1176 + B + S) : Nat) = 1168 + B + S from by
        simp only [HDRP, WSIZE]; omega]
      rw [writeW_same]
      unfold GET_SIZE
      omega
    rw [hftr]
    have hnb : NEXT_BLOCK (writeW (writeW st.mem (1168 + B + S) (ms + 16))
        (1176 + B + S + ms) (ms + 16)) (1176 + B + S) = 1192 + B + S + ms := by
      unfold NEXT_BLOCK
      rw [show (1176 + B + S - WSIZE : Nat) = 1168 + B + S from by
        simp only [WSIZE]; omega]
      rw [writeW_other _ _ _ _ (by omega), writeW_same]
      unfold GET_SIZE
      omega
    rw [hnb]
    rw [show PACK 0 0 1 = 1 from by decide]
    rw [show (HDRP (1192 + B + S + ms) : Nat) = 1184 + B + S + ms from by
      simp only [HDRP, WSIZE]; omega]
    set U3 := writeW (writeW (writeW st.mem (1168 + B + S) (ms + 16))
      (1176 + B + S + ms) (ms + 16)) (1184 + B + S + ms) 1 with hU3
    have hnb3 : NEXT_BLOCK U3 (1176 + B + S) = 1192 + B + S + ms := by
      unfold NEXT_BLOCK
      rw [show (1176 + B + S - WSIZE : Nat) = 1168 + B + S from by
        simp only [WSIZE]; omega]
      rw [hU3]
      rw [writeW_other _ _ _ _ (by omega)]
      rw [writeW_other _ _ _ _ (by omega)]
      rw [writeW_same]
      unfold GET_SIZE
      omega
    rw [hnb3]
    rw [show (HDRP (1192 + B + S + ms) : Nat) = 1184 + B + S + ms from by
      simp only [HDRP, WSIZE]; omega]
    rw [if_neg (by omega : ¬ (0 : Nat) ≠ 0)]
    rw [hfs]
    have hU3h : U3 (1168 + B + S) = ms + 16 := by
      rw [hU3]
      rw [writeW_other _ _ _ _ (by omega)]
      rw [writeW_other _ _ _ _ (by omega)]
      exact writeW_same _ _ _
    have hco : coalesce 1024 100 U3 (1176 + B + S) =
        (writeW (writeW (writeW (writeW (writeW (writeW (writeW (writeW U3
          (1024 + get_list S * WSIZE) 0) (1184 + B) 0) (1176 + B) 0)
          (1168 + B) (ms + S + 18)) (1176 + B + S + ms) (ms + S + 18))
          (1176 + B) 0) (1184 + B) 0)
          (1024 + get_list (ms + 16 + S) * WSIZE) (1176 + B), 1176 + B) := by
      unfold coalesce
      dsimp only
      rw [show (HDRP (1176 + B + S) : Nat) = 1168 + B + S from by
        simp only [HDRP, WSIZE]; omega]
      rw [hU3h]
      rw [show GET_PREV_ALLOC (ms + 16) = 0 from by unfold GET_PREV_ALLOC; omega]
      rw [hnb3]
      rw [show (HDRP (1192 + B + S + ms) : Nat) = 1184 + B + S + ms from by
        simp only [HDRP, WSIZE]; omega]
      rw [show U3 (1184 + B + S + ms) = 1 from by rw [hU3]; exact writeW_same _ _ _]
      rw [show GET_ALLOC 1 = 1 from rfl]
      rw [show GET_SIZE (ms + 16) = ms + 16 from by unfold GET_SIZE; omega]
      rw [if_neg (by simp)]
      rw [if_pos (⟨rfl, by omega⟩ : (0 : Nat) = 0 ∧ (1 : Nat) ≠ 0)]
      have hpb : PREV_BLOCK U3 (1176 + B + S) = 1176 + B := by
        unfold PREV_BLOCK DWORD
        rw [show (1176 + B + S - 16 : Nat) = 1160 + B + S from by omega]
        rw [hU3]
        rw [writeW_other _ _ _ _ (by omega)]
        rw [writeW_other _ _ _ _ (by omega)]
        rw [writeW_other _ _ _ _ (by omega)]
        rw [hft]
        rw [show GET_SIZE (S + 2) = S from by unfold GET_SIZE; omega]
        omega
      rw [hpb]
      rw [show (HDRP (1176 + B) : Nat) = 1168 + B from by simp only [HDRP, WSIZE]; omega]
      have hU3p : U3 (1168 + B) = S + 2 := by
        rw [hU3]
        rw [writeW_other _ _ _ _ (by omega)]
        rw [writeW_other _ _ _ _ (by omega)]
        rw [writeW_other _ _ _ _ (by omega)]
        exact hh2
      rw [hU3p]
      rw [show GET_SIZE (S + 2) = S from by unfold GET_SIZE; omega]
      rw [if_pos (show (1 <<< get_list S : Nat) ≤ ms + 16 + S from hpow)]
      have hrm : remove_block 1024 U3 (1176 + B) =
          writeW (writeW (writeW U3 (1024 + get_list S * WSIZE) 0)
            (1184 + B) 0) (1176 + B) 0 := by
        unfold remove_block
        dsimp only
        rw [show (HDRP (1176 + B) : Nat) = 1168 + B from by
          simp only [HDRP, WSIZE]; omega]
        rw [hU3p]
        rw [show GET_SIZE (S + 2) = S from by unfold GET_SIZE; omega]
        rw [show PREV_FLIST_ADDRESS U3 (1176 + B) = 0 from by
          unfold PREV_FLIST_ADDRESS
          rw [show (PREV_ADDRESS (1176 + B) : Nat) = 1184 + B from by
            simp only [PREV_ADDRESS, WSIZE]; omega]
          rw [hU3]
          rw [writeW_other _ _ _ _ (by omega)]
          rw [writeW_other _ _ _ _ (by omega)]
          rw [writeW_other _ _ _ _ (by omega)]
          exact hl2]
        rw [show NEXT_FLIST_ADDRESS U3 (1176 + B) = 0 from by
          unfold NEXT_FLIST_ADDRESS
          rw [hU3]
          rw [writeW_other _ _ _ _ (by omega)]
          rw [writeW_other _ _ _ _ (by omega)]
          rw [writeW_other _ _ _ _ (by omega)]
          exact hl1]
        rw [if_pos (⟨rfl, rfl⟩ : (0 : Nat) = 0 ∧ (0 : Nat) = 0)]
        unfold SET_ROOT
        rw [show (PREV_ADDRESS (1176 + B) : Nat) = 1184 + B from by
          simp only [PREV_ADDRESS, WSIZE]; omega]
        rw [show (NEXT_ADDRESS (1176 + B) : Nat) = 1176 + B from rfl]
      rw [hrm]
      rw [PACK_eq_add (ms + 16 + S) 2 0 (by omega) (Or.inr rfl) (Or.inl rfl)]
      rw [show (ms + 16 + S + 2 + 0 : Nat) = ms + S + 18 from by omega]
      set V7 := writeW (writeW (writeW (writeW U3 (1024 + get_list S * WSIZE) 0)
        (1184 + B) 0) (1176 + B) 0) (1168 + B) (ms + S + 18) with hV7
      have hftr7 : FTRP V7 (1176 + B) = 1176 + B + S + ms := by
        unfold FTRP DWORD
        rw [show (HDRP (1176 + B) : Nat) = 1168 + B from by
          simp only [HDRP, WSIZE]; omega]
        rw [hV7, writeW_same]
        unfold GET_SIZE
        omega
      rw [hftr7]
      have hab : add_block 1024 100 (writeW V7 (1176 + B + S + ms) (ms + S + 18))
          (1176 + B) =
          writeW (writeW (writeW (writeW V7 (1176 + B + S + ms) (ms + S + 18))
            (1176 + B) 0) (1184 + B) 0)
            (1024 + get_list (ms + 16 + S) * WSIZE) (1176 + B) := by
        unfold add_block
        dsimp only
        rw [show (HDRP (1176 + B) : Nat) = 1168 + B from by
          simp only [HDRP, WSIZE]; omega]
        rw [show (writeW V7 (1176 + B + S + ms) (ms + S + 18)) (1168 + B) =
            ms + S + 18 from by
          rw [writeW_other _ _ _ _ (by omega)]
          rw [hV7]
          exact writeW_same _ _ _]
        rw [show GET_SIZE (ms + S + 18) = ms + 16 + S from by unfold GET_SIZE; omega]
        rw [show (NEXT_ADDRESS (1176 + B) : Nat) = 1176 + B from rfl]
        rw [show (PREV_ADDRESS (1176 + B) : Nat) = 1184 + B from by
          simp only [PREV_ADDRESS, WSIZE]; omega]
        have hroot : GET_ROOT (writeW (writeW (writeW V7
            (1176 + B + S + ms) (ms + S + 18)) (1176 + B) 0) (1184 + B) 0) 1024
            (get_list (ms + 16 + S)) = 0 := by
          unfold GET_ROOT
          rw [writeW_other _ _ _ _ (by simp only [WSIZE]; omega)]
          rw [writeW_other _ _ _ _ (by simp only [WSIZE]; omega)]
          rw [writeW_other _ _ _ _ (by simp only [WSIZE]; omega)]
          rw [hV7]
          rw [writeW_other _ _ _ _ (by simp only [WSIZE]; omega)]
          rw [writeW_other _ _ _ _ (by simp only [WSIZE]; omega)]
          rw [writeW_other _ _ _ _ (by simp only [WSIZE]; omega)]
          by_cases hmc : get_list (ms + 16 + S) = get_list S
          · rw [hmc]
            exact writeW_same _ _ _
          · rw [writeW_other _ _ _ _ (by simp only [WSIZE]; omega)]
            rw [hU3]
            rw [writeW_other _ _ _ _ (by simp only [WSIZE]; omega)]
            rw [writeW_other _ _ _ _ (by simp only [WSIZE]; omega)]
            rw [writeW_other _ _ _ _ (by simp only [WSIZE]; omega)]
            have hv := hroots (get_list (ms + 16 + S)) (by omega)
            rw [show (1024 + get_list (ms + 16 + S) * WSIZE : Nat) =
              1024 + 8 * get_list (ms + 16 + S) from by simp only [WSIZE]; omega]
            rw [hv, if_neg hmc]
        rw [hroot]
        rw [if_pos rfl]
        unfold SET_ROOT
        rfl
      rw [hab]
    rw [hco]
    dsimp only
    set M11 := writeW (writeW (writeW (writeW (writeW (writeW (writeW (writeW U3
      (1024 + get_list S * WSIZE) 0) (1184 + B) 0) (1176 + B) 0)
      (1168 + B) (ms + S + 18)) (1176 + B + S + ms) (ms + S + 18))
      (1176 + B) 0) (1184 + B) 0)
      (1024 + get_list (ms + 16 + S) * WSIZE) (1176 + B) with hM11
    have hM11h : M11 (1168 + B) = ms + S + 18 := by
      rw [hM11]
      rw [writeW_other _ _ _ _ (by simp only [WSIZE]; omega)]
      rw [writeW_other _ _ _ _ (by omega)]
      rw [writeW_other _ _ _ _ (by omega)]
      rw [writeW_other _ _ _ _ (by omega)]
      exact writeW_same _ _ _
    have hplace : place 1024 100 M11 (1176 + B) (ms + 16) =
        (writeW (writeW (writeW (writeW (writeW (writeW (writeW (writeW (writeW
          (writeW M11
          (1024 + get_list (ms + 16 + S) * WSIZE) 0) (1184 + B) 0) (1176 + B) 0)
          (1184 + B + S + ms) 1) (1168 + B) (ms + 19))
          (1184 + B + ms) (S + 2)) (1176 + B + ms + S) (S + 2))
          (1192 + B + ms) 0) (1200 + B + ms) 0)
          (1024 + get_list S * WSIZE) (1192 + B + ms), 1176 + B) := by
      unfold place
      dsimp only
      have hnb11 : NEXT_BLOCK M11 (1176 + B) = 1192 + B + S + ms := by
        unfold NEXT_BLOCK
        rw [show (1176 + B - WSIZE : Nat) = 1168 + B from by simp only [WSIZE]; omega]
        rw [hM11h]
        unfold GET_SIZE
        omega
      rw [hnb11]
      rw [show (HDRP (1192 + B + S + ms) : Nat) = 1184 + B + S + ms from by
        simp only [HDRP, WSIZE]; omega]
      have hM11e : M11 (1184 + B + S + ms) = 1 := by
        rw [hM11]
        rw [writeW_other _ _ _ _ (by simp only [WSIZE]; omega)]
        rw [writeW_other _ _ _ _ (by omega)]
        rw [writeW_other _ _ _ _ (by omega)]
        rw [writeW_other _ _ _ _ (by omega)]
        rw [writeW_other _ _ _ _ (by omega)]
        rw [writeW_other _ _ _ _ (by omega)]
        rw [writeW_other _ _ _ _ (by omega)]
        rw [writeW_other _ _ _ _ (by simp only [WSIZE]; omega)]
        rw [hU3]
        exact writeW_same _ _ _
      rw [hM11e]
      rw [show (HDRP (1176 + B) : Nat) = 1168 + B from by
        simp only [HDRP, WSIZE]; omega]
      rw [hM11h]
      rw [show GET_SIZE (1 : Nat) = 0 from by decide]
      rw [show GET_SIZE (ms + S + 18) = ms + 16 + S from by unfold GET_SIZE; omega]
      have hrm : remove_block 1024 M11 (1176 + B) =
          writeW (writeW (writeW M11 (1024 + get_list (ms + 16 + S) * WSIZE) 0)
            (1184 + B) 0) (1176 + B) 0 := by
        unfold remove_block
        dsimp only
        rw [show (HDRP (1176 + B) : Nat) = 1168 + B from by
          simp only [HDRP, WSIZE]; omega]
        rw [hM11h]
        rw [show GET_SIZE (ms + S + 18) = ms + 16 + S from by unfold GET_SIZE; omega]
        rw [show PREV_FLIST_ADDRESS M11 (1176 + B) = 0 from by
          unfold PREV_FLIST_ADDRESS
          rw [show (PREV_ADDRESS (1176 + B) : Nat) = 1184 + B from by
            simp only [PREV_ADDRESS, WSIZE]; omega]
          rw [hM11]
          rw [writeW_other _ _ _ _ (by simp only [WSIZE]; omega)]
          exact writeW_same _ _ _]
        rw [show NEXT_FLIST_ADDRESS M11 (1176 + B) = 0 from by
          unfold NEXT_FLIST_ADDRESS
          rw [hM11]
          rw [writeW_other _ _ _ _ (by simp only [WSIZE]; omega)]
          rw [writeW_other _ _ _ _ (by omega)]
          exact writeW_same _ _ _]
        rw [if_pos (⟨rfl, rfl⟩ : (0 : Nat) = 0 ∧ (0 : Nat) = 0)]
        unfold SET_ROOT
        rw [show (PREV_ADDRESS (1176 + B) : Nat) = 1184 + B from by
          simp only [PREV_ADDRESS, WSIZE]; omega]
        rw [show (NEXT_ADDRESS (1176 + B) : Nat) = 1176 + B from rfl]
      rw [hrm]
      rw [if_pos (show ms + 16 + S - (ms + 16) > 1 <<< 6 from by norm_num; omega)]
      rw [show PACK 0 0 1 = 1 from by decide]
      rw [PACK_eq_add (ms + 16) 2 1 (by omega) (Or.inr rfl) (Or.inr rfl)]
      rw [show (ms + 16 + 2 + 1 : Nat) = ms + 19 from by omega]
      set W5 := writeW (writeW (writeW (writeW (writeW M11
        (1024 + get_list (ms + 16 + S) * WSIZE) 0) (1184 + B) 0) (1176 + B) 0)
        (1184 + B + S + ms) 1) (1168 + B) (ms + 19) with hW5
      have hsplit : NEXT_BLOCK W5 (1176 + B) = 1192 + B + ms := by
        unfold NEXT_BLOCK
        rw [show (1176 + B - WSIZE : Nat) = 1168 + B from by simp only [WSIZE]; omega]
        rw [hW5, writeW_same]
        unfold GET_SIZE
        omega
      rw [hsplit]
      rw [show (HDRP (1192 + B + ms) : Nat) = 1184 + B + ms from by
        simp only [HDRP, WSIZE]; omega]
      rw [show (ms + 16 + S - (ms + 16) : Nat) = S from by omega]
      rw [PACK_eq_add S 2 0 (by omega) (Or.inr rfl) (Or.inl rfl)]
      rw [show (S + 2 + 0 : Nat) = S + 2 from by omega]
      have hftrs : FTRP (writeW W5 (1184 + B + ms) (S + 2)) (1192 + B + ms) =
          1176 + B + ms + S := by
        unfold FTRP DWORD
        rw [show (HDRP (1192 + B + ms) : Nat) = 1184 + B + ms from by
          simp only [HDRP, WSIZE]; omega]
        rw [writeW_same]
        unfold GET_SIZE
        omega
      rw [hftrs]
      have hab2 : add_block 1024 100 (writeW (writeW W5 (1184 + B + ms) (S + 2))
          (1176 + B + ms + S) (S + 2)) (1192 + B + ms) =
          writeW (writeW (writeW (writeW (writeW W5 (1184 + B + ms) (S + 2))
            (1176 + B + ms + S) (S + 2)) (1192 + B + ms) 0) (1200 + B + ms) 0)
            (1024 + get_list S * WSIZE) (1192 + B + ms) := by
        unfold add_block
        dsimp only
        rw [show (HDRP (1192 + B + ms) : Nat) = 1184 + B + ms from by
          simp only [HDRP, WSIZE]; omega]
        rw [show (writeW (writeW W5 (1184 + B + ms) (S + 2))
            (1176 + B + ms + S) (S + 2)) (1184 + B + ms) = S + 2 from by
          rw [writeW_other _ _ _ _ (by omega)]
          exact writeW_same _ _ _]
        rw [show GET_SIZE (S + 2) = S from by unfold GET_SIZE; omega]
        rw [show (NEXT_ADDRESS (1192 + B + ms) : Nat) = 1192 + B + ms from rfl]
        rw [show (PREV_ADDRESS (1192 + B + ms) : Nat) = 1200 + B + ms from by
          simp only [PREV_ADDRESS, WSIZE]; omega]
        have hroot : GET_ROOT (writeW (writeW (writeW (writeW W5
            (1184 + B + ms) (S + 2)) (1176 + B + ms + S) (S + 2))
            (1192 + B + ms) 0) (1200 + B + ms) 0) 1024 (get_list S) = 0 := by
          unfold GET_ROOT
          rw [writeW_other _ _ _ _ (by simp only [WSIZE]; omega)]
          rw [writeW_other _ _ _ _ (by simp only [WSIZE]; omega)]
          rw [writeW_other _ _ _ _ (by simp only [WSIZE]; omega)]
          rw [writeW_other _ _ _ _ (by simp only [WSIZE]; omega)]
          rw [hW5]
          rw [writeW_other _ _ _ _ (by simp only [WSIZE]; omega)]
          rw [writeW_other _ _ _ _ (by simp only [WSIZE]; omega)]
          rw [writeW_other _ _ _ _ (by simp only [WSIZE]; omega)]
          rw [writeW_other _ _ _ _ (by simp only [WSIZE]; omega)]
          by_cases hmc : get_list S = get_list (ms + 16 + S)
          · rw [hmc]
            exact writeW_same _ _ _
          · rw [writeW_other _ _ _ _ (by simp only [WSIZE]; omega)]
            rw [hM11]
            rw [writeW_other _ _ _ _ (by simp only [WSIZE]; omega)]
            rw [writeW_other _ _ _ _ (by simp only [WSIZE]; omega)]
            rw [writeW_other _ _ _ _ (by simp only [WSIZE]; omega)]
            rw [writeW_other _ _ _ _ (by simp only [WSIZE]; omega)]
            rw [writeW_other _ _ _ _ (by simp only [WSIZE]; omega)]
            rw [writeW_other _ _ _ _ (by simp only [WSIZE]; omega)]
            rw [writeW_other _ _ _ _ (by simp only [WSIZE]; omega)]
            exact writeW_same _ _ _
        rw [hroot]
        rw [if_pos rfl]
        unfold SET_ROOT
        rfl
      rw [hab2]
    rw [hplace]
    rw [show (1176 + B + S + (ms + 16) : Nat) = 1192 + B + S + ms from by omega]
  unfold mm_realloc
  rw [if_neg (by omega : ¬ (1176 : Nat) = 0)]
  rw [if_neg (by omega : ¬ mreq = 0)]
  dsimp only
  rw [show (HDRP 1176 : Nat) = 1168 from rfl, h1168]
  rw [show GET_SIZE (B + 3) = B from by unfold GET_SIZE; omega]
  have hnb0 : NEXT_BLOCK st.mem 1176 = 1176 + B := by
    unfold NEXT_BLOCK
    rw [show (1176 - WSIZE : Nat) = 1168 from rfl, h1168]
    unfold GET_SIZE
    omega
  rw [hnb0]
  rw [show (HDRP (1176 + B) : Nat) = 1168 + B from by simp only [HDRP, WSIZE]; omega]
  rw [hh2]
  rw [show GET_ALLOC (S + 2) = 0 from by unfold GET_ALLOC; omega]
  rw [show GET_SIZE (S + 2) = S from by unfold GET_SIZE; omega]
  rw [if_neg (by omega : ¬ ms = B)]
  rw [if_pos (by omega : ms > B)]
  rw [if_neg (by omega : ¬ ((0 : Nat) = 0 ∧ S + B > ms))]
  rw [hmalloc]
  rw [if_neg (by omega : ¬ (1176 + B : Nat) = 0)]
  dsimp only
  set M21 := writeW (writeW (writeW (writeW (writeW (writeW (writeW (writeW
    (writeW (writeW (writeW (writeW (writeW (writeW (writeW (writeW (writeW
    (writeW (writeW (writeW (writeW st.mem
    (1168 + B + S) (ms + 16)) (1176 + B + S + ms) (ms + 16))
    (1184 + B + S + ms) 1)
    (1024 + get_list S * WSIZE) 0) (1184 + B) 0) (1176 + B) 0)
    (1168 + B) (ms + S + 18)) (1176 + B + S + ms) (ms + S + 18))
    (1176 + B) 0) (1184 + B) 0)
    (1024 + get_list (ms + 16 + S) * WSIZE) (1176 + B))
    (1024 + get_list (ms + 16 + S) * WSIZE) 0) (1184 + B) 0) (1176 + B) 0)
    (1184 + B + S + ms) 1) (1168 + B) (ms + 19))
    (1184 + B + ms) (S + 2)) (1176 + B + ms + S) (S + 2))
    (1192 + B + ms) 0) (1200 + B + ms) 0)
    (1024 + get_list S * WSIZE) (1192 + B + ms) with hM21
  set MC := memcpyWords M21 (1176 + B) 1176 (ms / WSIZE) with hMC
  have hMCout : ∀ a, a < 1176 + B → MC a = M21 a := by
    intro a ha
    rw [hMC]
    apply memcpyWords_read_out
    intro j hj
    simp only [WSIZE]
    omega
  have hM21pay : ∀ a, 1176 ≤ a → a ≤ 1160 + B → M21 a = st.mem a := by
    intro a ha1 ha2
    rw [hM21]
    rw [writeW_other _ _ _ _ (by simp only [WSIZE]; omega)]
    rw [writeW_other _ _ _ _ (by omega)]
    rw [writeW_other _ _ _ _ (by omega)]
    rw [writeW_other _ _ _ _ (by omega)]
    rw [writeW_other _ _ _ _ (by omega)]
    rw [writeW_other _ _ _ _ (by omega)]
    rw [writeW_other _ _ _ _ (by omega)]
    rw [writeW_other _ _ _ _ (by omega)]
    rw [writeW_other _ _ _ _ (by omega)]
    rw [writeW_other _ _ _ _ (by simp only [WSIZE]; omega)]
    rw [writeW_other _ _ _ _ (by simp only [WSIZE]; omega)]
    rw [writeW_other _ _ _ _ (by omega)]
    rw [writeW_other _ _ _ _ (by omega)]
    rw [writeW_other _ _ _ _ (by omega)]
    rw [writeW_other _ _ _ _ (by omega)]
    rw [writeW_other _ _ _ _ (by omega)]
    rw [writeW_other _ _ _ _ (by omega)]
    rw [writeW_other _ _ _ _ (by simp only [WSIZE]; omega)]
    rw [writeW_other _ _ _ _ (by omega)]
    rw [writeW_other _ _ _ _ (by omega)]
    rw [writeW_other _ _ _ _ (by omega)]
  have hmc1168 : MC 1168 = B + 3 := by
    rw [hMCout 1168 (by omega)]
    rw [hM21]
    rw [writeW_other _ _ _ _ (by simp only [WSIZE]; omega)]
    rw [writeW_other _ _ _ _ (by omega)]
    rw [writeW_other _ _ _ _ (by omega)]
    rw [writeW_other _ _ _ _ (by omega)]
    rw [writeW_other _ _ _ _ (by omega)]
    rw [writeW_other _ _ _ _ (by omega)]
    rw [writeW_other _ _ _ _ (by omega)]
    rw [writeW_other _ _ _ _ (by omega)]
    rw [writeW_other _ _ _ _ (by omega)]
    rw [writeW_other _ _ _ _ (by simp only [WSIZE]; omega)]
    rw [writeW_other _ _ _ _ (by simp only [WSIZE]; omega)]
    rw [writeW_other _ _ _ _ (by omega)]
    rw [writeW_other _ _ _ _ (by omega)]
    rw [writeW_other _ _ _ _ (by omega)]
    rw [writeW_other _ _ _ _ (by omega)]
    rw [writeW_other _ _ _ _ (by omega)]
    rw [writeW_other _ _ _ _ (by omega)]
    rw [writeW_other _ _ _ _ (by simp only [WSIZE]; omega)]
    rw [writeW_other _ _ _ _ (by omega)]
    rw [writeW_other _ _ _ _ (by omega)]
    rw [writeW_other _ _ _ _ (by omega)]
    exact h1168
  have hmc1168B : MC (1168 + B) = ms + 19 := by
    rw [hMCout (1168 + B) (by omega)]
    rw [hM21]
    rw [writeW_other _ _ _ _ (by simp only [WSIZE]; omega)]
    rw [writeW_other _ _ _ _ (by omega)]
    rw [writeW_other _ _ _ _ (by omega)]
    rw [writeW_other _ _ _ _ (by omega)]
    rw [writeW_other _ _ _ _ (by omega)]
    exact writeW_same _ _ _
  have hmcslotB : MC (1024 + get_list B * WSIZE) =
      (if get_list B = get_list S then 1192 + B + ms else 0) := by
    rw [hMCout (1024 + get_list B * WSIZE) (by simp only [WSIZE]; omega)]
    rw [hM21]
    by_cases hbs : get_list B = get_list S
    · rw [if_pos hbs, hbs]
      exact writeW_same _ _ _
    · rw [if_neg hbs]
      rw [writeW_other _ _ _ _ (by simp only [WSIZE]; omega)]
      rw [writeW_other _ _ _ _ (by simp only [WSIZE]; omega)]
      rw [writeW_other _ _ _ _ (by simp only [WSIZE]; omega)]
      rw [writeW_other _ _ _ _ (by simp only [WSIZE]; omega)]
      rw [writeW_other _ _ _ _ (by simp only [WSIZE]; omega)]
      rw [writeW_other _ _ _ _ (by simp only [WSIZE]; omega)]
      rw [writeW_other _ _ _ _ (by simp only [WSIZE]; omega)]
      rw [writeW_other _ _ _ _ (by simp only [WSIZE]; omega)]
      rw [writeW_other _ _ _ _ (by simp only [WSIZE]; omega)]
      by_cases hbm : get_list B = get_list (ms + 16 + S)
      · rw [hbm]
        exact writeW_same _ _ _
      · rw [writeW_other _ _ _ _ (by simp only [WSIZE]; omega)]
        rw [writeW_other _ _ _ _ (by simp only [WSIZE]; omega)]
        rw [writeW_other _ _ _ _ (by simp only [WSIZE]; omega)]
        rw [writeW_other _ _ _ _ (by simp only [WSIZE]; omega)]
        rw [writeW_other _ _ _ _ (by simp only [WSIZE]; omega)]
        rw [writeW_other _ _ _ _ (by simp only [WSIZE]; omega)]
        rw [writeW_other _ _ _ _ (by simp only [WSIZE]; omega)]
        rw [writeW_other _ _ _ _ (by simp only [WSIZE]; omega)]
        rw [writeW_other _ _ _ _ (by simp only [WSIZE]; omega)]
        rw [writeW_other _ _ _ _ (by simp only [WSIZE]; omega)]
        rw [writeW_other _ _ _ _ (by simp only [WSIZE]; omega)]
        rw [writeW_other _ _ _ _ (by simp only [WSIZE]; omega)]
        have hv := hroots (get_list B) (by omega)
        rw [show (1024 + get_list B * WSIZE : Nat) = 1024 + 8 * get_list B from by
          simp only [WSIZE]; omega]
        rw [hv, if_neg hbs]
  have hfree_mem : ∀ a, 1176 + B ≤ a → a ≤ 1160 + 2 * B →
      (mm_free 100 (AllocState.mk MC (1192 + B + S + ms) st.free_start
        st.heap_prologue (1184 + B + S + ms) st.heap_start) 1176).mem a = MC a := by
    intro a ha1 ha2
    unfold mm_free
    dsimp only
    rw [show (HDRP 1176 : Nat) = 1168 from rfl, hmc1168]
    rw [show GET_SIZE (B + 3) = B from by unfold GET_SIZE; omega]
    rw [show GET_PREV_ALLOC (B + 3) = 2 from by unfold GET_PREV_ALLOC; omega]
    have hnbmc : NEXT_BLOCK MC 1176 = 1176 + B := by
      unfold NEXT_BLOCK
      rw [show (1176 - WSIZE : Nat) = 1168 from rfl, hmc1168]
      unfold GET_SIZE
      omega
    rw [hnbmc]
    rw [show (HDRP (1176 + B) : Nat) = 1168 + B from by simp only [HDRP, WSIZE]; omega]
    rw [hmc1168B]
    rw [show GET_SIZE (ms + 19) = ms + 16 from by unfold GET_SIZE; omega]
    rw [show GET_ALLOC (ms + 19) = 1 from by unfold GET_ALLOC; omega]
    rw [PACK_eq_add B 2 0 (by omega) (Or.inr rfl) (Or.inl rfl)]
    rw [show (B + 2 + 0 : Nat) = B + 2 from by omega]
    have hftr1 : FTRP (writeW MC 1168 (B + 2)) 1176 = 1160 + B := by
      unfold FTRP DWORD
      rw [show (HDRP 1176 : Nat) = 1168 from rfl, writeW_same]
      unfold GET_SIZE
      omega
    rw [hftr1]
    rw [PACK_eq_add (ms + 16) 0 1 (by omega) (Or.inl rfl) (Or.inr rfl)]
    rw [show (ms + 16 + 0 + 1 : Nat) = ms + 17 from by omega]
    rw [if_neg (by omega : ¬ (1 : Nat) = 0)]
    rw [hfs]
    set F3 := writeW (writeW (writeW MC 1168 (B + 2)) (1160 + B) (B + 2))
      (1168 + B) (ms + 17) with hF3
    have hf1168 : F3 1168 = B + 2 := by
      rw [hF3]
      rw [writeW_other _ _ _ _ (by omega)]
      rw [writeW_other _ _ _ _ (by omega)]
      exact writeW_same _ _ _
    unfold coalesce
    dsimp only
    rw [show (HDRP 1176 : Nat) = 1168 from rfl, hf1168]
    rw [show GET_PREV_ALLOC (B + 2) = 2 from by unfold GET_PREV_ALLOC; omega]
    rw [show GET_SIZE (B + 2) = B from by unfold GET_SIZE; omega]
    have hnbf : NEXT_BLOCK F3 1176 = 1176 + B := by
      unfold NEXT_BLOCK
      rw [show (1176 - WSIZE : Nat) = 1168 from rfl, hf1168]
      unfold GET_SIZE
      omega
    rw [hnbf]
    rw [show (HDRP (1176 + B) : Nat) = 1168 + B from by simp only [HDRP, WSIZE]; omega]
    rw [show F3 (1168 + B) = ms + 17 from by rw [hF3]; exact writeW_same _ _ _]
    rw [show GET_ALLOC (ms + 17) = 1 from by unfold GET_ALLOC; omega]
    rw [if_neg (by simp : ¬ ((2 : Nat) ≠ 0 ∧ (1 : Nat) = 0))]
    rw [if_neg (by simp : ¬ ((2 : Nat) = 0 ∧ (1 : Nat) ≠ 0))]
    rw [if_pos (⟨by omega, by omega⟩ : (2 : Nat) ≠ 0 ∧ (1 : Nat) ≠ 0)]
    unfold add_block
    dsimp only
    rw [show (HDRP 1176 : Nat) = 1168 from rfl, hf1168]
    rw [show GET_SIZE (B + 2) = B from by unfold GET_SIZE; omega]
    rw [show (NEXT_ADDRESS 1176 : Nat) = 1176 from rfl]
    rw [show (PREV_ADDRESS 1176 : Nat) = 1184 from rfl]
    have hroot : GET_ROOT (writeW (writeW F3 1176 0) 1184 0) 1024 (get_list B) =
        (if get_list B = get_list S then 1192 + B + ms else 0) := by
      unfold GET_ROOT
      rw [writeW_other _ _ _ _ (by simp only [WSIZE]; omega)]
      rw [writeW_other _ _ _ _ (by simp only [WSIZE]; omega)]
      rw [hF3]
      rw [writeW_other _ _ _ _ (by simp only [WSIZE]; omega)]
      rw [writeW_other _ _ _ _ (by simp only [WSIZE]; omega)]
      rw [writeW_other _ _ _ _ (by simp only [WSIZE]; omega)]
      exact hmcslotB
    rw [hroot]
    by_cases hbs : get_list B = get_list S
    · rw [if_pos hbs]
      rw [if_neg (by omega : ¬ (1192 + B + ms : Nat) = 0)]
      rw [if_pos (by omega : 1192 + B + ms > 1176)]
      unfold SET_ROOT
      rw [writeW_other _ _ _ _ (by simp only [PREV_ADDRESS, WSIZE]; omega)]
      rw [writeW_other _ _ _ _ (by omega)]
      rw [writeW_other _ _ _ _ (by simp only [WSIZE]; omega)]
      rw [writeW_other _ _ _ _ (by omega)]
      rw [writeW_other _ _ _ _ (by omega)]
      rw [hF3]
      rw [writeW_other _ _ _ _ (by omega)]
      rw [writeW_other _ _ _ _ (by omega)]
      rw [writeW_other _ _ _ _ (by omega)]
    · rw [if_neg hbs]
      rw [if_pos rfl]
      unfold SET_ROOT
      rw [writeW_other _ _ _ _ (by simp only [WSIZE]; omega)]
      rw [writeW_other _ _ _ _ (by omega)]
      rw [writeW_other _ _ _ _ (by omega)]
      rw [hF3]
      rw [writeW_other _ _ _ _ (by omega)]
      rw [writeW_other _ _ _ _ (by omega)]
      rw [writeW_other _ _ _ _ (by omega)]
  show _ ∧ _
  constructor
  · rfl
  · intro i hi
    show (mm_free 100 (AllocState.mk MC (1192 + B + S + ms) st.free_start
      st.heap_prologue (1184 + B + S + ms) st.heap_start) 1176).mem
      (1176 + B + 8 * i) = st.mem (1176 + 8 * i)
    rw [hfree_mem (1176 + B + 8 * i) (by omega) (by omega)]
    rw [show (1176 + B + 8 * i : Nat) = (1176 + B) + i * WSIZE from by
      simp only [WSIZE]; omega]
    rw [hMC]
    rw [memcpyWords_read_in M21 (1176 + B) 1176 (ms / WSIZE) i (by
      simp only [WSIZE]; omega)]
    rw [show (1176 + i * WSIZE : Nat) = 1176 + 8 * i from by
      simp only [WSIZE]; omega]
    exact hM21pay (1176 + 8 * i) (by omega) (by omega)

theorem roundSize_ge_add16 (n : Nat) : n + 16 ≤ roundSize n := by
  unfold roundSize DWORD
  split <;> omega

/-- C9: for every request `n ≥ 1`, every `m ≥ n`, and every word pattern `P`
covering the first `n` bytes, allocating `n` from a fresh heap, filling the
payload with `P`, and resizing to `m` succeeds and returns a block whose
first `P.length` words still equal `P`. -/
theorem C9_roundtrip_preserves_pattern (n m : Nat) (P : List Nat)
    (h0 : 1 ≤ n) (hnm : n ≤ m) (hPlen : P.length = (n + 7) / 8) :
    (c9malloc n).2 ≠ 0 ∧ (c9resize n m P).2 ≠ 0 ∧
    readWords (c9resize n m P).1.mem (c9resize n m P).2 P.length = P := by
  have hrs64 : 64 ≤ roundSize n := roundSize_ge n
  have hrs16 : roundSize n % 16 = 0 := roundSize_mod16 n
  have hra16 : n + 16 ≤ roundSize n := roundSize_ge_add16 n
  have hmono : roundSize n ≤ roundSize m := roundSize_mono n m hnm
  have hm0 : 1 ≤ m := le_trans h0 hnm
  have hP : 8 * P.length + 8 ≤ roundSize n := by
    rw [hPlen]
    omega
  by_cases hb1 : roundSize n ≤ 176
  · -- band i: split allocation, shapeA with B = roundSize n, S = 256 - roundSize n
    obtain ⟨hA, hpat⟩ := c9fill_shape_i n P h0 hb1 hP
    have hp2 : (c9malloc n).2 = 1176 := by rw [c9malloc_band_i n h0 hb1]
    have hres : c9resize n m P = mm_realloc growAll 100 (c9fill n P) 1176 m := by
      unfold c9resize
      rw [hp2]
    by_cases hms1 : roundSize m = roundSize n
    · have hno := realloc_noop_A (c9fill n P) (roundSize n) (256 - roundSize n) m
        hA hm0 hms1
      refine ⟨by rw [hp2]; omega, ?_, ?_⟩
      · rw [hres, hno]
        omega
      · rw [hres, hno]
        exact readWords_pat _ _ _ hpat
    · by_cases hms2 : roundSize m < 256
      · have hab := realloc_absorb_A (c9fill n P) (roundSize n) (256 - roundSize n) m
          hA hm0 (by omega) (by omega)
        refine ⟨by rw [hp2]; omega, ?_, ?_⟩
        · rw [hres, hab.1]
          omega
        · rw [hres, hab.1]
          apply readWords_pat
          intro i hi
          rw [hab.2 (1176 + 8 * i) (by omega) (by omega)]
          exact hpat i hi
      · have hco := realloc_copy_A (c9fill n P) (roundSize n) (256 - roundSize n) m
          hA (by omega) hm0 (by omega)
        refine ⟨by rw [hp2]; omega, ?_, ?_⟩
        · rw [hres, hco.1]
          omega
        · rw [hres, hco.1]
          apply readWords_pat
          intro i hi
          rw [hco.2 i (by omega)]
          exact hpat i hi
  · by_cases hb2 : roundSize n ≤ 256
    · -- band ii: the whole 256-byte seed block is consumed, shapeB
      obtain ⟨hB, hpat⟩ := c9fill_shape_ii n P h0 (by omega) hb2 hP
      have hp2 : (c9malloc n).2 = 1176 := by rw [c9malloc_band_ii n h0 (by omega) hb2]
      have hres : c9resize n m P = mm_realloc growAll 100 (c9fill n P) 1176 m := by
        unfold c9resize
        rw [hp2]
      by_cases hms1 : roundSize m ≤ 256
      · have hno := realloc_noop_B (c9fill n P) m hB hm0 hms1
        refine ⟨by rw [hp2]; omega, ?_, ?_⟩
        · rw [hres, hno]
          omega
        · rw [hres, hno]
          exact readWords_pat _ _ _ hpat
      · have hco := realloc_copy_B (c9fill n P) m hB hm0 (by omega)
        refine ⟨by rw [hp2]; omega, ?_, ?_⟩
        · rw [hres, hco.1]
          omega
        · rw [hres, hco.1]
          apply readWords_pat
          intro i hi
          rw [hco.2 i (by omega)]
          exact hpat i hi
    · -- band iii: the heap is extended, shapeA with B = roundSize n, S = 256
      obtain ⟨hA, hpat⟩ := c9fill_shape_iii n P h0 (by omega) hP
      have hp2 : (c9malloc n).2 = 1176 := by rw [c9malloc_band_iii n h0 (by omega)]
      have hres : c9resize n m P = mm_realloc growAll 100 (c9fill n P) 1176 m := by
        unfold c9resize
        rw [hp2]
      by_cases hms1 : roundSize m = roundSize n
      · have hno := realloc_noop_A (c9fill n P) (roundSize n) 256 m hA hm0 hms1
        refine ⟨by rw [hp2]; omega, ?_, ?_⟩
        · rw [hres, hno]
          omega
        · rw [hres, hno]
          exact readWords_pat _ _ _ hpat
      · by_cases hms2 : roundSize m < roundSize n + 256
        · have hab := realloc_absorb_A (c9fill n P) (roundSize n) 256 m
            hA hm0 (by omega) (by omega)
          refine ⟨by rw [hp2]; omega, ?_, ?_⟩
          · rw [hres, hab.1]
            omega
          · rw [hres, hab.1]
            apply readWords_pat
            intro i hi
            rw [hab.2 (1176 + 8 * i) (by omega) (by omega)]
            exact hpat i hi
        · have hco := realloc_copy_A (c9fill n P) (roundSize n) 256 m
            hA (by omega) hm0 (by omega)
          refine ⟨by rw [hp2]; omega, ?_, ?_⟩
          · rw [hres, hco.1]
            omega
          · rw [hres, hco.1]
            apply readWords_pat
            intro i hi
            rw [hco.2 i (by omega)]
            exact hpat i hi

/-- Concrete instance of the round-trip theorem: allocate 24 bytes, fill the
three pattern words, resize to 100 bytes. -/
theorem C9_roundtrip_preserves_pattern_witness :
    (1 ≤ 24 ∧ 24 ≤ 100 ∧ ([1, 2, 3] : List Nat).length = (24 + 7) / 8) ∧
    ((c9malloc 24).2 ≠ 0 ∧ (c9resize 24 100 [1, 2, 3]).2 ≠ 0 ∧
      readWords (c9resize 24 100 [1, 2, 3]).1.mem
        (c9resize 24 100 [1, 2, 3]).2 ([1, 2, 3] : List Nat).length = [1, 2, 3]) :=
  ⟨⟨by decide, by decide, by decide⟩,
   C9_roundtrip_preserves_pattern 24 100 [1, 2, 3] (by decide) (by decide) (by decide)⟩

end MM
